import Mathlib

/-!
# opengacm client controller: application, watcher, preparable, daemon

A shallow embedding of the supervisor engine of
`modules/client/controller` (packages `application`, `watcher`,
`preparable` and `daemon`), and of `PadString` of package `cli`.

Conventions of the embedding.

* A Go `error` is an `Option String`: `none` is `nil`.
* Every call that leaves the program (file helpers of package `utils`,
  `os.StartProcess`, signals, the liveness check, waiting for a child) is
  appended to `OS.trace` (newest first) and its outcome is read from an
  `Env`, a record of arbitrary functions of the trace so far.  Theorems
  quantify over every `Env`, so they hold for every behaviour of the
  operating system; concrete scenarios fix one `Env`.
* A Go function that panics or blocks for ever yields `Except.error` with
  the corresponding `Fault`; a function that returns yields `Except.ok`.
* The registry `map[string]ApplicationContainer` holds pointers to distinct
  `Application` objects.  It is embedded as a list of key/value pairs, a
  mutation through the pointer being a write-back under the same key.  The
  order of the list stands for the (unspecified) iteration order of the map.
* `Status *ApplicationStatus` is embedded as the record it points to (it is
  allocated by `Preparable.Start` and never shared), and Go's `int` as an `Int`
  that arithmetic wraps to 64 bits (`wrapInt`).
-/

namespace Opengacm

/-- Go's `error` value: `none` is `nil`, `some msg` is an error whose text is `msg`. -/
abbrev GoError := Option String

/-- Ways in which a Go call fails to return. -/
inductive Fault where
  | panic
  | blocked
deriving DecidableEq

/-! ## package application -/

/-- ApplicationStatus is a wrapper with the process current status (status.go). -/
structure ApplicationStatus where
  Status : String
  Restarts : Int
deriving DecidableEq

/-- SetStatus will set the process string status. -/
def ApplicationStatus.SetStatus (s : ApplicationStatus) (status : String) : ApplicationStatus :=
  { s with Status := status }

/-- The value that a Go `int` (64 bits, two's complement) holds for the integer `x`:
arithmetic on `int` wraps around. -/
def wrapInt (x : Int) : Int :=
  (x + 2 ^ 63) % 2 ^ 64 - 2 ^ 63

/-- AddRestart will add one restart to the process status (`as.Restarts++` on an `int`:
at the largest value the counter wraps to the smallest). -/
def ApplicationStatus.AddRestart (s : ApplicationStatus) : ApplicationStatus :=
  { s with Restarts := wrapInt (s.Restarts + 1) }

/-- Application is the `os.Process` wrapper of container.go.  The field `process` is the
handle returned by `os.StartProcess` (the pid it was created for), `none` when nil. -/
structure Application where
  Name : String
  Cmd : String
  Args : List String
  Path : String
  Pidfile : String
  Outfile : String
  Errfile : String
  KeepAlive : Bool
  Pid : Int
  Status : ApplicationStatus
  process : Option Int
deriving DecidableEq

/-- Signals the code sends through a process handle. -/
inductive Signal where
  | SIGTERM
  | SIGKILL
deriving DecidableEq

/-- One call that leaves the program. `SafeWriteTomlFile` carries the registry that is
encoded, as key/value pairs. -/
inductive Event where
  | GetFile (path : String)
  | StartProcess (name : String) (argv : List String)
  | WriteFile (path : String) (data : String)
  | DeleteFile (path : String)
  | RemoveAll (path : String)
  | Signal (pid : Int) (sig : Signal)
  | Release (pid : Int)
  | Probe (pid : Int)
  | WaitStop (identifier : String)
  | Command (name : String) (args : List String)
  | SafeWriteTomlFile (configPath : String) (applications : List (String × Application))
  | SafeReadTomlFile (configFile : String)
  | MkdirAll (path : String)
deriving DecidableEq

/-- The part of the operating system the code acts on: the paths that exist, with their
contents, and the trace of calls made so far (newest first). -/
structure OS where
  files : List (String × String)
  trace : List Event
deriving DecidableEq

/-- Outcomes of the calls that leave the program, each a function of the trace so far.
`Probe` answers whether `os.FindProcess(pid)` followed by `Signal(0)` reports no error,
`WaitStop` whether the value awaited on the channel returned by `StopWatcher` ever arrives
(the child's `Wait` returns), `Command` is `exec.Command(name, args...).Output()` for a
non-empty name, `Join` is `path.Join`. -/
structure Env where
  GetFile : List Event → String → GoError
  StartProcess : List Event → String → List String → Except String Int
  WriteFile : List Event → String → String → GoError
  DeleteFile : List Event → String → GoError
  RemoveAll : List Event → String → GoError
  Signal : List Event → Int → Signal → GoError
  Probe : List Event → Int → Bool
  WaitStop : List Event → String → Bool
  SafeWriteTomlFile : List Event → String → GoError
  Command : List Event → String → List String → String × GoError
  Join : String → String → String

/-- Append one call to the trace. -/
def OS.log (os : OS) (e : Event) : OS :=
  { os with trace := e :: os.trace }

/-- A path exists. -/
def OS.fileExists (os : OS) (path : String) : Bool :=
  os.files.any (fun f => f.1 == path)

/-- Textual containment of `p` in the directory tree rooted at `dir`. -/
def isUnder (dir p : String) : Bool :=
  p == dir || (dir.data ++ ['/']).isPrefixOf p.data

/-- Modelled from the spec: `utils.GetFile` (package `utils` is not among the sources),
"create-or-open output/error files": on success the path exists afterwards. -/
def OS.GetFile (env : Env) (os : OS) (path : String) : OS × GoError :=
  match env.GetFile os.trace path with
  | some e => (os.log (.GetFile path), some e)
  | none =>
    ({ files := if os.fileExists path then os.files else os.files ++ [(path, "")],
       trace := .GetFile path :: os.trace }, none)

/-- Modelled from the spec: `utils.WriteFile` (package `utils` is not among the sources),
"writes the new pid (decimal text) to PidFile": on success the path holds the data. -/
def OS.WriteFile (env : Env) (os : OS) (path data : String) : OS × GoError :=
  match env.WriteFile os.trace path data with
  | some e => (os.log (.WriteFile path data), some e)
  | none =>
    ({ files := os.files.filter (fun f => f.1 != path) ++ [(path, data)],
       trace := .WriteFile path data :: os.trace }, none)

/-- Modelled from the spec: `utils.DeleteFile` (package `utils` is not among the sources),
"delete files": on success the path no longer exists, on failure nothing is removed. -/
def OS.DeleteFile (env : Env) (os : OS) (path : String) : OS × GoError :=
  match env.DeleteFile os.trace path with
  | some e => (os.log (.DeleteFile path), some e)
  | none =>
    ({ files := os.files.filter (fun f => f.1 != path),
       trace := .DeleteFile path :: os.trace }, none)

/-- The call `os.RemoveAll(path)`.  For the empty path it returns nil and removes
nothing.  Otherwise, when it reports no error the path and everything under it are gone;
what a failed call leaves behind is not described (nothing is removed). -/
def OS.RemoveAll (env : Env) (os : OS) (path : String) : OS × GoError :=
  if path = "" then (os.log (.RemoveAll path), none)
  else
    match env.RemoveAll os.trace path with
    | some e => (os.log (.RemoveAll path), some e)
    | none =>
      ({ files := os.files.filter (fun f => !isUnder path f.1),
         trace := .RemoveAll path :: os.trace }, none)

/-- Identifier: application identifier that will be used by watcher to keep track of its
processes. -/
def Application.Identifier (application : Application) : String :=
  application.Name

/-- ShouldKeepAlive returns true if the application should be kept alive or not. -/
def Application.ShouldKeepAlive (application : Application) : Bool :=
  application.KeepAlive

/-- The fields of an application that are fixed when it is created (everything but `Pid`,
`Status` and the process handle). -/
def Application.config (application : Application) :
    String × String × List String × String × String × String × String × Bool :=
  (application.Name, application.Cmd, application.Args, application.Path,
    application.Pidfile, application.Outfile, application.Errfile, application.KeepAlive)

/-- GetPid returns the application current PID. -/
def Application.GetPid (application : Application) : Int :=
  application.Pid

/-- GetStatus returns the application current status. -/
def Application.GetStatus (application : Application) : ApplicationStatus :=
  application.Status

/-- SetStatus sets the application status. -/
def Application.SetStatus (application : Application) (status : String) : Application :=
  { application with Status := application.Status.SetStatus status }

/-- AddRestart adds one restart to the application status. -/
def Application.AddRestart (application : Application) : Application :=
  { application with Status := application.Status.AddRestart }

/-- NotifyStopped: notify that application was stopped so we can set its PID to -1. -/
def Application.NotifyStopped (application : Application) : Application :=
  { application with Pid := -1 }

/-- IsAlive: `os.FindProcess(application.Pid)` and `p.Signal(syscall.Signal(0)) == nil`.
`Process.Signal` reports an error without asking the kernel when the pid is -1
("process already released") or 0 ("process not initialized"); otherwise the kernel is
asked, which is recorded in the trace. -/
def Application.IsAlive (env : Env) (os : OS) (application : Application) : Bool × OS :=
  if application.Pid = -1 ∨ application.Pid = 0 then (false, os)
  else (env.Probe os.trace application.Pid, os.log (.Probe application.Pid))

/-- Start will execute the command Cmd that should run the application. It will also
create an out, err and pidfile in case they do not exist yet. -/
def Application.Start (env : Env) (os : OS) (application : Application) :
    Application × OS × GoError :=
  match os.GetFile env application.Outfile with
  | (os1, some err) => (application, os1, some err)
  | (os1, none) =>
    match os1.GetFile env application.Errfile with
    | (os2, some err) => (application, os2, some err)
    | (os2, none) =>
      let args := application.Name :: application.Args
      let os3 := os2.log (.StartProcess application.Cmd args)
      match env.StartProcess os2.trace application.Cmd args with
      | .error err => (application, os3, some err)
      | .ok pid =>
        let application1 := { application with process := some pid, Pid := pid }
        match os3.WriteFile env application1.Pidfile (toString pid) with
        | (os4, some err) => (application1, os4, some err)
        | (os4, none) =>
          ({ application1 with Status := application1.Status.SetStatus "started" }, os4, none)

/-- Release: will release the application and remove its PID file (the error of
`utils.DeleteFile` is dropped). -/
def Application.release (env : Env) (os : OS) (application : Application) : OS :=
  let os1 := match application.process with
    | some pid => os.log (.Release pid)
    | none => os
  (os1.DeleteFile env application.Pidfile).1

/-- ForceStop will forcefully send a SIGKILL signal to application killing it instantly. -/
def Application.ForceStop (env : Env) (os : OS) (application : Application) :
    Application × OS × GoError :=
  match application.process with
  | some pid =>
    let err := env.Signal os.trace pid .SIGKILL
    let os1 := os.log (.Signal pid .SIGKILL)
    let application1 := { application with Status := application.Status.SetStatus "stopped" }
    (application1, application1.release env os1, err)
  | none => (application, os, some "Process does not exist.")

/-- GracefullyStop will send a SIGTERM signal asking the application to terminate. -/
def Application.GracefullyStop (env : Env) (os : OS) (application : Application) :
    Application × OS × GoError :=
  match application.process with
  | some pid =>
    let err := env.Signal os.trace pid .SIGTERM
    ({ application with Status := application.Status.SetStatus "asked to stop" },
      os.log (.Signal pid .SIGTERM), err)
  | none => (application, os, some "Process does not exist.")

/-- Restart will try to gracefully stop the application and then Start it again. -/
def Application.Restart (env : Env) (os : OS) (application : Application) :
    Application × OS × GoError :=
  match application.IsAlive env os with
  | (true, os1) =>
    match application.GracefullyStop env os1 with
    | (application1, os2, some err) => (application1, os2, some err)
    | (application1, os2, none) => application1.Start env os2
  | (false, os1) => application.Start env os1

/-- Delete will delete everything created by this application, including the out, err
and pid file. -/
def Application.Delete (env : Env) (os : OS) (application : Application) : OS × GoError :=
  let os1 := application.release env os
  match os1.DeleteFile env application.Outfile with
  | (os2, some err) => (os2, some err)
  | (os2, none) =>
    match os2.DeleteFile env application.Errfile with
    | (os3, some err) => (os3, some err)
    | (os3, none) => os3.RemoveAll env application.Path

/-! ## package watcher -/

/-- Watcher is responsible for watching a list of processes.  Of the table
`watchApplications` only the identifiers that have an entry are kept; the goroutines an
entry stands for are not part of the embedding. -/
structure Watcher where
  watchApplications : List String
deriving DecidableEq

/-- InitWatcher will create a Watcher instance. -/
def InitWatcher : Watcher :=
  { watchApplications := [] }

/-- AddApplicationWatcher will add a watcher on application, unless one already exists
for its identifier. -/
def Watcher.AddApplicationWatcher (watcher : Watcher) (application : Application) : Watcher :=
  if application.Identifier ∈ watcher.watchApplications then watcher
  else { watchApplications := watcher.watchApplications ++ [application.Identifier] }

/-- StopWatcher will stop a running watcher on the application with the given identifier.
The boolean is `waitStop != nil`.  The stopped dispatcher deletes its own table entry
(`defer delete`); that deletion is taken to have happened when the table is next read. -/
def Watcher.StopWatcher (watcher : Watcher) (identifier : String) : Bool × Watcher :=
  if identifier ∈ watcher.watchApplications then
    (true, { watchApplications := watcher.watchApplications.filter (fun n => n != identifier) })
  else (false, watcher)

/-! ## package preparable -/

/-- Preparable is a preparable with all the necessary informations to run an application. -/
structure Preparable where
  Name : String
  SourcePath : String
  Cmd : String
  SysFolder : String
  Language : String
  KeepAlive : Bool
  Args : List String
deriving DecidableEq

/-- The call `strings.TrimSuffix(s, suffix)`. -/
def TrimSuffix (s suffix : String) : String :=
  if suffix.data.isSuffixOf s.data then ⟨s.data.take (s.data.length - suffix.data.length)⟩
  else s

/-- Identifier of a preparable. -/
def Preparable.Identifier (preparable : Preparable) : String :=
  preparable.Name

/-- The method getPath: indexing `SysFolder[len(SysFolder)-1]` panics on the empty string;
one trailing "/" is trimmed from the stored `SysFolder` at every call. -/
def Preparable.getPath (preparable : Preparable) : Except Fault (Preparable × String) :=
  match preparable.SysFolder.data.getLast? with
  | none => .error .panic
  | some c =>
    let preparable1 :=
      if c = '/' then { preparable with SysFolder := TrimSuffix preparable.SysFolder "/" }
      else preparable
    .ok (preparable1, preparable1.SysFolder ++ "/" ++ preparable1.Name)

/-- The method getBinPath. -/
def Preparable.getBinPath (preparable : Preparable) : Except Fault (Preparable × String) :=
  match preparable.getPath with
  | .error f => .error f
  | .ok (preparable1, path) => .ok (preparable1, path ++ "/" ++ preparable1.Name)

/-- The method getPidPath. -/
def Preparable.getPidPath (preparable : Preparable) : Except Fault (Preparable × String) :=
  match preparable.getBinPath with
  | .error f => .error f
  | .ok (preparable1, bin) => .ok (preparable1, bin ++ ".pid")

/-- The method getOutPath. -/
def Preparable.getOutPath (preparable : Preparable) : Except Fault (Preparable × String) :=
  match preparable.getBinPath with
  | .error f => .error f
  | .ok (preparable1, bin) => .ok (preparable1, bin ++ ".out")

/-- The method getErrPath. -/
def Preparable.getErrPath (preparable : Preparable) : Except Fault (Preparable × String) :=
  match preparable.getBinPath with
  | .error f => .error f
  | .ok (preparable1, bin) => .ok (preparable1, bin ++ ".err")

/-- The call `exec.Command(name, args...).Output()`: with an empty name nothing is run
and an error is reported. -/
def OS.Command (env : Env) (os : OS) (name : String) (args : List String) :
    OS × String × GoError :=
  if name = "" then (os, "", some "exec: no command")
  else (os.log (.Command name args), env.Command os.trace name args)

/-- PrepareBin will compile the Golang project from SourcePath and populate Cmd with the
proper command for the application to be executed. -/
def Preparable.PrepareBin (env : Env) (os : OS) (preparable : Preparable) :
    Except Fault (Preparable × OS × String × GoError) :=
  match preparable.SourcePath.data.getLast? with
  | none => .error .panic
  | some c =>
    let preparable1 :=
      if c = '/' then { preparable with SourcePath := TrimSuffix preparable.SourcePath "/" }
      else preparable
    match preparable1.getBinPath with
    | .error f => .error f
    | .ok (preparable2, binPath) =>
      let cmd := if preparable2.Language = "go" then "go" else ""
      let cmdArgs :=
        if preparable2.Language = "go" then ["build", "-o", binPath, preparable2.SourcePath ++ "/."]
        else []
      match preparable2.getBinPath with
      | .error f => .error f
      | .ok (preparable3, bin) =>
        let preparable4 := { preparable3 with Cmd := bin }
        .ok (preparable4, os.Command env cmd cmdArgs)

/-- Start will execute the application based on the information presented on the
preparable.  The application is returned also when its `Start` reports an error. -/
def Preparable.Start (env : Env) (os : OS) (preparable : Preparable) :
    Except Fault (Preparable × Application × OS × GoError) :=
  match preparable.getPath with
  | .error f => .error f
  | .ok (preparable1, path) =>
    match preparable1.getPidPath with
    | .error f => .error f
    | .ok (preparable2, pidfile) =>
      match preparable2.getOutPath with
      | .error f => .error f
      | .ok (preparable3, outfile) =>
        match preparable3.getErrPath with
        | .error f => .error f
        | .ok (preparable4, errfile) =>
          let proc : Application :=
            { Name := preparable.Name, Cmd := preparable.Cmd, Args := preparable.Args,
              Path := path, Pidfile := pidfile, Outfile := outfile, Errfile := errfile,
              KeepAlive := preparable.KeepAlive, Pid := 0,
              Status := { Status := "", Restarts := 0 }, process := none }
          .ok (preparable4, proc.Start env os)

/-! ## package daemon -/

/-- The read `m[k]` of a Go map embedded as a list of pairs. -/
def lookup (m : List (String × Application)) (k : String) : Option Application :=
  match m with
  | [] => none
  | (k1, v) :: rest => if k1 = k then some v else lookup rest k

/-- The write `m[k] = v`: the value under an existing key is replaced, a new key is added. -/
def store (m : List (String × Application)) (k : String) (v : Application) :
    List (String × Application) :=
  match m with
  | [] => [(k, v)]
  | (k1, v1) :: rest => if k1 = k then (k1, v) :: rest else (k1, v1) :: store rest k v

/-- The call `delete(m, k)`. -/
def remove (m : List (String × Application)) (k : String) : List (String × Application) :=
  m.filter (fun e => e.1 != k)

/-- The keys of a map. -/
def keys (m : List (String × Application)) : List String :=
  m.map Prod.fst

/-- Daemon is the main module that keeps everything in place (the mutex is not part of
the embedding: every operation below is one critical section; which operations take the
mutex is recorded apart, under `Sync`). -/
structure Daemon where
  SysFolder : String
  PidFile : String
  OutFile : String
  ErrFile : String
  Watcher : Watcher
  Applications : List (String × Application)
deriving DecidableEq

/-- The method getConfigPath. -/
def Daemon.getConfigPath (env : Env) (daemon : Daemon) : String :=
  env.Join daemon.SysFolder "config.toml"

/-- The method saveApplicationsWrapper: `utils.SafeWriteTomlFile(daemon, configPath)`. -/
def Daemon.saveApplicationsWrapper (env : Env) (daemon : Daemon) (os : OS) : OS × GoError :=
  let configPath := daemon.getConfigPath env
  (os.log (.SafeWriteTomlFile configPath daemon.Applications),
    env.SafeWriteTomlFile os.trace configPath)

/-- SaveApplications will save a list of applications onto a file inside configPath. -/
def Daemon.SaveApplications (env : Env) (daemon : Daemon) (os : OS) : OS × GoError :=
  daemon.saveApplicationsWrapper env os

/-- ListApplications will return a list of all procs. -/
def Daemon.ListApplications (daemon : Daemon) : List Application :=
  daemon.Applications.map Prod.snd

/-- The helper start (lock held by the caller). -/
def Daemon.start (env : Env) (daemon : Daemon) (os : OS) (application : Application) :
    Daemon × Application × OS × GoError :=
  match application.IsAlive env os with
  | (false, os1) =>
    match application.Start env os1 with
    | (application1, os2, some err) => (daemon, application1, os2, some err)
    | (application1, os2, none) =>
      ({ daemon with Watcher := daemon.Watcher.AddApplicationWatcher application1 },
        application1.SetStatus "running", os2, none)
  | (true, os1) => (daemon, application, os1, none)

/-- The helper delete. -/
def Daemon.delete (env : Env) (os : OS) (application : Application) : OS × GoError :=
  application.Delete env os

/-- The helper stop (lock held by the caller).  The receive `<-waitStop` blocks until the
watcher reports the child gone; when that never happens the call does not return. -/
def Daemon.stop (env : Env) (daemon : Daemon) (os : OS) (application : Application) :
    Except Fault (Daemon × Application × OS × GoError) :=
  match application.IsAlive env os with
  | (true, os1) =>
    match daemon.Watcher.StopWatcher application.Identifier with
    | (waitStop, watcher1) =>
      let daemon1 := { daemon with Watcher := watcher1 }
      match application.GracefullyStop env os1 with
      | (application1, os2, some err) => .ok (daemon1, application1, os2, some err)
      | (application1, os2, none) =>
        if waitStop then
          if env.WaitStop os2.trace application1.Identifier then
            .ok (daemon1, (application1.NotifyStopped).SetStatus "stopped",
              os2.log (.WaitStop application1.Identifier), none)
          else .error .blocked
        else .ok (daemon1, application1, os2, none)
  | (false, os1) => .ok (daemon, application, os1, none)

/-- The helper updateStatus. -/
def Daemon.updateStatus (env : Env) (os : OS) (application : Application) :
    Application × OS :=
  match application.IsAlive env os with
  | (true, os1) => (application.SetStatus "running", os1)
  | (false, os1) => ((application.NotifyStopped).SetStatus "stopped", os1)

/-- The helper restart (lock held by the caller). -/
def Daemon.restart (env : Env) (daemon : Daemon) (os : OS) (application : Application) :
    Except Fault (Daemon × Application × OS × GoError) :=
  match daemon.stop env os application with
  | .error f => .error f
  | .ok (daemon1, application1, os1, some err) => .ok (daemon1, application1, os1, some err)
  | .ok (daemon1, application1, os1, none) => .ok (daemon1.start env os1 application1)

/-- RunPreparable will run applicationPreparable and add it to the watch list in case
everything goes well. -/
def Daemon.RunPreparable (env : Env) (daemon : Daemon) (os : OS)
    (applicationPreparable : Preparable) : Except Fault (Daemon × OS × GoError) :=
  match lookup daemon.Applications applicationPreparable.Identifier with
  | some _ => .ok (daemon, os, some "Trying to start a application that already exist.")
  | none =>
    match applicationPreparable.Start env os with
    | .error f => .error f
    | .ok (_, _, os1, some err) => .ok (daemon, os1, some err)
    | .ok (_, application, os1, none) =>
      let daemon1 :=
        { daemon with
          Applications := store daemon.Applications application.Identifier application }
      let os2 := (daemon1.saveApplicationsWrapper env os1).1
      let daemon2 :=
        { daemon1 with Watcher := daemon1.Watcher.AddApplicationWatcher application }
      .ok ({ daemon2 with
              Applications := store daemon2.Applications application.Identifier
                (application.SetStatus "running") }, os2, none)

/-- StartApplications will start an application. -/
def Daemon.StartApplications (env : Env) (daemon : Daemon) (os : OS) (name : String) :
    Daemon × OS × GoError :=
  match lookup daemon.Applications name with
  | some application =>
    match daemon.start env os application with
    | (daemon1, application1, os1, err) =>
      ({ daemon1 with Applications := store daemon1.Applications name application1 }, os1, err)
  | none => (daemon, os, some "Unknown application.")

/-- StopApplications will stop an application with the given name. -/
def Daemon.StopApplications (env : Env) (daemon : Daemon) (os : OS) (name : String) :
    Except Fault (Daemon × OS × GoError) :=
  match lookup daemon.Applications name with
  | some application =>
    match daemon.stop env os application with
    | .error f => .error f
    | .ok (daemon1, application1, os1, err) =>
      .ok ({ daemon1 with Applications := store daemon1.Applications name application1 },
        os1, err)
  | none => .ok (daemon, os, some "Unknown application.")

/-- RestartApplications will restart an application. -/
def Daemon.RestartApplications (env : Env) (daemon : Daemon) (os : OS) (name : String) :
    Except Fault (Daemon × OS × GoError) :=
  match daemon.StopApplications env os name with
  | .error f => .error f
  | .ok (daemon1, os1, some err) => .ok (daemon1, os1, some err)
  | .ok (daemon1, os1, none) => .ok (daemon1.StartApplications env os1 name)

/-- DeleteApplications will delete an application and all its files and childs forever. -/
def Daemon.DeleteApplications (env : Env) (daemon : Daemon) (os : OS) (name : String) :
    Except Fault (Daemon × OS × GoError) :=
  match lookup daemon.Applications name with
  | some application =>
    match daemon.stop env os application with
    | .error f => .error f
    | .ok (daemon1, application1, os1, some err) =>
      .ok ({ daemon1 with Applications := store daemon1.Applications name application1 },
        os1, some err)
    | .ok (daemon1, application1, os1, none) =>
      let daemon2 := { daemon1 with Applications := remove daemon1.Applications name }
      match Daemon.delete env os1 application1 with
      | (os2, some err) => .ok (daemon2, os2, some err)
      | (os2, none) => .ok (daemon2, os2, none)
  | none => .ok (daemon, os, none)

/-- The loop of Revive over the snapshot taken by ListApplications: applications without
keep-alive are skipped, the first failing start ends the loop with its error. -/
def Daemon.ReviveLoop (env : Env) (daemon : Daemon) (os : OS) :
    List (String × Application) → Daemon × List (String × Application) × OS × GoError
  | [] => (daemon, [], os, none)
  | (k, application) :: rest =>
    if !application.ShouldKeepAlive then
      match Daemon.ReviveLoop env daemon os rest with
      | (daemon1, rest1, os1, err) => (daemon1, (k, application) :: rest1, os1, err)
    else
      match daemon.start env os application with
      | (daemon1, application1, os1, some err) =>
        (daemon1, (k, application1) :: rest, os1,
          some ("Failed to revive application " ++ application1.Identifier ++ " due to " ++ err))
      | (daemon1, application1, os1, none) =>
        match Daemon.ReviveLoop env daemon1 os1 rest with
        | (daemon2, rest1, os2, err) => (daemon2, (k, application1) :: rest1, os2, err)

/-- Revive will revive all procs listed on ListProcs. -/
def Daemon.Revive (env : Env) (daemon : Daemon) (os : OS) : Daemon × OS × GoError :=
  match Daemon.ReviveLoop env daemon os daemon.Applications with
  | (daemon1, applications, os1, err) => ({ daemon1 with Applications := applications }, os1, err)

/-- One iteration of the loop of WatchApplications, for the application delivered on the
restart channel, named by its registry key.  The error that the loop only logs is
returned next to the state.  A delivery for an application that is no longer registered is
outside the embedding. -/
def Daemon.WatchApplicationsStep (env : Env) (daemon : Daemon) (os : OS) (key : String) :
    Except Fault (Daemon × OS × GoError) :=
  match lookup daemon.Applications key with
  | none => .ok (daemon, os, none)
  | some application =>
    if !application.ShouldKeepAlive then
      match Daemon.updateStatus env os application with
      | (application1, os1) =>
        .ok ({ daemon with Applications := store daemon.Applications key application1 },
          os1, none)
    else
      match application.IsAlive env os with
      | (_, os1) =>
        match daemon.restart env os1 application.AddRestart with
        | .error f => .error f
        | .ok (daemon1, application1, os2, err) =>
          .ok ({ daemon1 with Applications := store daemon1.Applications key application1 },
            os2, err)

/-- WatchApplications, run over the deliveries of the restart channel in order. -/
def Daemon.WatchApplications (env : Env) (daemon : Daemon) (os : OS) :
    List String → Except Fault (Daemon × OS)
  | [] => .ok (daemon, os)
  | key :: rest =>
    match daemon.WatchApplicationsStep env os key with
    | .error f => .error f
    | .ok (daemon1, os1, _) => Daemon.WatchApplications env daemon1 os1 rest

/-- The inner loop of UpdateStatus over the snapshot taken by ListApplications. -/
def Daemon.UpdateStatusLoop (env : Env) (os : OS) :
    List (String × Application) → List (String × Application) × OS
  | [] => ([], os)
  | (k, application) :: rest =>
    match Daemon.updateStatus env os application with
    | (application1, os1) =>
      match Daemon.UpdateStatusLoop env os1 rest with
      | (rest1, os2) => ((k, application1) :: rest1, os2)

/-- One round of UpdateStatus (the body of its endless loop, without the sleep). -/
def Daemon.UpdateStatus (env : Env) (daemon : Daemon) (os : OS) : Daemon × OS :=
  match Daemon.UpdateStatusLoop env os daemon.Applications with
  | (applications, os1) => ({ daemon with Applications := applications }, os1)

/-- The loop of Stop: every application is stopped, errors are dropped. -/
def Daemon.StopLoop (env : Env) (daemon : Daemon) (os : OS) :
    List (String × Application) → Except Fault (Daemon × List (String × Application) × OS)
  | [] => .ok (daemon, [], os)
  | (k, application) :: rest =>
    match daemon.stop env os application with
    | .error f => .error f
    | .ok (daemon1, application1, os1, _) =>
      match Daemon.StopLoop env daemon1 os1 rest with
      | .error f => .error f
      | .ok (daemon2, rest1, os2) => .ok (daemon2, (k, application1) :: rest1, os2)

/-- Stop will stop APM and all of its running applications. -/
def Daemon.Stop (env : Env) (daemon : Daemon) (os : OS) :
    Except Fault (Daemon × OS × GoError) :=
  match Daemon.StopLoop env daemon os daemon.Applications with
  | .error f => .error f
  | .ok (daemon1, applications, os1) =>
    let daemon2 := { daemon1 with Applications := applications }
    .ok (daemon2, daemon2.saveApplicationsWrapper env os1)

/-- Prepare will compile the source code into a binary and return a preparable ready to
be executed. -/
def Daemon.Prepare (env : Env) (daemon : Daemon) (os : OS) (sourcePath name language : String)
    (keepAlive : Bool) (args : List String) :
    Except Fault (Preparable × OS × String × GoError) :=
  Preparable.PrepareBin env os
    { Name := name, SourcePath := sourcePath, Cmd := "", SysFolder := daemon.SysFolder,
      Language := language, KeepAlive := keepAlive, Args := args }

/-- DecodableDaemon is a struct that the config toml file will decode to.  The pointer
`Watcher` may be nil. -/
structure DecodableDaemon where
  SysFolder : String
  PidFile : String
  OutFile : String
  ErrFile : String
  Watcher : Option Watcher
  Applications : List (String × Application)
deriving DecidableEq

/-- Outcomes of the calls that only `InitMaster` makes, each a function of the trace so
far: `SafeReadTomlFile` is `utils.SafeReadTomlFile(configFile, decodableDaemon)`, which
reports an error or fills the decodable daemon, `MkdirAll` is `os.MkdirAll(path, 0777)`
and `Dir` is `path.Dir`. -/
structure InitEnv where
  SafeReadTomlFile : List Event → String → Except String DecodableDaemon
  MkdirAll : List Event → String → GoError
  Dir : String → String

/-- The call `os.MkdirAll(path, 0777)`: when it reports no error the path exists. -/
def OS.MkdirAll (ienv : InitEnv) (os : OS) (path : String) : OS × GoError :=
  match ienv.MkdirAll os.trace path with
  | some e => (os.log (.MkdirAll path), some e)
  | none =>
    ({ files := if os.fileExists path then os.files else os.files ++ [(path, "")],
       trace := .MkdirAll path :: os.trace }, none)

/-- The loop `for k, v := range decodableDaemon.Applications { applications[k] = v }` of
InitMaster, into the map `applications`. -/
def copyApplications (applications : List (String × Application)) :
    List (String × Application) → List (String × Application)
  | [] => applications
  | (k, v) :: rest => copyApplications (store applications k v) rest

/-- InitMaster will start a daemon instance with configFile.  A failed read panics.  The
decoded watcher is replaced by the fresh one before it is used, the error of `Revive` is
dropped, and the three goroutines started last (WatchApplications, SaveApplicationsLoop,
UpdateStatus) are not part of the result. -/
def InitMaster (env : Env) (ienv : InitEnv) (os : OS) (configFile : String) :
    Except Fault (Daemon × OS) :=
  let watcher := InitWatcher
  match ienv.SafeReadTomlFile os.trace configFile with
  | .error _ => .error .panic
  | .ok decodableDaemon =>
    let os1 := os.log (.SafeReadTomlFile configFile)
    let applications := copyApplications [] decodableDaemon.Applications
    let daemon : Daemon :=
      { SysFolder := decodableDaemon.SysFolder, PidFile := decodableDaemon.PidFile,
        OutFile := decodableDaemon.OutFile, ErrFile := decodableDaemon.ErrFile,
        Watcher := watcher, Applications := applications }
    if daemon.SysFolder = "" then
      let os2 := (os1.MkdirAll ienv (ienv.Dir configFile)).1
      let daemon1 := { daemon with SysFolder := ienv.Dir configFile ++ "/" }
      match daemon1.Revive env os2 with
      | (daemon2, os3, _) => .ok (daemon2, os3)
    else
      match daemon.Revive env os1 with
      | (daemon2, os3, _) => .ok (daemon2, os3)

/-! ## package daemon, remote.go -/

/-- RemoteDaemon is a struct that holds the daemon instance. -/
structure RemoteDaemon where
  daemon : Daemon
deriving DecidableEq

/-- GoApplication is a struct that represents the necessary arguments for a go binary to
be built. -/
structure GoApplication where
  SourcePath : String
  Name : String
  KeepAlive : Bool
  Args : List String
deriving DecidableEq

/-- One entry of the reply of MonitStatus. -/
structure ApplicationDataResponse where
  Name : String
  Pid : Int
  Status : ApplicationStatus
  KeepAlive : Bool
deriving DecidableEq

/-- The reply of MonitStatus. -/
structure ApplicationResponse where
  Applications : List ApplicationDataResponse
deriving DecidableEq

/-- Save will save the current running and stopped processes onto a file.  A handler
gets the value `ack` points to and returns the value it leaves there. -/
def RemoteDaemon.Save (env : Env) (rd : RemoteDaemon) (os : OS) (_req : String) (_ack : Bool) :
    RemoteDaemon × OS × Bool × GoError :=
  let ack := true
  match rd.daemon.SaveApplications env os with
  | (os1, err) => (rd, os1, ack, err)

/-- Resurrect will restore all previously save processes. -/
def RemoteDaemon.Resurrect (env : Env) (rd : RemoteDaemon) (os : OS) (_req : String)
    (_ack : Bool) : RemoteDaemon × OS × Bool × GoError :=
  let ack := true
  match rd.daemon.Revive env os with
  | (daemon1, os1, err) => ({ daemon := daemon1 }, os1, ack, err)

/-- StartGoApplication will build a binary based on the arguments passed on goApplication,
then it will start the application.  The error of a failed `Prepare` is formatted by
`fmt.Errorf("ERROR: %s OUTPUT: %s", err, string(output))`. -/
def RemoteDaemon.StartGoApplication (env : Env) (rd : RemoteDaemon) (os : OS)
    (goApplication : GoApplication) (_ack : Bool) :
    Except Fault (RemoteDaemon × OS × Bool × GoError) :=
  match rd.daemon.Prepare env os goApplication.SourcePath goApplication.Name "go"
      goApplication.KeepAlive goApplication.Args with
  | .error f => .error f
  | .ok (preparable, os1, output, err) =>
    let ack := true
    match err with
    | some e => .ok (rd, os1, ack, some ("ERROR: " ++ e ++ " OUTPUT: " ++ output))
    | none =>
      match rd.daemon.RunPreparable env os1 preparable with
      | .error f => .error f
      | .ok (daemon1, os2, err1) => .ok ({ daemon := daemon1 }, os2, ack, err1)

/-- RestartApplications will restart an application that was previously built. -/
def RemoteDaemon.RestartApplications (env : Env) (rd : RemoteDaemon) (os : OS)
    (applicationName : String) (_ack : Bool) :
    Except Fault (RemoteDaemon × OS × Bool × GoError) :=
  let ack := true
  match rd.daemon.RestartApplications env os applicationName with
  | .error f => .error f
  | .ok (daemon1, os1, err) => .ok ({ daemon := daemon1 }, os1, ack, err)

/-- StartApplications will start an application that was previously built. -/
def RemoteDaemon.StartApplications (env : Env) (rd : RemoteDaemon) (os : OS)
    (applicationName : String) (_ack : Bool) : RemoteDaemon × OS × Bool × GoError :=
  let ack := true
  match rd.daemon.StartApplications env os applicationName with
  | (daemon1, os1, err) => ({ daemon := daemon1 }, os1, ack, err)

/-- StopApplications will stop an application that is currently running. -/
def RemoteDaemon.StopApplications (env : Env) (rd : RemoteDaemon) (os : OS)
    (applicationName : String) (_ack : Bool) :
    Except Fault (RemoteDaemon × OS × Bool × GoError) :=
  let ack := true
  match rd.daemon.StopApplications env os applicationName with
  | .error f => .error f
  | .ok (daemon1, os1, err) => .ok ({ daemon := daemon1 }, os1, ack, err)

/-- MonitStatus will query for the status of each application. -/
def RemoteDaemon.MonitStatus (rd : RemoteDaemon) (_req : String) :
    ApplicationResponse × GoError :=
  ({ Applications := rd.daemon.ListApplications.map (fun application =>
      { Name := application.Identifier, Pid := application.GetPid,
        Status := application.GetStatus, KeepAlive := application.ShouldKeepAlive }) }, none)

/-- DeleteApplications will delete an application with name applicationName. -/
def RemoteDaemon.DeleteApplications (env : Env) (rd : RemoteDaemon) (os : OS)
    (applicationName : String) (_ack : Bool) :
    Except Fault (RemoteDaemon × OS × Bool × GoError) :=
  let ack := true
  match rd.daemon.DeleteApplications env os applicationName with
  | .error f => .error f
  | .ok (daemon1, os1, err) => .ok ({ daemon := daemon1 }, os1, ack, err)

/-! ## package cli -/

/-- The loop of PadString: `turn` is the Go variable of that name, `len(str)` is the
number of bytes of the string. -/
def PadStringLoop (totalSize : Int) (turn : Nat) (str : String) : String :=
  if (str.utf8ByteSize : Int) ≥ totalSize then str
  else if turn = 0 then PadStringLoop totalSize (turn ^^^ 1) (" " ++ str)
  else PadStringLoop totalSize (turn ^^^ 1) (str ++ " ")
termination_by (totalSize - str.utf8ByteSize).toNat
decreasing_by
  all_goals
    have h : ∀ s t : String, (s ++ t).utf8ByteSize = s.utf8ByteSize + t.utf8ByteSize := by
      intro s t
      cases s
      cases t
      show String.utf8ByteSize ⟨_ ++ _⟩ = _
      simp [String.utf8ByteSize_mk, String.utf8Len_append]
    have h1 : " ".utf8ByteSize = 1 := by decide
    simp_wf
    rw [h, h1]
    omega

/-- PadString will add totalSize spaces evenly to the right and left side of str. -/
def PadString (str : String) (totalSize : Int) : String :=
  PadStringLoop totalSize 0 str

/-- A string of `n` spaces. -/
def spaces (n : Nat) : String :=
  ⟨List.replicate n ' '⟩

/-! ## The mutex of the daemon -/

/-- What a run of an operation of daemon.go does to the daemon's mutex and to the
registry, in order: `Lock` and `Unlock` are the calls `daemon.Lock()` and
`daemon.Unlock()` (a deferred unlock comes last), `Registry` is a statement that reads or
writes `daemon.Applications` or an application held in it, named by what it calls. -/
inductive Sync where
  | Lock
  | Unlock
  | Registry (call : String)
deriving DecidableEq

/-- Every registry access of a run is made while the mutex is held by the run, `held`
telling whether it is at the start. -/
def guarded : Bool → List Sync → Bool
  | _, [] => true
  | _, .Lock :: rest => guarded true rest
  | _, .Unlock :: rest => guarded false rest
  | held, .Registry _ :: rest => held && guarded held rest

/-- The statements of RunPreparable (daemon.go 130-146), on its longest path. -/
def Daemon.RunPreparableSync : List Sync :=
  [.Lock, .Registry "Applications[Identifier]", .Registry "Applications[Identifier] = application",
    .Registry "saveApplicationsWrapper", .Registry "SetStatus", .Unlock]

/-- The statements of StartApplications (daemon.go 167-174). -/
def Daemon.StartApplicationsSync : List Sync :=
  [.Lock, .Registry "Applications[name]", .Registry "start", .Unlock]

/-- The statements of StopApplications (daemon.go 177-184). -/
def Daemon.StopApplicationsSync : List Sync :=
  [.Lock, .Registry "Applications[name]", .Registry "stop", .Unlock]

/-- The statements of DeleteApplications (daemon.go 187-204), on its longest path. -/
def Daemon.DeleteApplicationsSync : List Sync :=
  [.Lock, .Registry "Applications[name]", .Registry "stop",
    .Registry "delete(Applications, name)", .Registry "delete", .Unlock]

/-- The statements of Revive (daemon.go 208-226) when no start fails: the loop reads
every application of the snapshot and starts the keep-alive ones. -/
def Daemon.ReviveSync (daemon : Daemon) : List Sync :=
  [.Lock, .Registry "ListApplications"] ++
    daemon.ListApplications.map (fun application =>
      .Registry (if application.ShouldKeepAlive then "start" else "ShouldKeepAlive")) ++
    [.Unlock]

/-- The statements of SaveApplications (daemon.go 321-325). -/
def Daemon.SaveApplicationsSync : List Sync :=
  [.Lock, .Registry "saveApplicationsWrapper", .Unlock]

/-- The statements of Stop (daemon.go 307-317): the method calls neither `daemon.Lock()`
nor `daemon.Unlock()`. -/
def Daemon.StopSync (daemon : Daemon) : List Sync :=
  [.Registry "ListApplications"] ++
    daemon.ListApplications.map (fun _ => .Registry "stop") ++
    [.Registry "saveApplicationsWrapper"]

/-- The statements of the handler MonitStatus (remote.go 92-110): neither the handler nor
ListApplications calls `daemon.Lock()`. -/
def RemoteDaemon.MonitStatusSync (rd : RemoteDaemon) : List Sync :=
  [.Registry "ListApplications"] ++
    rd.daemon.ListApplications.map (fun _ => .Registry "GetStatus")

/-! ## The persisted snapshot -/

/-- Modelled from the spec: what `utils.SafeWriteTomlFile` (package `utils` is not among
the sources) encodes of the registry, "the full map of applications", where "the
transient process handle is never persisted; Pid is". -/
def persistedApplications (applications : List (String × Application)) :
    List (String × Application) :=
  applications.map (fun e => (e.1, { e.2 with process := none }))

/-- Modelled from the spec: the registry held by the file at `path` after the calls of a
trace (newest first).  "Persist writes a TOML document atomically": it is the registry of
the last `SafeWriteTomlFile` to `path` that reported no error.  "Reading tolerates absence
(empty registry)": it is empty when there is none. -/
def storedApplications (env : Env) : List Event → String → List (String × Application)
  | [], _ => []
  | .SafeWriteTomlFile configPath applications :: trace, path =>
    if configPath = path ∧ env.SafeWriteTomlFile trace configPath = none then
      persistedApplications applications
    else storedApplications env trace path
  | _ :: trace, path => storedApplications env trace path

/-- Modelled from the spec: `utils.SafeReadTomlFile` (package `utils` is not among the
sources) as the inverse of `utils.SafeWriteTomlFile`: the read reports no error and
decodes the registry stored at the path.  The four paths of the daemon, which the trace
does not record, are those of `header`. -/
def persistentEnv (env : Env) (ienv : InitEnv) (header : DecodableDaemon) : InitEnv :=
  { ienv with
    SafeReadTomlFile := fun trace path =>
      .ok { header with Applications := storedApplications env trace path } }

/-! ## Vocabulary of the statements -/

/-- What a handler adds to the result of the supervisor method it calls: the daemon is the
one the handler holds and `ack` is true. -/
def replied (r : Daemon × OS × GoError) : RemoteDaemon × OS × Bool × GoError :=
  ({ daemon := r.1 }, r.2.1, true, r.2.2)

/-- The registry `m1` has the keys of `m` in the same order, and every application of `m`
is related by `R` to the one that took its place. -/
def Touched (R : Application → Application → Prop) (m m1 : List (String × Application)) :
    Prop :=
  List.Forall₂ (fun e e1 => e1.1 = e.1 ∧ R e.2 e1.2) m m1

/-- The restart counter of `a1` is not below that of `a`. -/
def Grows (a a1 : Application) : Prop :=
  a.Status.Restarts ≤ a1.Status.Restarts

/-- No application that is registered under the same key before and after has lost
restarts. -/
def RestartsKept (m m1 : List (String × Application)) : Prop :=
  ∀ k a a1, lookup m k = some a → lookup m1 k = some a1 → Grows a a1

/-- What `Revive` does to one application `a`, leaving `a1`: the fixed fields and the
restart counter are kept; without keep-alive nothing changes; with keep-alive, and when
the whole pass returned nil (`ok`), either the label is "running" or the application was
found alive by a liveness check and is exactly as before. -/
def Revived (env : Env) (ok : Prop) (a a1 : Application) : Prop :=
  a1.config = a.config ∧ a1.Status.Restarts = a.Status.Restarts ∧
  (a.KeepAlive = false → a1 = a) ∧
  (ok → a.KeepAlive = true →
    a1.Status.Status = "running" ∨
      (a1 = a ∧ a.Pid ≠ -1 ∧ a.Pid ≠ 0 ∧ ∃ tr, env.Probe tr a.Pid = true))

/-- The restart counter of `a` is a Go `int` below the largest one, 2^63 - 1: it can be
incremented without wrapping. -/
def BelowMaxInt (a : Application) : Prop :=
  -2 ^ 63 ≤ a.Status.Restarts ∧ a.Status.Restarts < 2 ^ 63 - 1

/-- What one step of the restart loop for `key` does to the counter of an application `a`
of the registry `m`, leaving `a1`: it is kept, or `a` is the keep-alive application under
`key` and it is incremented as a Go `int`. -/
def Counted (m : List (String × Application)) (key : String) (a a1 : Application) : Prop :=
  a1.Status.Restarts = a.Status.Restarts ∨
    (lookup m key = some a ∧ a.KeepAlive = true ∧
      a1.Status.Restarts = wrapInt (a.Status.Restarts + 1))

/-- Every run of "/" in a path replaced by a single "/", as `path.Clean` does to
repeated separators. -/
def squeeze : List Char → List Char
  | [] => []
  | c :: rest => if c = '/' ∧ rest.head? = some '/' then squeeze rest else c :: squeeze rest

/-- Two paths that differ only in repeated separators: the file system resolves them to
the same file. -/
def samePath (p q : String) : Prop :=
  squeeze p.data = squeeze q.data

/-- The contents of the file at a path, when it exists. -/
def OS.readFile (os : OS) (path : String) : Option String :=
  (os.files.find? (fun f => f.1 == path)).map Prod.snd

/-! ## Concrete scenarios -/

/-- An operating system where every call succeeds, a started process gets pid 4242, no
pid answers the liveness check and a stopped child is reaped. -/
def quietEnv : Env :=
  { GetFile := fun _ _ => none
    StartProcess := fun _ _ _ => .ok 4242
    WriteFile := fun _ _ _ => none
    DeleteFile := fun _ _ => none
    RemoveAll := fun _ _ => none
    Signal := fun _ _ _ => none
    Probe := fun _ _ => false
    WaitStop := fun _ _ => true
    SafeWriteTomlFile := fun _ _ => none
    Command := fun _ _ _ => ("", none)
    Join := fun a b => a ++ "/" ++ b }

/-- The same operating system, except that every pid answers the liveness check. -/
def busyEnv : Env :=
  { quietEnv with Probe := fun _ _ => true }

/-- An operating system with no file and no call made yet. -/
def emptyOS : OS :=
  { files := [], trace := [] }

/-- The preparable of scenario S1, as `Prepare` leaves it for `SysFolder = "/tmp"`. -/
def svcPreparable : Preparable :=
  { Name := "svc", SourcePath := "src/svc", Cmd := "/tmp/svc/svc", SysFolder := "/tmp",
    Language := "go", KeepAlive := true, Args := [] }

/-- A daemon with an empty registry. -/
def emptyDaemon : Daemon :=
  { SysFolder := "/tmp", PidFile := "", OutFile := "", ErrFile := "",
    Watcher := InitWatcher, Applications := [] }

/-- The application `svc` as a persisted snapshot describes it. -/
def svcApplication (keepAlive : Bool) (pid : Int) (label : String) : Application :=
  { Name := "svc", Cmd := "/tmp/svc/svc", Args := [], Path := "/tmp/svc",
    Pidfile := "/tmp/svc/svc.pid", Outfile := "/tmp/svc/svc.out",
    Errfile := "/tmp/svc/svc.err", KeepAlive := keepAlive, Pid := pid,
    Status := { Status := label, Restarts := 0 }, process := none }

/-- A daemon whose registry holds `svc` only. -/
def svcDaemon (keepAlive : Bool) (pid : Int) (label : String) : Daemon :=
  { emptyDaemon with Applications := [("svc", svcApplication keepAlive pid label)] }

/-- The application `svc` while its process 4242 runs under the daemon's watch. -/
def liveSvc (keepAlive : Bool) : Application :=
  { svcApplication keepAlive 4242 "running" with process := some 4242 }

/-- A daemon that started `svc` itself: a process handle and a watcher entry exist. -/
def liveDaemon (keepAlive : Bool) : Daemon :=
  { emptyDaemon with
    Watcher := { watchApplications := ["svc"] }
    Applications := [("svc", liveSvc keepAlive)] }

/-- An operating system as `quietEnv`, except that the file "/var/run/svc.pid" cannot be
deleted. -/
def stubbornPidEnv : Env :=
  { quietEnv with
    DeleteFile := fun _ path => if path = "/var/run/svc.pid" then some "permission denied"
      else none }

/-- A stopped `svc` whose pid file lies outside its directory, as a snapshot may describe
it. -/
def strayPidSvc : Application :=
  { svcApplication false (-1) "stopped" with Pidfile := "/var/run/svc.pid" }

/-- The files of `strayPidSvc`. -/
def strayPidOS : OS :=
  { files := [("/var/run/svc.pid", "4242"), ("/tmp/svc", ""), ("/tmp/svc/svc", ""),
      ("/tmp/svc/svc.out", ""), ("/tmp/svc/svc.err", "")],
    trace := [] }

/-- The preparable for `svc` with a given SysFolder, source path, language and Cmd. -/
def preparedPreparable (sysFolder sourcePath language cmd : String) : Preparable :=
  { Name := "svc", SourcePath := sourcePath, Cmd := cmd, SysFolder := sysFolder,
    Language := language, KeepAlive := true, Args := [] }

/-- A preparable as `Daemon.Prepare` builds it for `svc`: no Cmd yet. -/
def freshPreparable (sysFolder sourcePath language : String) : Preparable :=
  preparedPreparable sysFolder sourcePath language ""

/-- The application `svc` as `Preparable.Start` leaves it on `quietEnv`, for given paths. -/
def startedSvc (cmd path pidfile outfile errfile : String) : Application :=
  { Name := "svc", Cmd := cmd, Args := [], Path := path, Pidfile := pidfile,
    Outfile := outfile, Errfile := errfile, KeepAlive := true, Pid := 4242,
    Status := { Status := "started", Restarts := 0 }, process := some 4242 }

/-- An operating system as `quietEnv`, except that no process can be started. -/
def noExecEnv : Env :=
  { quietEnv with StartProcess := fun _ _ _ => .error "exec format error" }

/-- An operating system as `quietEnv`, except that every build fails. -/
def brokenBuildEnv : Env :=
  { quietEnv with Command := fun _ _ _ => ("cannot find package", some "exit status 1") }

/-- The request to build and start `svc` from "src/svc". -/
def svcRequest : GoApplication :=
  { SourcePath := "src/svc", Name := "svc", KeepAlive := true, Args := [] }

/-- An operating system as `quietEnv`, except that no signal can be delivered. -/
def deafEnv : Env :=
  { quietEnv with Signal := fun _ _ _ => some "os: process already finished" }

/-- An operating system as `quietEnv`, except that no directory can be removed. -/
def stuckDirEnv : Env :=
  { quietEnv with RemoveAll := fun _ _ => some "permission denied" }

/-- An operating system as `quietEnv`, except that only the binary of `svc` can be
started. -/
def pickyEnv : Env :=
  { quietEnv with
    StartProcess := fun _ name _ => if name = "/tmp/svc/svc" then .ok 4242
      else .error "exec format error" }

/-- A stopped keep-alive application `bad`, whose binary cannot be started on `pickyEnv`. -/
def badApplication : Application :=
  { svcApplication true (-1) "stopped" with Name := "bad", Cmd := "/tmp/bad/bad" }

/-- A stopped keep-alive application `late`, which runs the binary of `svc`. -/
def lateApplication : Application :=
  { svcApplication true (-1) "stopped" with Name := "late" }

/-- A daemon whose registry holds `svc`, `bad` and `late`, all stopped and keep-alive, in
that iteration order. -/
def threeDaemon : Daemon :=
  { emptyDaemon with
    Applications := [("svc", svcApplication true (-1) "stopped"), ("bad", badApplication),
      ("late", lateApplication)] }

/-- A decoded snapshot without SysFolder that holds the stopped `svc` only. -/
def svcSnapshot : DecodableDaemon :=
  { SysFolder := "", PidFile := "", OutFile := "", ErrFile := "", Watcher := none,
    Applications := [("svc", svcApplication false (-1) "stopped")] }

/-- An operating system where every read decodes `svcSnapshot`, every directory can be
created and `path.Dir` cuts a path at its last "/". -/
def snapshotEnv : InitEnv :=
  { SafeReadTomlFile := fun _ _ => .ok svcSnapshot
    MkdirAll := fun _ _ => none
    Dir := fun p => ⟨((p.data.reverse.dropWhile (fun c => c != '/')).drop 1).reverse⟩ }

/-- The application `svc` running under the daemon's watch after 2^63 - 1 restarts. -/
def wornSvc : Application :=
  { liveSvc true with Status := { Status := "running", Restarts := 9223372036854775807 } }

/-- A daemon that watches `wornSvc`. -/
def wornDaemon : Daemon :=
  { liveDaemon true with Applications := [("svc", wornSvc)] }

/-! ## The registry as a map -/

theorem lookup_store_self (m : List (String × Application)) (k : String) (v : Application) :
    lookup (store m k v) k = some v := by
  induction m with
  | nil => simp [store, lookup]
  | cons e rest ih =>
    obtain ⟨k1, v1⟩ := e
    by_cases h : k1 = k
    · simp [store, lookup, h]
    · simp [store, lookup, h, ih]

theorem lookup_store_ne (m : List (String × Application)) (k k2 : String) (v : Application)
    (h : k2 ≠ k) : lookup (store m k v) k2 = lookup m k2 := by
  induction m with
  | nil => simp [store, lookup, Ne.symm h]
  | cons e rest ih =>
    obtain ⟨k1, v1⟩ := e
    by_cases h1 : k1 = k
    · subst h1
      simp [store, lookup, Ne.symm h]
    · by_cases h2 : k1 = k2
      · subst h2
        simp [store, lookup, h1]
      · simp [store, lookup, h1, h2, ih]

theorem lookup_remove_self (m : List (String × Application)) (k : String) :
    lookup (remove m k) k = none := by
  induction m with
  | nil => simp [remove, lookup]
  | cons e rest ih =>
    obtain ⟨k1, v1⟩ := e
    by_cases h : k1 = k
    · subst h
      simpa [remove, List.filter_cons] using ih
    · simpa [remove, List.filter_cons, h, lookup] using ih

theorem lookup_remove_ne (m : List (String × Application)) (k k2 : String) (h : k2 ≠ k) :
    lookup (remove m k) k2 = lookup m k2 := by
  induction m with
  | nil => simp [remove, lookup]
  | cons e rest ih =>
    obtain ⟨k1, v1⟩ := e
    by_cases h1 : k1 = k
    · subst h1
      simpa [remove, List.filter_cons, lookup, Ne.symm h] using ih
    · by_cases h2 : k1 = k2
      · subst h2
        simp [remove, List.filter_cons, lookup, h1]
      · simpa [remove, List.filter_cons, lookup, h1, h2] using ih

theorem mem_keys_of_lookup (m : List (String × Application)) (k : String) (a : Application)
    (h : lookup m k = some a) : k ∈ keys m := by
  induction m with
  | nil => simp [lookup] at h
  | cons e rest ih =>
    obtain ⟨k1, v1⟩ := e
    by_cases h1 : k1 = k
    · simp [keys, h1]
    · simp only [lookup, h1, if_false] at h
      have := ih h
      simp [keys] at this ⊢
      exact Or.inr this

theorem keys_store_of_lookup (m : List (String × Application)) (k : String)
    (a v : Application) (h : lookup m k = some a) : keys (store m k v) = keys m := by
  induction m with
  | nil => simp [lookup] at h
  | cons e rest ih =>
    obtain ⟨k1, v1⟩ := e
    by_cases h1 : k1 = k
    · simp [store, keys, h1]
    · simp only [lookup, h1, if_false] at h
      have := ih h
      simp [store, keys, h1] at this ⊢
      exact this

/-! ## Calls that leave the program -/

theorem OS.GetFile_eq {env : Env} {os os1 : OS} {path : String} {e : GoError}
    (h : os.GetFile env path = (os1, e)) :
    os1.trace = .GetFile path :: os.trace ∧ e = env.GetFile os.trace path := by
  unfold OS.GetFile at h
  split at h <;> simp_all [OS.log] <;> (obtain ⟨h1, h2⟩ := h; subst h1; simp_all)

theorem OS.WriteFile_eq {env : Env} {os os1 : OS} {path data : String} {e : GoError}
    (h : os.WriteFile env path data = (os1, e)) :
    os1.trace = .WriteFile path data :: os.trace ∧ e = env.WriteFile os.trace path data := by
  unfold OS.WriteFile at h
  split at h <;> simp_all [OS.log] <;> (obtain ⟨h1, h2⟩ := h; subst h1; simp_all)

/-! ## What `Application.Start` keeps and what it sets -/

theorem Application.Start_spec (env : Env) (os : OS) (application : Application) :
    (application.Start env os).1.config = application.config ∧
    (application.Start env os).1.Status.Restarts = application.Status.Restarts ∧
    ((application.Start env os).2.2 = none →
      (application.Start env os).1.Status.Status = "started") ∧
    os.trace.length < (application.Start env os).2.1.trace.length := by
  unfold Application.Start
  rcases h1 : os.GetFile env application.Outfile with ⟨os1, e1⟩
  have t1 := (OS.GetFile_eq h1).1
  cases e1 with
  | some err => simp [t1]
  | none =>
    rcases h2 : os1.GetFile env application.Errfile with ⟨os2, e2⟩
    have t2 := (OS.GetFile_eq h2).1
    cases e2 with
    | some err =>
      simp only [h2]
      simp [t1, t2]
      omega
    | none =>
      cases h3 : env.StartProcess os2.trace application.Cmd
          (application.Name :: application.Args) with
      | error err =>
        simp only [h2, h3]
        simp [t1, t2, OS.log]
        omega
      | ok pid =>
        rcases h4 : (os2.log (.StartProcess application.Cmd
            (application.Name :: application.Args))).WriteFile env application.Pidfile
            (toString pid) with ⟨os4, e4⟩
        have t4 := (OS.WriteFile_eq h4).1
        cases e4 with
        | some err =>
          simp only [h2, h3, h4]
          simp [t1, t2, t4, OS.log, Application.config]
          omega
        | none =>
          simp only [h2, h3, h4]
          simp [t1, t2, t4, OS.log, ApplicationStatus.SetStatus, Application.config]
          omega

theorem Application.Start_spec_of_eq {env : Env} {os : OS} {application : Application}
    {r : Application × OS × GoError} (h : application.Start env os = r) :
    r.1.config = application.config ∧
    r.1.Status.Restarts = application.Status.Restarts ∧
    (r.2.2 = none → r.1.Status.Status = "started") ∧
    os.trace.length < r.2.1.trace.length := by
  subst h
  exact Application.Start_spec env os application

theorem Application.config_name {a b : Application} (h : a.config = b.config) :
    a.Name = b.Name ∧ a.KeepAlive = b.KeepAlive ∧ a.Path = b.Path ∧
      a.Pidfile = b.Pidfile ∧ a.Outfile = b.Outfile ∧ a.Errfile = b.Errfile := by
  simp only [Application.config, Prod.mk.injEq] at h
  obtain ⟨h1, -, -, h4, h5, h6, h7, h8⟩ := h
  exact ⟨h1, h8, h4, h5, h6, h7⟩

theorem Preparable.Start_of_ok {env : Env} {os os1 : OS} {prep p : Preparable}
    {application : Application} {e : GoError}
    (h : prep.Start env os = .ok (p, application, os1, e)) :
    application.Name = prep.Name ∧ application.KeepAlive = prep.KeepAlive ∧
    os.trace.length < os1.trace.length := by
  unfold Preparable.Start at h
  repeat' split at h
  all_goals simp at h
  obtain ⟨-, h2⟩ := h
  have hs := Application.Start_spec_of_eq h2
  have hc := Application.config_name hs.1
  exact ⟨hc.1, hc.2.1, hs.2.2.2⟩

/-! ## Registration -/

/-- C1: whenever `RunPreparable` returns an error the daemon, and with it the registry, is
as before the call, and the error comes from a name that is already a registry key or is
the error of `prep.Start`.  For a name that is already registered the call returns an
error and leaves the operating system untouched, whereas every return of `prep.Start`
leaves a call in the trace: `prep.Start` was not called.  The registry, a map with
distinct keys, keeps the name exactly once. -/
theorem RunPreparable_error_leaves_registry (env : Env) (daemon : Daemon) (os : OS)
    (prep : Preparable) :
    (∀ daemon1 os1 err, daemon.RunPreparable env os prep = .ok (daemon1, os1, some err) →
        daemon1 = daemon ∧
        ((∃ a, lookup daemon.Applications prep.Name = some a) ∨
          ∃ p a, prep.Start env os = .ok (p, a, os1, some err))) ∧
    (∀ a, lookup daemon.Applications prep.Name = some a →
        daemon.RunPreparable env os prep =
          .ok (daemon, os, some "Trying to start a application that already exist.") ∧
        (∀ p a1 os1 e, prep.Start env os = .ok (p, a1, os1, e) → os1.trace ≠ os.trace) ∧
        ((keys daemon.Applications).Nodup →
          (keys daemon.Applications).count prep.Name = 1)) := by
  constructor
  · intro daemon1 os1 err h
    unfold Daemon.RunPreparable at h
    cases hl : lookup daemon.Applications prep.Identifier with
    | some a =>
      simp only [hl] at h
      simp at h
      exact ⟨h.1.symm, Or.inl ⟨a, hl⟩⟩
    | none =>
      simp only [hl] at h
      cases hs : prep.Start env os with
      | error f => simp [hs] at h
      | ok r =>
        obtain ⟨p, a, os2, e⟩ := r
        cases e with
        | none => simp [hs] at h
        | some err2 =>
          simp [hs] at h
          obtain ⟨h1, h2, h3⟩ := h
          subst h1 h2 h3
          exact ⟨rfl, Or.inr ⟨p, a, rfl⟩⟩
  · intro a hl
    refine ⟨?_, ?_, ?_⟩
    · unfold Daemon.RunPreparable
      have : lookup daemon.Applications prep.Identifier = some a := hl
      simp [this]
    · intro p a1 os1 e hs heq
      have := (Preparable.Start_of_ok hs).2.2
      rw [heq] at this
      exact absurd this (lt_irrefl _)
    · intro hnd
      exact List.count_eq_one_of_mem hnd (mem_keys_of_lookup _ _ _ hl)

/-- Scenario S1 for C1: `svc` is registered and running; registering it again is refused
with the operating system untouched, and the registry holds `svc` once. -/
theorem RunPreparable_error_leaves_registry_witness :
    lookup (svcDaemon true 4242 "running").Applications svcPreparable.Name =
        some (svcApplication true 4242 "running") ∧
      (svcDaemon true 4242 "running").RunPreparable quietEnv emptyOS svcPreparable =
        .ok (svcDaemon true 4242 "running", emptyOS,
          some "Trying to start a application that already exist.") ∧
      (keys (svcDaemon true 4242 "running").Applications).count svcPreparable.Name = 1 :=
  ⟨by decide,
    ((RunPreparable_error_leaves_registry quietEnv (svcDaemon true 4242 "running") emptyOS
      svcPreparable).2 (svcApplication true 4242 "running") (by decide)).1,
    ((RunPreparable_error_leaves_registry quietEnv (svcDaemon true 4242 "running") emptyOS
      svcPreparable).2 (svcApplication true 4242 "running") (by decide)).2.2 (by decide)⟩

/-- C2: for a preparable whose name is not a registry key and whose `Start` succeeds,
`RunPreparable` returns nil; afterwards the registry maps the name to the started
application with status label "running", and every other key maps to what it did. -/
theorem RunPreparable_registers_running (env : Env) (daemon : Daemon) (os os1 : OS)
    (prep p : Preparable) (application : Application)
    (hnew : lookup daemon.Applications prep.Name = none)
    (hstart : prep.Start env os = .ok (p, application, os1, none)) :
    ∃ daemon1 os2, daemon.RunPreparable env os prep = .ok (daemon1, os2, none) ∧
      lookup daemon1.Applications prep.Name = some (application.SetStatus "running") ∧
      (application.SetStatus "running").Status.Status = "running" ∧
      ∀ k, k ≠ prep.Name → lookup daemon1.Applications k = lookup daemon.Applications k := by
  have hname : application.Identifier = prep.Name := (Preparable.Start_of_ok hstart).1
  have hl : lookup daemon.Applications prep.Identifier = none := hnew
  unfold Daemon.RunPreparable
  simp only [hl, hstart, hname]
  refine ⟨_, _, rfl, ?_, rfl, ?_⟩
  · exact lookup_store_self _ _ _
  · intro k hk
    simp only [lookup_store_ne _ _ _ _ hk]

/-- Scenario for C2: `svc` is registered on an empty registry. -/
theorem RunPreparable_registers_running_witness :
    lookup emptyDaemon.Applications svcPreparable.Name = none ∧
      svcPreparable.Start quietEnv emptyOS = .ok (svcPreparable,
        { svcApplication true 4242 "started" with process := some 4242 },
        { files := [("/tmp/svc/svc.out", ""), ("/tmp/svc/svc.err", ""),
            ("/tmp/svc/svc.pid", "4242")],
          trace := [.WriteFile "/tmp/svc/svc.pid" "4242", .StartProcess "/tmp/svc/svc" ["svc"],
            .GetFile "/tmp/svc/svc.err", .GetFile "/tmp/svc/svc.out"] }, none) ∧
      ∃ daemon1 os2, emptyDaemon.RunPreparable quietEnv emptyOS svcPreparable =
          .ok (daemon1, os2, none) ∧
        lookup daemon1.Applications svcPreparable.Name =
          some ({ svcApplication true 4242 "started" with process := some 4242 }.SetStatus
            "running") ∧
        ({ svcApplication true 4242 "started" with process := some 4242 }.SetStatus
            "running").Status.Status = "running" ∧
        ∀ k, k ≠ svcPreparable.Name →
          lookup daemon1.Applications k = lookup emptyDaemon.Applications k :=
  ⟨by decide, by rfl,
    RunPreparable_registers_running quietEnv emptyDaemon emptyOS
      { files := [("/tmp/svc/svc.out", ""), ("/tmp/svc/svc.err", ""),
          ("/tmp/svc/svc.pid", "4242")],
        trace := [.WriteFile "/tmp/svc/svc.pid" "4242", .StartProcess "/tmp/svc/svc" ["svc"],
          .GetFile "/tmp/svc/svc.err", .GetFile "/tmp/svc/svc.out"] }
      svcPreparable svcPreparable
      { svcApplication true 4242 "started" with process := some 4242 } (by decide) (by rfl)⟩

/-! ## Unknown names -/

/-- C3: for a name that is not a registry key, `StartApplications`, `StopApplications`
and `RestartApplications` each return the error "Unknown application." and leave the
daemon (the registry and every application in it) and the operating system as they were. -/
theorem unknown_application_is_rejected (env : Env) (daemon : Daemon) (os : OS)
    (name : String) (h : lookup daemon.Applications name = none) :
    daemon.StartApplications env os name = (daemon, os, some "Unknown application.") ∧
    daemon.StopApplications env os name = .ok (daemon, os, some "Unknown application.") ∧
    daemon.RestartApplications env os name =
      .ok (daemon, os, some "Unknown application.") := by
  have h2 : daemon.StopApplications env os name =
      .ok (daemon, os, some "Unknown application.") := by
    unfold Daemon.StopApplications
    simp only [h]
  refine ⟨?_, h2, ?_⟩
  · unfold Daemon.StartApplications
    simp only [h]
  · unfold Daemon.RestartApplications
    simp only [h2]

/-- Scenario for C3: the three operations on the name "ghost", which `svc`'s daemon does
not know. -/
theorem unknown_application_is_rejected_witness :
    lookup (svcDaemon false 4242 "running").Applications "ghost" = none ∧
    (svcDaemon false 4242 "running").StartApplications quietEnv emptyOS "ghost" =
      (svcDaemon false 4242 "running", emptyOS, some "Unknown application.") ∧
    (svcDaemon false 4242 "running").StopApplications quietEnv emptyOS "ghost" =
      .ok (svcDaemon false 4242 "running", emptyOS, some "Unknown application.") ∧
    (svcDaemon false 4242 "running").RestartApplications quietEnv emptyOS "ghost" =
      .ok (svcDaemon false 4242 "running", emptyOS, some "Unknown application.") :=
  ⟨by decide,
    unknown_application_is_rejected quietEnv (svcDaemon false 4242 "running") emptyOS "ghost"
      (by decide)⟩

/-- C4, the code at the failing input: `DeleteApplications` on a name that is not a
registry key returns nil, where `StartApplications` and `StopApplications` return
"Unknown application.". -/
theorem DeleteApplications_unknown_returns_nil :
    (svcDaemon false 4242 "running").DeleteApplications quietEnv emptyOS "ghost" =
      .ok (svcDaemon false 4242 "running", emptyOS, none) ∧
    (svcDaemon false 4242 "running").StopApplications quietEnv emptyOS "ghost" =
      .ok (svcDaemon false 4242 "running", emptyOS, some "Unknown application.") := by
  constructor <;> rfl

/-! ## The helpers `start`, `stop` and `updateStatus` -/

theorem Application.IsAlive_false_of_stopped (env : Env) (os : OS) (application : Application)
    (h : application.Pid = -1 ∨ application.Pid = 0) :
    application.IsAlive env os = (false, os) := by
  unfold Application.IsAlive
  simp [h]

theorem Application.IsAlive_os (env : Env) (os : OS) (application : Application) :
    (application.IsAlive env os).2.files = os.files ∧
    ((application.IsAlive env os).2.trace = os.trace ∨
      (application.IsAlive env os).2.trace = .Probe application.Pid :: os.trace) := by
  unfold Application.IsAlive
  split <;> simp [OS.log]

theorem Application.IsAlive_true (env : Env) (os : OS) (application : Application)
    (h : (application.IsAlive env os).1 = true) :
    env.Probe os.trace application.Pid = true ∧ application.Pid ≠ -1 ∧ application.Pid ≠ 0 := by
  unfold Application.IsAlive at h
  split at h
  · simp at h
  · rename_i hp
    simp only [not_or] at hp
    exact ⟨h, hp.1, hp.2⟩

theorem Application.GracefullyStop_spec (env : Env) (os : OS) (application : Application) :
    (application.GracefullyStop env os).1.config = application.config ∧
    (application.GracefullyStop env os).1.Status.Restarts = application.Status.Restarts ∧
    (application.GracefullyStop env os).1.Pid = application.Pid ∧
    (application.GracefullyStop env os).2.1.files = os.files := by
  unfold Application.GracefullyStop
  split <;> simp [Application.config, ApplicationStatus.SetStatus, OS.log]

theorem Daemon.updateStatus_spec (env : Env) (os : OS) (application : Application) :
    (Daemon.updateStatus env os application).1.config = application.config ∧
    (Daemon.updateStatus env os application).1.Status.Restarts =
      application.Status.Restarts ∧
    ((Daemon.updateStatus env os application).1.Status.Status = "running" ∨
      (Daemon.updateStatus env os application).1.Pid = -1) ∧
    ((application.IsAlive env os).1 = false →
      Daemon.updateStatus env os application =
        ((application.NotifyStopped).SetStatus "stopped", (application.IsAlive env os).2)) := by
  unfold Daemon.updateStatus
  rcases h : application.IsAlive env os with ⟨alive, os1⟩
  cases alive <;>
    simp [Application.config, Application.SetStatus, Application.NotifyStopped,
      ApplicationStatus.SetStatus]

theorem Daemon.start_spec (env : Env) (daemon : Daemon) (os : OS) (application : Application) :
    (daemon.start env os application).2.1.config = application.config ∧
    (daemon.start env os application).2.1.Status.Restarts = application.Status.Restarts ∧
    (daemon.start env os application).1.Applications = daemon.Applications ∧
    ((daemon.start env os application).2.2.2 = none →
      ((application.IsAlive env os).1 = false ∧
        (daemon.start env os application).2.1.Status.Status = "running") ∨
      ((application.IsAlive env os).1 = true ∧
        (daemon.start env os application).2.1 = application)) ∧
    ((application.IsAlive env os).1 = true →
      daemon.start env os application =
        (daemon, application, (application.IsAlive env os).2, none)) := by
  unfold Daemon.start
  rcases h : application.IsAlive env os with ⟨alive, os1⟩
  cases alive with
  | true => simp
  | false =>
    rcases h2 : application.Start env os1 with ⟨application1, os2, e⟩
    have hs := Application.Start_spec_of_eq h2
    cases e with
    | some err =>
      simp only [h2]
      simpa using ⟨hs.1, hs.2.1⟩
    | none =>
      simp only [h2]
      simp [Application.SetStatus, ApplicationStatus.SetStatus]
      refine ⟨?_, hs.2.1⟩
      simpa [Application.config] using hs.1

theorem Daemon.stop_spec {env : Env} {daemon daemon1 : Daemon} {os os1 : OS}
    {application application1 : Application} {e : GoError}
    (h : daemon.stop env os application = .ok (daemon1, application1, os1, e)) :
    application1.config = application.config ∧
    application1.Status.Restarts = application.Status.Restarts ∧
    daemon1.Applications = daemon.Applications ∧
    ((application.IsAlive env os).1 = false →
      daemon1 = daemon ∧ application1 = application ∧ e = none ∧
        os1 = (application.IsAlive env os).2) ∧
    ((application.IsAlive env os).1 = true → e = none →
      application.Identifier ∈ daemon.Watcher.watchApplications →
      application1.Pid = -1 ∧ application1.Status.Status = "stopped") ∧
    (application1.Pid = application.Pid ∨ application1.Pid = -1) := by
  unfold Daemon.stop at h
  rcases h1 : application.IsAlive env os with ⟨alive, os2⟩
  cases alive with
  | false =>
    simp only [h1] at h
    simp at h
    obtain ⟨rfl, rfl, rfl, rfl⟩ := h
    simp
  | true =>
    simp only [h1] at h
    rcases h2 : daemon.Watcher.StopWatcher application.Identifier with ⟨waitStop, watcher1⟩
    rcases h3 : application.GracefullyStop env os2 with ⟨application2, os3, e3⟩
    have hg := Application.GracefullyStop_spec env os2 application
    rw [h3] at hg
    simp only [h2, h3] at h
    cases e3 with
    | some err =>
      simp at h
      obtain ⟨rfl, rfl, rfl, rfl⟩ := h
      simpa using ⟨hg.1, hg.2.1, Or.inl hg.2.2.1⟩
    | none =>
      simp only at h
      have hw : waitStop = true ↔ application.Identifier ∈ daemon.Watcher.watchApplications := by
        unfold Watcher.StopWatcher at h2
        split at h2 <;> simp_all
      cases waitStop with
      | false =>
        simp at h
        obtain ⟨rfl, rfl, rfl, rfl⟩ := h
        simp at hw
        simpa [hw] using ⟨hg.1, hg.2.1, Or.inl hg.2.2.1⟩
      | true =>
        simp only [if_true] at h
        split at h
        · simp at h
          obtain ⟨rfl, rfl, rfl, rfl⟩ := h
          simp [Application.SetStatus, Application.NotifyStopped, ApplicationStatus.SetStatus]
          refine ⟨?_, hg.2.1⟩
          simpa [Application.config] using hg.1
        · simp at h

/-! ## Stopping -/

/-- C5 fails as stated: `svc` is registered with the pid and label of its last snapshot
(4242, "running") and that process is gone; `StopApplications("svc")` returns nil and
leaves Pid 4242 and label "running". -/
theorem StopApplications_dead_counterexample :
    lookup (svcDaemon false 4242 "running").Applications "svc" =
        some (svcApplication false 4242 "running") ∧
      (svcDaemon false 4242 "running").StopApplications quietEnv emptyOS "svc" =
        .ok (svcDaemon false 4242 "running", { files := [], trace := [.Probe 4242] }, none) ∧
      (svcApplication false 4242 "running").Pid ≠ -1 ∧
      (svcApplication false 4242 "running").Status.Status ≠ "stopped" := by
  refine ⟨by decide, by rfl, by decide, by decide⟩

/-- C5, amended: for a registered name, if `StopApplications(name)` returns nil, then an
application that was alive when the call was made and had a watcher entry has Pid -1 and
label "stopped" afterwards; an application that was not alive is left exactly as it was. -/
theorem StopApplications_stops_live_watched (env : Env) (daemon daemon1 : Daemon) (os os1 : OS)
    (name : String) (application : Application)
    (hreg : lookup daemon.Applications name = some application)
    (hret : daemon.StopApplications env os name = .ok (daemon1, os1, none)) :
    ((application.IsAlive env os).1 = true →
      application.Identifier ∈ daemon.Watcher.watchApplications →
      ∃ application1, lookup daemon1.Applications name = some application1 ∧
        application1.Pid = -1 ∧ application1.Status.Status = "stopped") ∧
    ((application.IsAlive env os).1 = false →
      lookup daemon1.Applications name = some application) := by
  unfold Daemon.StopApplications at hret
  simp only [hreg] at hret
  cases hs : daemon.stop env os application with
  | error f => simp [hs] at hret
  | ok r =>
    obtain ⟨daemon2, application2, os2, e⟩ := r
    simp only [hs] at hret
    simp at hret
    obtain ⟨rfl, rfl, rfl⟩ := hret
    have hspec := Daemon.stop_spec hs
    constructor
    · intro halive hwatch
      exact ⟨application2, lookup_store_self _ _ _, hspec.2.2.2.2.1 halive rfl hwatch⟩
    · intro hdead
      have := (hspec.2.2.2.1 hdead).2.1
      subst this
      exact lookup_store_self _ _ _

/-- Scenario S4 for C5: `svc` runs under the daemon's watch, obeys SIGTERM and is reaped. -/
theorem StopApplications_stops_live_watched_witness :
    lookup (liveDaemon false).Applications "svc" = some (liveSvc false) ∧
      ((liveSvc false).IsAlive busyEnv emptyOS).1 = true ∧
      (liveSvc false).Identifier ∈ (liveDaemon false).Watcher.watchApplications ∧
      ∃ application1,
        lookup { emptyDaemon with
            Applications := [("svc", ((liveSvc false).NotifyStopped).SetStatus "stopped")]
          }.Applications "svc" = some application1 ∧
        application1.Pid = -1 ∧ application1.Status.Status = "stopped" :=
  ⟨by decide, by decide, by decide,
    (StopApplications_stops_live_watched busyEnv (liveDaemon false)
      { emptyDaemon with
        Applications := [("svc", ((liveSvc false).NotifyStopped).SetStatus "stopped")] }
      emptyOS
      { files := [], trace := [.WaitStop "svc", .Signal 4242 .SIGTERM, .Probe 4242] }
      "svc" (liveSvc false) (by decide) (by rfl)).1 (by decide) (by decide)⟩

/-! ## The label of a live application -/

theorem Daemon.UpdateStatusLoop_cons (env : Env) (os : OS) (k : String) (a : Application)
    (rest : List (String × Application)) :
    Daemon.UpdateStatusLoop env os ((k, a) :: rest) =
      ((k, (Daemon.updateStatus env os a).1) ::
          (Daemon.UpdateStatusLoop env (Daemon.updateStatus env os a).2 rest).1,
        (Daemon.UpdateStatusLoop env (Daemon.updateStatus env os a).2 rest).2) := by
  rfl

theorem Daemon.UpdateStatusLoop_spec (env : Env) (es : List (String × Application)) :
    ∀ (os : OS) (k : String) (a : Application),
      lookup (Daemon.UpdateStatusLoop env os es).1 k = some a →
      a.Status.Status = "running" ∨ a.Pid = -1 := by
  induction es with
  | nil =>
    intro os k a h
    simp [Daemon.UpdateStatusLoop, lookup] at h
  | cons e rest ih =>
    intro os k a h
    obtain ⟨k1, a0⟩ := e
    rw [Daemon.UpdateStatusLoop_cons] at h
    simp only [lookup] at h
    by_cases hk : k1 = k
    · simp only [hk, if_true, Option.some.injEq] at h
      have hu := (Daemon.updateStatus_spec env os a0).2.2.1
      rw [h] at hu
      exact hu
    · simp only [hk, if_false] at h
      exact ih _ k a h

theorem Daemon.RunPreparable_ok {env : Env} {daemon daemon1 : Daemon} {os os1 : OS}
    {prep : Preparable}
    (h : daemon.RunPreparable env os prep = .ok (daemon1, os1, none)) :
    ∃ a, lookup daemon1.Applications prep.Name = some a ∧ a.Status.Status = "running" := by
  unfold Daemon.RunPreparable at h
  cases hl : lookup daemon.Applications prep.Identifier with
  | some a => simp [hl] at h
  | none =>
    simp only [hl] at h
    cases hs : prep.Start env os with
    | error f => simp [hs] at h
    | ok r =>
      obtain ⟨p, a, os2, e⟩ := r
      cases e with
      | some err => simp [hs] at h
      | none =>
        have hname : a.Identifier = prep.Name := (Preparable.Start_of_ok hs).1
        simp only [hs, hname] at h
        simp at h
        obtain ⟨rfl, -⟩ := h
        exact ⟨_, lookup_store_self _ _ _, rfl⟩

/-- C6 fails as stated: `svc`, without keep-alive, is in the registry with the pid and
label of its last snapshot (4242, "started") and process 4242 is alive; `Revive` completes
with nil and skips it, so a registry application with Pid > 0 that the operating system
reports alive has a label other than "running". -/
theorem Revive_skipped_live_counterexample :
    (svcDaemon false 4242 "started").Revive busyEnv emptyOS =
        (svcDaemon false 4242 "started", emptyOS, none) ∧
      lookup (svcDaemon false 4242 "started").Applications "svc" =
        some (svcApplication false 4242 "started") ∧
      0 < (svcApplication false 4242 "started").Pid ∧
      ((svcApplication false 4242 "started").IsAlive busyEnv emptyOS).1 = true ∧
      (svcApplication false 4242 "started").Status.Status ≠ "running" := by
  refine ⟨by rfl, by decide, by decide, by decide, by decide⟩

/-- C6, amended: after a round of the status refresh every registry application with
Pid > 0 has label "running"; after `RunPreparable` returns nil the registered application
has label "running"; after `StartApplications(name)` returns nil for an application that
was not alive when the call was made, it has label "running"; and `StartApplications` on
an application that was alive returns nil and leaves it as it was, whatever its label. -/
theorem running_label_where_established (env : Env) (daemon : Daemon) (os : OS) :
    (∀ k a, lookup (daemon.UpdateStatus env os).1.Applications k = some a → 0 < a.Pid →
        a.Status.Status = "running") ∧
    (∀ prep daemon1 os1, daemon.RunPreparable env os prep = .ok (daemon1, os1, none) →
        ∃ a, lookup daemon1.Applications prep.Name = some a ∧ a.Status.Status = "running") ∧
    (∀ name a daemon1 os1, lookup daemon.Applications name = some a →
        (a.IsAlive env os).1 = false →
        daemon.StartApplications env os name = (daemon1, os1, none) →
        ∃ a1, lookup daemon1.Applications name = some a1 ∧ a1.Status.Status = "running") ∧
    (∀ name a, lookup daemon.Applications name = some a → (a.IsAlive env os).1 = true →
        (daemon.StartApplications env os name).2.2 = none ∧
        lookup (daemon.StartApplications env os name).1.Applications name = some a) := by
  refine ⟨?_, ?_, ?_, ?_⟩
  · intro k a h hpid
    unfold Daemon.UpdateStatus at h
    rcases hl : Daemon.UpdateStatusLoop env os daemon.Applications with ⟨apps, os1⟩
    simp only [hl] at h
    have := Daemon.UpdateStatusLoop_spec env daemon.Applications os k a
    rw [hl] at this
    rcases this h with h1 | h1
    · exact h1
    · omega
  · intro prep daemon1 os1 h
    exact Daemon.RunPreparable_ok h
  · intro name a daemon1 os1 hreg hdead h
    unfold Daemon.StartApplications at h
    simp only [hreg] at h
    have hs := Daemon.start_spec env daemon os a
    rcases hr : daemon.start env os a with ⟨daemon2, a2, os2, e⟩
    rw [hr] at hs
    simp only [hr] at h
    simp at h
    obtain ⟨rfl, rfl, rfl⟩ := h
    refine ⟨a2, lookup_store_self _ _ _, ?_⟩
    rcases hs.2.2.2.1 rfl with h1 | h1
    · exact h1.2
    · rw [hdead] at h1
      simp at h1
  · intro name a hreg halive
    unfold Daemon.StartApplications
    simp only [hreg]
    have hs := (Daemon.start_spec env daemon os a).2.2.2.2 halive
    simp only [hs]
    exact ⟨trivial, lookup_store_self _ _ _⟩

/-- Scenario for C6: a stopped `svc` (Pid -1) is started by name and ends with label
"running". -/
theorem running_label_where_established_witness :
    lookup (svcDaemon false (-1) "stopped").Applications "svc" =
        some (svcApplication false (-1) "stopped") ∧
      ((svcApplication false (-1) "stopped").IsAlive quietEnv emptyOS).1 = false ∧
      ∃ a1, lookup (liveDaemon false).Applications "svc" = some a1 ∧
        a1.Status.Status = "running" :=
  ⟨by decide, by decide,
    (running_label_where_established quietEnv (svcDaemon false (-1) "stopped") emptyOS).2.2.1
      "svc" (svcApplication false (-1) "stopped") (liveDaemon false)
      { files := [("/tmp/svc/svc.out", ""), ("/tmp/svc/svc.err", ""),
          ("/tmp/svc/svc.pid", "4242")],
        trace := [.WriteFile "/tmp/svc/svc.pid" "4242", .StartProcess "/tmp/svc/svc" ["svc"],
          .GetFile "/tmp/svc/svc.err", .GetFile "/tmp/svc/svc.out"] }
      (by decide) (by decide) (by rfl)⟩

/-! ## Deleting -/

theorem OS.DeleteFile_spec (env : Env) (os : OS) (path : String) :
    ((os.DeleteFile env path).2 = none → (os.DeleteFile env path).1.fileExists path = false) ∧
    (∀ q, os.fileExists q = false → (os.DeleteFile env path).1.fileExists q = false) := by
  unfold OS.DeleteFile
  cases h : env.DeleteFile os.trace path with
  | some e =>
    simp [OS.log, OS.fileExists]
  | none =>
    simp only [OS.fileExists]
    constructor
    · intro _
      simp [List.any_eq_false, List.mem_filter]
    · intro q hq
      simp only [List.any_eq_false, List.mem_filter] at hq ⊢
      intro f hf
      exact hq f hf.1

theorem OS.RemoveAll_spec (env : Env) (os : OS) (path : String) :
    (path ≠ "" → (os.RemoveAll env path).2 = none →
      ∀ q, isUnder path q = true → (os.RemoveAll env path).1.fileExists q = false) ∧
    (∀ q, os.fileExists q = false → (os.RemoveAll env path).1.fileExists q = false) := by
  unfold OS.RemoveAll
  by_cases hp : path = ""
  · simp only [hp, if_true]
    exact ⟨fun h => absurd rfl h, fun q hq => hq⟩
  · simp only [hp, if_false]
    cases h : env.RemoveAll os.trace path with
    | some e =>
      simp [OS.log, OS.fileExists]
    | none =>
      simp only [OS.fileExists]
      constructor
      · intro _ _ q hq
        simp only [List.any_eq_false, List.mem_filter]
        intro f hf hfq
        have : f.1 = q := by simpa using hfq
        rw [this, hq] at hf
        simp at hf
      · intro q hq
        simp only [List.any_eq_false, List.mem_filter] at hq ⊢
        intro f hf
        exact hq f hf.1

theorem Application.Delete_spec (env : Env) (os : OS) (application : Application)
    (hp : application.Path ≠ "") (h : (application.Delete env os).2 = none) :
    (application.Delete env os).1.fileExists application.Outfile = false ∧
    (application.Delete env os).1.fileExists application.Errfile = false ∧
    ∀ q, isUnder application.Path q = true →
      (application.Delete env os).1.fileExists q = false := by
  unfold Application.Delete at h ⊢
  have hO := OS.DeleteFile_spec env (application.release env os) application.Outfile
  rcases h1 : (application.release env os).DeleteFile env application.Outfile with ⟨os2, e2⟩
  rw [h1] at hO
  simp only [h1] at h ⊢
  cases e2 with
  | some err => simp at h
  | none =>
    have hE := OS.DeleteFile_spec env os2 application.Errfile
    rcases h2 : os2.DeleteFile env application.Errfile with ⟨os3, e3⟩
    rw [h2] at hE
    simp only [h2] at h ⊢
    cases e3 with
    | some err => simp at h
    | none =>
      simp only at h ⊢
      have hR := OS.RemoveAll_spec env os3 application.Path
      refine ⟨hR.2 _ (hE.2 _ (hO.1 rfl)), hR.2 _ (hE.1 rfl), hR.1 hp h⟩

/-- C7: for a registered name whose application keeps its pid file in its own directory
Path (the layout that `Preparable.Start` gives every application, see
`Preparable.Start_layout`), when `DeleteApplications(name)` returns nil the registry no
longer contains the name, every other key maps to what it did, and the application's
`Delete` has run and returned nil: its Pidfile, its Outfile, its Errfile and every path
under its directory Path no longer exist. -/
theorem DeleteApplications_removes_application (env : Env) (daemon daemon1 : Daemon)
    (os os1 : OS) (name : String) (application : Application)
    (hreg : lookup daemon.Applications name = some application)
    (hpath : application.Path ≠ "")
    (hpid : isUnder application.Path application.Pidfile = true)
    (hret : daemon.DeleteApplications env os name = .ok (daemon1, os1, none)) :
    lookup daemon1.Applications name = none ∧
    (∀ k, k ≠ name → lookup daemon1.Applications k = lookup daemon.Applications k) ∧
    (∃ (application1 : Application) (os0 : OS), application1.config = application.config ∧
      application1.Delete env os0 = (os1, none)) ∧
    os1.fileExists application.Pidfile = false ∧
    os1.fileExists application.Outfile = false ∧
    os1.fileExists application.Errfile = false ∧
    (∀ q, isUnder application.Path q = true → os1.fileExists q = false) := by
  unfold Daemon.DeleteApplications at hret
  simp only [hreg] at hret
  cases hs : daemon.stop env os application with
  | error f => simp [hs] at hret
  | ok r =>
    obtain ⟨daemon2, application2, os2, e⟩ := r
    have hspec := Daemon.stop_spec hs
    have hc := Application.config_name hspec.1
    cases e with
    | some err => simp [hs] at hret
    | none =>
      simp only [hs, Daemon.delete] at hret
      rcases hd : application2.Delete env os2 with ⟨os3, e3⟩
      have hD := Application.Delete_spec env os2 application2 (by rw [hc.2.2.1]; exact hpath)
      rw [hd] at hD
      simp only [hd] at hret
      cases e3 with
      | some err => simp at hret
      | none =>
        simp at hret
        obtain ⟨rfl, rfl⟩ := hret
        have hD := hD rfl
        simp only [hc.2.2.1, hc.2.2.2.2.1, hc.2.2.2.2.2] at hD
        refine ⟨?_, ?_, ⟨application2, os2, hspec.1, hd⟩, hD.2.2 _ hpid, hD.1, hD.2.1,
          hD.2.2⟩
        · simp only [hspec.2.2.1]
          exact lookup_remove_self _ _
        · intro k hk
          simp only [hspec.2.2.1]
          exact lookup_remove_ne _ _ _ hk

/-- Outside that layout the files of an application can outlive it: the stopped `svc` of
a snapshot has its pid file outside its directory and that file cannot be deleted;
`release` drops the error, `DeleteApplications("svc")` returns nil with `svc` gone from
the registry, and the pid file still exists. -/
theorem DeleteApplications_stray_pidfile :
    lookup { emptyDaemon with Applications := [("svc", strayPidSvc)] }.Applications "svc" =
        some strayPidSvc ∧
      ({ emptyDaemon with Applications := [("svc", strayPidSvc)] } : Daemon).DeleteApplications
          stubbornPidEnv strayPidOS "svc" =
        .ok (emptyDaemon,
          { files := [("/var/run/svc.pid", "4242")],
            trace := [.RemoveAll "/tmp/svc", .DeleteFile "/tmp/svc/svc.err",
              .DeleteFile "/tmp/svc/svc.out", .DeleteFile "/var/run/svc.pid"] }, none) ∧
      OS.fileExists { files := [("/var/run/svc.pid", "4242")], trace := [] }
        strayPidSvc.Pidfile = true := by
  refine ⟨by decide, by rfl, by decide⟩

/-- Scenario S5 for C7: the stopped `svc`, laid out under "/tmp/svc", is deleted on an
operating system where every call succeeds. -/
theorem DeleteApplications_removes_application_witness :
    lookup (svcDaemon false (-1) "stopped").Applications "svc" =
        some (svcApplication false (-1) "stopped") ∧
      lookup emptyDaemon.Applications "svc" = none ∧
      OS.fileExists { files := [], trace := [.RemoveAll "/tmp/svc",
          .DeleteFile "/tmp/svc/svc.err", .DeleteFile "/tmp/svc/svc.out",
          .DeleteFile "/tmp/svc/svc.pid"] } "/tmp/svc/svc.pid" = false :=
  ⟨by decide,
    (DeleteApplications_removes_application quietEnv (svcDaemon false (-1) "stopped")
      emptyDaemon
      { files := [("/tmp/svc", ""), ("/tmp/svc/svc.out", ""), ("/tmp/svc/svc.pid", "4242")],
        trace := [] }
      { files := [], trace := [.RemoveAll "/tmp/svc", .DeleteFile "/tmp/svc/svc.err",
          .DeleteFile "/tmp/svc/svc.out", .DeleteFile "/tmp/svc/svc.pid"] }
      "svc" (svcApplication false (-1) "stopped") (by decide) (by decide) (by decide)
      (by rfl)).1,
    (DeleteApplications_removes_application quietEnv (svcDaemon false (-1) "stopped")
      emptyDaemon
      { files := [("/tmp/svc", ""), ("/tmp/svc/svc.out", ""), ("/tmp/svc/svc.pid", "4242")],
        trace := [] }
      { files := [], trace := [.RemoveAll "/tmp/svc", .DeleteFile "/tmp/svc/svc.err",
          .DeleteFile "/tmp/svc/svc.out", .DeleteFile "/tmp/svc/svc.pid"] }
      "svc" (svcApplication false (-1) "stopped") (by decide) (by decide) (by decide)
      (by rfl)).2.2.2.1⟩

/-! ## The restart loop -/

/-- C8: for a registered application with KeepAlive = false that is not alive when the
restart loop receives it, one step of `WatchApplications` completes, sets its label to
"stopped" and its Pid to -1 and keeps its Restarts; the application stays in the registry
(same keys, every other entry as it was); the watcher table and the files are untouched
and the only call that may have been made is the liveness check: neither `Start` nor
`restart` ran. -/
theorem WatchApplicationsStep_without_keep_alive (env : Env) (daemon : Daemon) (os : OS)
    (key : String) (application : Application)
    (hreg : lookup daemon.Applications key = some application)
    (hkeep : application.KeepAlive = false)
    (hdead : (application.IsAlive env os).1 = false) :
    ∃ daemon1 os1 application1,
      daemon.WatchApplicationsStep env os key = .ok (daemon1, os1, none) ∧
      lookup daemon1.Applications key = some application1 ∧
      application1.Status.Status = "stopped" ∧ application1.Pid = -1 ∧
      application1.Status.Restarts = application.Status.Restarts ∧
      keys daemon1.Applications = keys daemon.Applications ∧
      (∀ k, k ≠ key → lookup daemon1.Applications k = lookup daemon.Applications k) ∧
      daemon1.Watcher = daemon.Watcher ∧ os1.files = os.files ∧
      (os1.trace = os.trace ∨ os1.trace = .Probe application.Pid :: os.trace) := by
  have hu := (Daemon.updateStatus_spec env os application).2.2.2 hdead
  have hos := Application.IsAlive_os env os application
  unfold Daemon.WatchApplicationsStep
  simp only [hreg, Application.ShouldKeepAlive, hkeep, hu]
  refine ⟨_, _, _, rfl, lookup_store_self _ _ _, rfl, rfl, rfl,
    keys_store_of_lookup _ _ _ _ hreg, ?_, rfl, hos.1, hos.2⟩
  intro k hk
  exact lookup_store_ne _ _ _ _ hk

/-- Scenario S3 for C8: `svc` without keep-alive has exited; the loop marks it stopped. -/
theorem WatchApplicationsStep_without_keep_alive_witness :
    lookup (liveDaemon false).Applications "svc" = some (liveSvc false) ∧
      (liveSvc false).KeepAlive = false ∧
      ((liveSvc false).IsAlive quietEnv emptyOS).1 = false ∧
      ∃ daemon1 os1 application1,
        (liveDaemon false).WatchApplicationsStep quietEnv emptyOS "svc" =
          .ok (daemon1, os1, none) ∧
        lookup daemon1.Applications "svc" = some application1 ∧
        application1.Status.Status = "stopped" ∧ application1.Pid = -1 ∧
        application1.Status.Restarts = (liveSvc false).Status.Restarts ∧
        keys daemon1.Applications = keys (liveDaemon false).Applications ∧
        (∀ k, k ≠ "svc" →
          lookup daemon1.Applications k = lookup (liveDaemon false).Applications k) ∧
        daemon1.Watcher = (liveDaemon false).Watcher ∧ os1.files = emptyOS.files ∧
        (os1.trace = emptyOS.trace ∨ os1.trace = .Probe (liveSvc false).Pid :: emptyOS.trace) :=
  ⟨by decide, by decide, by decide,
    WatchApplicationsStep_without_keep_alive quietEnv (liveDaemon false) emptyOS "svc"
      (liveSvc false) (by decide) (by decide) (by decide)⟩

/-! ## Registries updated in place -/

theorem Touched_refl {R : Application → Application → Prop} (hR : ∀ a, R a a)
    (m : List (String × Application)) : Touched R m m := by
  induction m with
  | nil => exact List.Forall₂.nil
  | cons e rest ih => exact List.Forall₂.cons ⟨rfl, hR _⟩ ih

theorem Touched_trans {R : Application → Application → Prop}
    (hR : ∀ a b c, R a b → R b c → R a c) {m m1 m2 : List (String × Application)}
    (h1 : Touched R m m1) (h2 : Touched R m1 m2) : Touched R m m2 := by
  induction h1 generalizing m2 with
  | nil =>
    cases h2
    exact List.Forall₂.nil
  | cons hh _ ih =>
    cases h2 with
    | cons hh2 ht2 =>
      exact List.Forall₂.cons ⟨hh2.1.trans hh.1, hR _ _ _ hh.2 hh2.2⟩ (ih ht2)

theorem Touched_store {R : Application → Application → Prop} (hR : ∀ a, R a a)
    {m : List (String × Application)} {k : String} {a v : Application}
    (h : lookup m k = some a) (hr : R a v) : Touched R m (store m k v) := by
  induction m with
  | nil => simp [lookup] at h
  | cons e rest ih =>
    obtain ⟨k1, a0⟩ := e
    by_cases hk : k1 = k
    · simp only [lookup, hk, if_true, Option.some.injEq] at h
      subst h
      simp only [store, hk, if_true]
      exact List.Forall₂.cons ⟨rfl, hr⟩ (Touched_refl hR rest)
    · simp only [lookup, hk, if_false] at h
      simp only [store, hk, if_false]
      exact List.Forall₂.cons ⟨rfl, hR _⟩ (ih h)

theorem Touched_lookup {R : Application → Application → Prop}
    (m : List (String × Application)) :
    ∀ (m1 : List (String × Application)), Touched R m m1 → ∀ (k : String),
      (∀ a, lookup m k = some a → ∃ a1, lookup m1 k = some a1 ∧ R a a1) ∧
      (lookup m k = none → lookup m1 k = none) := by
  induction m with
  | nil =>
    intro m1 h k
    cases h
    simp [lookup]
  | cons e rest ih =>
    intro m1 h k
    cases h with
    | cons hh ht =>
      rename_i e1 rest1
      obtain ⟨k0, a0⟩ := e
      obtain ⟨k1, a1⟩ := e1
      simp only at hh
      obtain ⟨rfl, hr⟩ := hh
      by_cases hk : k1 = k
      · simp [lookup, hk, hr]
      · simpa [lookup, hk] using ih rest1 ht k

theorem Touched_keys {R : Application → Application → Prop}
    {m m1 : List (String × Application)} (h : Touched R m m1) : keys m1 = keys m := by
  induction h with
  | nil => rfl
  | cons hh _ ih =>
    simp only [keys, List.map_cons] at ih ⊢
    rw [hh.1, ih]

theorem Touched_restartsKept {m m1 : List (String × Application)} (h : Touched Grows m m1) :
    RestartsKept m m1 := by
  intro k a a1 h1 h2
  obtain ⟨a2, h3, h4⟩ := (Touched_lookup m m1 h k).1 a h1
  rw [h2] at h3
  cases h3
  exact h4

/-! ## The loop of `Revive` -/

theorem Daemon.ReviveLoop_skip (env : Env) (daemon : Daemon) (os : OS) (k : String)
    (a : Application) (rest : List (String × Application)) (h : a.KeepAlive = false) :
    Daemon.ReviveLoop env daemon os ((k, a) :: rest) =
      ((Daemon.ReviveLoop env daemon os rest).1,
        (k, a) :: (Daemon.ReviveLoop env daemon os rest).2.1,
        (Daemon.ReviveLoop env daemon os rest).2.2) := by
  simp [Daemon.ReviveLoop, Application.ShouldKeepAlive, h]

theorem Daemon.ReviveLoop_fail (env : Env) (daemon : Daemon) (os : OS) (k : String)
    (a : Application) (rest : List (String × Application)) (err : String)
    (h : a.KeepAlive = true) (he : (daemon.start env os a).2.2.2 = some err) :
    Daemon.ReviveLoop env daemon os ((k, a) :: rest) =
      ((daemon.start env os a).1, (k, (daemon.start env os a).2.1) :: rest,
        (daemon.start env os a).2.2.1,
        some ("Failed to revive application " ++ (daemon.start env os a).2.1.Identifier ++
          " due to " ++ err)) := by
  rcases hs : daemon.start env os a with ⟨d1, a1, os1, e⟩
  rw [hs] at he
  simp only at he
  subst he
  simp [Daemon.ReviveLoop, Application.ShouldKeepAlive, h, hs]

theorem Daemon.ReviveLoop_ok (env : Env) (daemon : Daemon) (os : OS) (k : String)
    (a : Application) (rest : List (String × Application))
    (h : a.KeepAlive = true) (he : (daemon.start env os a).2.2.2 = none) :
    Daemon.ReviveLoop env daemon os ((k, a) :: rest) =
      ((Daemon.ReviveLoop env (daemon.start env os a).1 (daemon.start env os a).2.2.1 rest).1,
        (k, (daemon.start env os a).2.1) ::
          (Daemon.ReviveLoop env (daemon.start env os a).1
            (daemon.start env os a).2.2.1 rest).2.1,
        (Daemon.ReviveLoop env (daemon.start env os a).1
          (daemon.start env os a).2.2.1 rest).2.2) := by
  rcases hs : daemon.start env os a with ⟨d1, a1, os1, e⟩
  rw [hs] at he
  simp only at he
  subst he
  simp [Daemon.ReviveLoop, Application.ShouldKeepAlive, h, hs]

theorem Revived_refl (env : Env) (a : Application) : Revived env False a a :=
  ⟨rfl, rfl, fun _ => rfl, fun h => h.elim⟩

theorem Revived_weaken (env : Env) {ok ok1 : Prop} (h : ok1 → ok) {a a1 : Application}
    (hr : Revived env ok a a1) : Revived env ok1 a a1 :=
  ⟨hr.1, hr.2.1, hr.2.2.1, fun h1 => hr.2.2.2 (h h1)⟩

theorem Daemon.start_revived (env : Env) (daemon : Daemon) (os : OS) (a : Application)
    (hk : a.KeepAlive = true) :
    Revived env ((daemon.start env os a).2.2.2 = none) a (daemon.start env os a).2.1 := by
  have hs := Daemon.start_spec env daemon os a
  refine ⟨hs.1, hs.2.1, ?_, ?_⟩
  · intro h
    rw [hk] at h
    cases h
  · intro h _
    rcases hs.2.2.2.1 h with h1 | h1
    · exact Or.inl h1.2
    · have ha := Application.IsAlive_true env os a h1.1
      exact Or.inr ⟨h1.2, ha.2.1, ha.2.2, os.trace, ha.1⟩

theorem Daemon.ReviveLoop_touched (env : Env) (es : List (String × Application)) :
    ∀ (daemon : Daemon) (os : OS),
      Touched (Revived env ((Daemon.ReviveLoop env daemon os es).2.2.2 = none)) es
        (Daemon.ReviveLoop env daemon os es).2.1 := by
  induction es with
  | nil =>
    intro daemon os
    exact List.Forall₂.nil
  | cons e rest ih =>
    intro daemon os
    obtain ⟨k, a⟩ := e
    cases hk : a.KeepAlive with
    | false =>
      rw [Daemon.ReviveLoop_skip env daemon os k a rest hk]
      exact List.Forall₂.cons ⟨rfl, rfl, rfl, fun _ => rfl, fun _ h => by simp [hk] at h⟩
        (ih daemon os)
    | true =>
      cases he : (daemon.start env os a).2.2.2 with
      | some err =>
        rw [Daemon.ReviveLoop_fail env daemon os k a rest err hk he]
        refine List.Forall₂.cons ⟨rfl, ?_⟩ ?_
        · exact Revived_weaken env (fun h => by simp at h)
            (Daemon.start_revived env daemon os a hk)
        · exact List.Forall₂.imp
            (fun _ _ h => ⟨h.1, Revived_weaken env (fun h1 => by simp at h1) h.2⟩)
            (Touched_refl (Revived_refl env) rest)
      | none =>
        rw [Daemon.ReviveLoop_ok env daemon os k a rest hk he]
        refine List.Forall₂.cons ⟨rfl, ?_⟩ (ih _ _)
        exact Revived_weaken env (fun _ => he) (Daemon.start_revived env daemon os a hk)

theorem Daemon.start_congr (env : Env) (daemon daemon2 : Daemon) (os : OS) (a : Application)
    (h : daemon2.Watcher = daemon.Watcher) :
    (daemon2.start env os a).2 = (daemon.start env os a).2 ∧
    (daemon2.start env os a).1.Watcher = (daemon.start env os a).1.Watcher := by
  unfold Daemon.start
  rcases h1 : a.IsAlive env os with ⟨alive, os1⟩
  cases alive with
  | true => simp [h]
  | false =>
    rcases h2 : a.Start env os1 with ⟨a1, os2, e⟩
    cases e <;> simp [h, h2]

theorem Daemon.ReviveLoop_filter (env : Env) (es : List (String × Application)) :
    ∀ (daemon daemon2 : Daemon) (os : OS), daemon2.Watcher = daemon.Watcher →
      (Daemon.ReviveLoop env daemon2 os (es.filter (fun e => e.2.KeepAlive))).1.Watcher =
        (Daemon.ReviveLoop env daemon os es).1.Watcher ∧
      (Daemon.ReviveLoop env daemon2 os (es.filter (fun e => e.2.KeepAlive))).2.2 =
        (Daemon.ReviveLoop env daemon os es).2.2 := by
  induction es with
  | nil =>
    intro daemon daemon2 os h
    simp [Daemon.ReviveLoop, h]
  | cons e rest ih =>
    intro daemon daemon2 os h
    obtain ⟨k, a⟩ := e
    cases hk : a.KeepAlive with
    | false =>
      rw [Daemon.ReviveLoop_skip env daemon os k a rest hk]
      simp only [List.filter_cons, hk]
      exact ih daemon daemon2 os h
    | true =>
      have hc := Daemon.start_congr env daemon daemon2 os a h
      simp only [List.filter_cons, hk, if_true]
      cases he : (daemon.start env os a).2.2.2 with
      | some err =>
        have he2 : (daemon2.start env os a).2.2.2 = some err := by rw [hc.1]; exact he
        rw [Daemon.ReviveLoop_fail env daemon os k a rest err hk he,
          Daemon.ReviveLoop_fail env daemon2 os k a _ err hk he2]
        simp [hc.1, hc.2]
      | none =>
        have he2 : (daemon2.start env os a).2.2.2 = none := by rw [hc.1]; exact he
        rw [Daemon.ReviveLoop_ok env daemon os k a rest hk he,
          Daemon.ReviveLoop_ok env daemon2 os k a _ hk he2]
        simp only [hc.1]
        exact ih _ _ _ hc.2

/-- C10 fails as stated: `svc` has keep-alive and is in the registry with the pid and
label of its last snapshot (4242, "started") while process 4242 is alive; `Revive` returns
nil, finds it alive and leaves it alone: a keep-alive entry whose label is not "running". -/
theorem Revive_live_keep_alive_counterexample :
    (svcDaemon true 4242 "started").Revive busyEnv emptyOS =
        (svcDaemon true 4242 "started", { files := [], trace := [.Probe 4242] }, none) ∧
      lookup (svcDaemon true 4242 "started").Applications "svc" =
        some (svcApplication true 4242 "started") ∧
      (svcApplication true 4242 "started").KeepAlive = true ∧
      (svcApplication true 4242 "started").Status.Status ≠ "running" := by
  refine ⟨by rfl, by decide, by decide, by decide⟩

/-- C10, amended: after `Revive` returns nil the registry has the keys it had; every entry
with KeepAlive = true either has label "running" or was found alive by the liveness check
and is exactly as before; every entry with KeepAlive = false is exactly as before, and no
call is made on its behalf: on the registry without those entries `Revive` makes the same
calls, leaves the same watcher table and returns the same result. -/
theorem Revive_is_selective (env : Env) (daemon : Daemon) (os : OS)
    (hret : (daemon.Revive env os).2.2 = none) :
    (∀ k a, lookup daemon.Applications k = some a →
      ∃ a1, lookup (daemon.Revive env os).1.Applications k = some a1 ∧
        (a.KeepAlive = false → a1 = a) ∧
        (a.KeepAlive = true →
          a1.Status.Status = "running" ∨
            (a1 = a ∧ a.Pid ≠ -1 ∧ a.Pid ≠ 0 ∧ ∃ tr, env.Probe tr a.Pid = true))) ∧
    keys (daemon.Revive env os).1.Applications = keys daemon.Applications ∧
    (Daemon.Revive env
        { daemon with Applications := daemon.Applications.filter (fun e => e.2.KeepAlive) }
        os).2 = (daemon.Revive env os).2 ∧
    (Daemon.Revive env
        { daemon with Applications := daemon.Applications.filter (fun e => e.2.KeepAlive) }
        os).1.Watcher = (daemon.Revive env os).1.Watcher := by
  have ht := Daemon.ReviveLoop_touched env daemon.Applications daemon os
  have hf := Daemon.ReviveLoop_filter env daemon.Applications daemon
    { daemon with Applications := daemon.Applications.filter (fun e => e.2.KeepAlive) } os rfl
  unfold Daemon.Revive at hret ⊢
  rcases hl : Daemon.ReviveLoop env daemon os daemon.Applications with ⟨d1, apps, os1, e⟩
  rcases hl2 : Daemon.ReviveLoop env
    { daemon with Applications := daemon.Applications.filter (fun e => e.2.KeepAlive) } os
    (daemon.Applications.filter (fun e => e.2.KeepAlive)) with ⟨d2, apps2, os2, e2⟩
  rw [hl] at ht hf
  rw [hl2] at hf
  simp only [hl] at hret
  simp only at hret ht hf
  subst hret
  refine ⟨?_, Touched_keys ht, ?_, ?_⟩
  · intro k a hreg
    obtain ⟨a1, h1, h2⟩ := (Touched_lookup _ _ ht k).1 a hreg
    exact ⟨a1, h1, h2.2.2.1, h2.2.2.2 rfl⟩
  · simp only [hl2]
    exact hf.2
  · simp only [hl2]
    exact hf.1

/-- Scenario S6 for C10: a registry with a stopped keep-alive `svc`; `Revive` starts it. -/
theorem Revive_is_selective_witness :
    ((svcDaemon true (-1) "stopped").Revive quietEnv emptyOS).2.2 = none ∧
      ∃ a1, lookup ((svcDaemon true (-1) "stopped").Revive quietEnv emptyOS).1.Applications
          "svc" = some a1 ∧
        ((svcApplication true (-1) "stopped").KeepAlive = false →
          a1 = svcApplication true (-1) "stopped") ∧
        ((svcApplication true (-1) "stopped").KeepAlive = true →
          a1.Status.Status = "running" ∨
            (a1 = svcApplication true (-1) "stopped" ∧
              (svcApplication true (-1) "stopped").Pid ≠ -1 ∧
              (svcApplication true (-1) "stopped").Pid ≠ 0 ∧
              ∃ tr, quietEnv.Probe tr (svcApplication true (-1) "stopped").Pid = true)) :=
  ⟨by rfl,
    (Revive_is_selective quietEnv (svcDaemon true (-1) "stopped") emptyOS (by rfl)).1 "svc"
      (svcApplication true (-1) "stopped") (by decide)⟩

/-! ## The restart counter -/

theorem Grows_refl (a : Application) : Grows a a :=
  le_refl _

theorem Grows_trans (a b c : Application) (h1 : Grows a b) (h2 : Grows b c) : Grows a c :=
  le_trans h1 h2

theorem Grows_of_eq {a a1 : Application} (h : a1.Status.Restarts = a.Status.Restarts) :
    Grows a a1 := by
  unfold Grows
  omega

theorem RestartsKept_of_lookup_eq {m m1 : List (String × Application)}
    (h : ∀ k a, lookup m k = some a → ∀ a1, lookup m1 k = some a1 → a1 = a) :
    RestartsKept m m1 := by
  intro k a a1 h1 h2
  rw [h k a h1 a1 h2]
  exact Grows_refl a

theorem Daemon.restart_spec {env : Env} {daemon daemon1 : Daemon} {os os1 : OS}
    {application application1 : Application} {e : GoError}
    (h : daemon.restart env os application = .ok (daemon1, application1, os1, e)) :
    application1.config = application.config ∧
    application1.Status.Restarts = application.Status.Restarts ∧
    daemon1.Applications = daemon.Applications := by
  unfold Daemon.restart at h
  cases hs : daemon.stop env os application with
  | error f => simp [hs] at h
  | ok r =>
    obtain ⟨d2, a2, os2, e2⟩ := r
    have hspec := Daemon.stop_spec hs
    cases e2 with
    | some err =>
      simp [hs] at h
      obtain ⟨rfl, rfl, rfl, rfl⟩ := h
      exact ⟨hspec.1, hspec.2.1, hspec.2.2.1⟩
    | none =>
      simp only [hs] at h
      have hst := Daemon.start_spec env d2 os2 a2
      simp only [Except.ok.injEq] at h
      rw [h] at hst
      exact ⟨hst.1.trans hspec.1, hst.2.1.trans hspec.2.1, hst.2.2.1.trans hspec.2.2.1⟩

theorem Daemon.StartApplications_touched (env : Env) (daemon : Daemon) (os : OS)
    (name : String) :
    Touched Grows daemon.Applications (daemon.StartApplications env os name).1.Applications := by
  unfold Daemon.StartApplications
  cases hl : lookup daemon.Applications name with
  | none => exact Touched_refl Grows_refl _
  | some a =>
    have hs := Daemon.start_spec env daemon os a
    simp only
    rw [hs.2.2.1]
    exact Touched_store Grows_refl hl (Grows_of_eq hs.2.1)

theorem Daemon.StopApplications_touched {env : Env} {daemon daemon1 : Daemon} {os os1 : OS}
    {name : String} {e : GoError}
    (h : daemon.StopApplications env os name = .ok (daemon1, os1, e)) :
    Touched Grows daemon.Applications daemon1.Applications := by
  unfold Daemon.StopApplications at h
  cases hl : lookup daemon.Applications name with
  | none =>
    simp [hl] at h
    obtain ⟨rfl, -⟩ := h
    exact Touched_refl Grows_refl _
  | some a =>
    simp only [hl] at h
    cases hs : daemon.stop env os a with
    | error f => simp [hs] at h
    | ok r =>
      obtain ⟨d2, a2, os2, e2⟩ := r
      have hspec := Daemon.stop_spec hs
      simp [hs] at h
      obtain ⟨rfl, -⟩ := h
      simp only [hspec.2.2.1]
      exact Touched_store Grows_refl hl (Grows_of_eq hspec.2.1)

theorem Daemon.RestartApplications_touched {env : Env} {daemon daemon1 : Daemon}
    {os os1 : OS} {name : String} {e : GoError}
    (h : daemon.RestartApplications env os name = .ok (daemon1, os1, e)) :
    Touched Grows daemon.Applications daemon1.Applications := by
  unfold Daemon.RestartApplications at h
  cases hs : daemon.StopApplications env os name with
  | error f => simp [hs] at h
  | ok r =>
    obtain ⟨d2, os2, e2⟩ := r
    have h1 := Daemon.StopApplications_touched hs
    cases e2 with
    | some err =>
      simp [hs] at h
      obtain ⟨rfl, -⟩ := h
      exact h1
    | none =>
      simp only [hs, Except.ok.injEq] at h
      have h2 := Daemon.StartApplications_touched env d2 os2 name
      rw [h] at h2
      exact Touched_trans Grows_trans h1 h2

theorem Daemon.DeleteApplications_restartsKept {env : Env} {daemon daemon1 : Daemon}
    {os os1 : OS} {name : String} {e : GoError}
    (h : daemon.DeleteApplications env os name = .ok (daemon1, os1, e)) :
    RestartsKept daemon.Applications daemon1.Applications := by
  unfold Daemon.DeleteApplications at h
  cases hl : lookup daemon.Applications name with
  | none =>
    simp [hl] at h
    obtain ⟨rfl, -⟩ := h
    exact Touched_restartsKept (Touched_refl Grows_refl _)
  | some a =>
    simp only [hl] at h
    cases hs : daemon.stop env os a with
    | error f => simp [hs] at h
    | ok r =>
      obtain ⟨d2, a2, os2, e2⟩ := r
      have hspec := Daemon.stop_spec hs
      cases e2 with
      | some err =>
        simp [hs] at h
        obtain ⟨rfl, -⟩ := h
        simp only [hspec.2.2.1]
        exact Touched_restartsKept (Touched_store Grows_refl hl (Grows_of_eq hspec.2.1))
      | none =>
        simp only [hs] at h
        have hd : daemon1.Applications = remove daemon.Applications name := by
          rcases hdel : Daemon.delete env os2 a2 with ⟨os3, e3⟩
          simp only [hdel] at h
          cases e3 <;> simp at h <;> obtain ⟨rfl, -⟩ := h <;> simp [hspec.2.2.1]
        rw [hd]
        apply RestartsKept_of_lookup_eq
        intro k a0 h0 a1 h1
        by_cases hk : k = name
        · subst hk
          rw [lookup_remove_self] at h1
          cases h1
        · rw [lookup_remove_ne _ _ _ hk, h0] at h1
          cases h1
          rfl

theorem Daemon.RunPreparable_restartsKept {env : Env} {daemon daemon1 : Daemon}
    {os os1 : OS} {prep : Preparable} {e : GoError}
    (h : daemon.RunPreparable env os prep = .ok (daemon1, os1, e)) :
    RestartsKept daemon.Applications daemon1.Applications := by
  unfold Daemon.RunPreparable at h
  cases hl : lookup daemon.Applications prep.Identifier with
  | some a =>
    simp [hl] at h
    obtain ⟨rfl, -⟩ := h
    exact Touched_restartsKept (Touched_refl Grows_refl _)
  | none =>
    simp only [hl] at h
    cases hs : prep.Start env os with
    | error f => simp [hs] at h
    | ok r =>
      obtain ⟨p, a, os2, e2⟩ := r
      cases e2 with
      | some err =>
        simp [hs] at h
        obtain ⟨rfl, -⟩ := h
        exact Touched_restartsKept (Touched_refl Grows_refl _)
      | none =>
        have hname : a.Identifier = prep.Identifier := (Preparable.Start_of_ok hs).1
        simp only [hs, hname] at h
        simp at h
        obtain ⟨rfl, -⟩ := h
        apply RestartsKept_of_lookup_eq
        intro k a0 h0 a1 h1
        have hk : k ≠ prep.Identifier := by
          intro hk
          rw [hk, hl] at h0
          cases h0
        simp only [lookup_store_ne _ _ _ _ hk] at h1
        rw [h0] at h1
        cases h1
        rfl

theorem Daemon.UpdateStatusLoop_touched (env : Env) (es : List (String × Application)) :
    ∀ (os : OS), Touched Grows es (Daemon.UpdateStatusLoop env os es).1 := by
  induction es with
  | nil =>
    intro os
    exact List.Forall₂.nil
  | cons e rest ih =>
    intro os
    obtain ⟨k, a⟩ := e
    rw [Daemon.UpdateStatusLoop_cons]
    exact List.Forall₂.cons ⟨rfl, Grows_of_eq (Daemon.updateStatus_spec env os a).2.1⟩ (ih _)

theorem Daemon.StopLoop_touched (env : Env) (es : List (String × Application)) :
    ∀ (daemon daemon1 : Daemon) (os os1 : OS) (es1 : List (String × Application)),
      Daemon.StopLoop env daemon os es = .ok (daemon1, es1, os1) → Touched Grows es es1 := by
  induction es with
  | nil =>
    intro daemon daemon1 os os1 es1 h
    simp [Daemon.StopLoop] at h
    obtain ⟨-, rfl, -⟩ := h
    exact List.Forall₂.nil
  | cons e rest ih =>
    intro daemon daemon1 os os1 es1 h
    obtain ⟨k, a⟩ := e
    unfold Daemon.StopLoop at h
    cases hs : daemon.stop env os a with
    | error f => simp [hs] at h
    | ok r =>
      obtain ⟨d2, a2, os2, e2⟩ := r
      have hspec := Daemon.stop_spec hs
      simp only [hs] at h
      cases hr : Daemon.StopLoop env d2 os2 rest with
      | error f => simp [hr] at h
      | ok r2 =>
        obtain ⟨d3, rest3, os3⟩ := r2
        simp [hr] at h
        obtain ⟨-, rfl, -⟩ := h
        exact List.Forall₂.cons ⟨rfl, Grows_of_eq hspec.2.1⟩ (ih _ _ _ _ _ hr)

theorem Application.ForceStop_restarts (env : Env) (os : OS) (a : Application) :
    (a.ForceStop env os).1.Status.Restarts = a.Status.Restarts := by
  unfold Application.ForceStop
  split <;> simp [ApplicationStatus.SetStatus]

theorem Application.Restart_restarts (env : Env) (os : OS) (a : Application) :
    (a.Restart env os).1.Status.Restarts = a.Status.Restarts := by
  unfold Application.Restart
  rcases h1 : a.IsAlive env os with ⟨alive, os1⟩
  cases alive with
  | false => exact (Application.Start_spec env os1 a).2.1
  | true =>
    have hg := Application.GracefullyStop_spec env os1 a
    rcases h2 : a.GracefullyStop env os1 with ⟨a1, os2, e⟩
    rw [h2] at hg
    cases e with
    | some err =>
      simp only [h2]
      exact hg.2.1
    | none =>
      simp only [h2]
      exact ((Application.Start_spec env os2 a1).2.1).trans hg.2.1

theorem Daemon.stop_returns (env : Env) (daemon : Daemon) (os : OS) (a : Application)
    (hw : ∀ tr n, env.WaitStop tr n = true) : ∃ r, daemon.stop env os a = .ok r := by
  unfold Daemon.stop
  rcases h1 : a.IsAlive env os with ⟨alive, os1⟩
  cases alive with
  | false => exact ⟨_, rfl⟩
  | true =>
    rcases h2 : daemon.Watcher.StopWatcher a.Identifier with ⟨waitStop, w1⟩
    rcases h3 : a.GracefullyStop env os1 with ⟨a1, os2, e⟩
    simp only [h2, h3]
    cases e with
    | some err => exact ⟨_, rfl⟩
    | none =>
      cases waitStop with
      | false => exact ⟨_, rfl⟩
      | true =>
        simp only [hw, if_true]
        exact ⟨_, rfl⟩

theorem Daemon.WatchApplicationsStep_returns (env : Env) (daemon : Daemon) (os : OS)
    (key : String) (hw : ∀ tr n, env.WaitStop tr n = true) :
    ∃ r, daemon.WatchApplicationsStep env os key = .ok r := by
  unfold Daemon.WatchApplicationsStep
  cases hl : lookup daemon.Applications key with
  | none => exact ⟨_, rfl⟩
  | some a =>
    cases hk : a.KeepAlive with
    | false =>
      simp only [Application.ShouldKeepAlive, hk]
      exact ⟨_, rfl⟩
    | true =>
      simp only [Application.ShouldKeepAlive, hk, Bool.not_true, Bool.false_eq_true, if_false]
      obtain ⟨r, hr⟩ := Daemon.stop_returns env daemon (a.IsAlive env os).2 a.AddRestart hw
      obtain ⟨d1, a1, os1, e⟩ := r
      unfold Daemon.restart
      simp only [hr]
      cases e with
      | some err => exact ⟨_, rfl⟩
      | none => exact ⟨_, rfl⟩

theorem wrapInt_succ (x : Int) (h1 : -2 ^ 63 ≤ x) (h2 : x < 2 ^ 63 - 1) :
    wrapInt (x + 1) = x + 1 := by
  unfold wrapInt
  norm_num at h1 h2 ⊢
  omega

theorem Daemon.WatchApplicationsStep_spec {env : Env} {daemon daemon1 : Daemon}
    {os os1 : OS} {key : String} {e : GoError}
    (h : daemon.WatchApplicationsStep env os key = .ok (daemon1, os1, e)) :
    Touched (Counted daemon.Applications key) daemon.Applications daemon1.Applications ∧
    ∀ a, lookup daemon.Applications key = some a → a.KeepAlive = true →
      ∃ a1, lookup daemon1.Applications key = some a1 ∧
        a1.Status.Restarts = wrapInt (a.Status.Restarts + 1) := by
  have hrefl : ∀ a, Counted daemon.Applications key a a := fun _ => Or.inl rfl
  unfold Daemon.WatchApplicationsStep at h
  cases hl : lookup daemon.Applications key with
  | none =>
    simp [hl] at h
    obtain ⟨rfl, -⟩ := h
    exact ⟨Touched_refl hrefl _, fun a ha => by cases ha⟩
  | some a =>
    simp only [hl] at h
    cases hk : a.KeepAlive with
    | false =>
      simp [Application.ShouldKeepAlive, hk] at h
      obtain ⟨rfl, -⟩ := h
      refine ⟨Touched_store hrefl hl (Or.inl (Daemon.updateStatus_spec env os a).2.1), ?_⟩
      intro a0 h0 h1
      cases h0
      rw [hk] at h1
      cases h1
    | true =>
      simp only [Application.ShouldKeepAlive, hk] at h
      simp only [Bool.not_true, Bool.false_eq_true, if_false] at h
      cases hr : daemon.restart env (a.IsAlive env os).2 a.AddRestart with
      | error f => simp [hr] at h
      | ok r =>
        obtain ⟨d2, a2, os2, e2⟩ := r
        have hspec := Daemon.restart_spec hr
        simp [hr] at h
        obtain ⟨rfl, -⟩ := h
        have hadd : a2.Status.Restarts = wrapInt (a.Status.Restarts + 1) := by
          rw [hspec.2.1]
          rfl
        simp only [hspec.2.2]
        refine ⟨Touched_store hrefl hl (Or.inr ⟨hl, hk, hadd⟩), ?_⟩
        intro a0 h0 _
        cases h0
        exact ⟨a2, lookup_store_self _ _ _, hadd⟩

/-- C9 fails as stated: the keep-alive `svc` has been restarted 2^63 - 1 times, the
largest Go `int`; one more step of the restart loop completes and leaves its Restarts at
-2^63, which is neither one more nor as many as before. -/
theorem restarts_wrap_counterexample :
    lookup wornDaemon.Applications "svc" = some wornSvc ∧ wornSvc.KeepAlive = true ∧
      wornSvc.Status.Restarts = 9223372036854775807 ∧
      wornDaemon.WatchApplicationsStep quietEnv emptyOS "svc" =
        .ok ({ wornDaemon with Applications := [("svc", wornSvc.AddRestart)] },
          { files := [("/tmp/svc/svc.out", ""), ("/tmp/svc/svc.err", ""),
              ("/tmp/svc/svc.pid", "4242")],
            trace := [.WriteFile "/tmp/svc/svc.pid" "4242",
              .StartProcess "/tmp/svc/svc" ["svc"], .GetFile "/tmp/svc/svc.err",
              .GetFile "/tmp/svc/svc.out", .Probe 4242, .Probe 4242, .Probe 4242] }, none) ∧
      wornSvc.AddRestart.Status.Restarts = -9223372036854775808 ∧
      wornSvc.AddRestart.Status.Restarts ≠ wornSvc.Status.Restarts + 1 ∧
      wornSvc.AddRestart.Status.Restarts < wornSvc.Status.Restarts := by
  refine ⟨by decide, by decide, by decide, by rfl, by decide, by decide, by decide⟩

/-- C9, amended: one step of the restart loop for a registered keep-alive application
whose Restarts is below the largest `int`, whenever it completes and whatever error the
restart reported, leaves the application's Restarts exactly one higher (and it completes
whenever the stopped child is reaped, the only place where it can wait); and no operation
of the application or of the supervisor lowers the Restarts of an application: those of
the application itself (`Start`, `ForceStop`, `GracefullyStop`, `Restart`,
`NotifyStopped`, `SetStatus`, and `AddRestart` below the largest `int`) and, for every key
registered before and after, `RunPreparable`, `StartApplications`, `StopApplications`,
`RestartApplications`, `DeleteApplications`, `Revive`, a status-refresh round, `Stop`, and
a restart-loop step for an application below the largest `int`. -/
theorem restarts_count_delivered_exits (env : Env) (daemon : Daemon) (os : OS) :
    (∀ key a daemon1 os1 err, lookup daemon.Applications key = some a →
      a.KeepAlive = true → BelowMaxInt a →
      daemon.WatchApplicationsStep env os key = .ok (daemon1, os1, err) →
      ∃ a1, lookup daemon1.Applications key = some a1 ∧
        a1.Status.Restarts = a.Status.Restarts + 1) ∧
    ((∀ tr n, env.WaitStop tr n = true) →
      ∀ key, ∃ r, daemon.WatchApplicationsStep env os key = .ok r) ∧
    (∀ a : Application,
      Grows a (a.Start env os).1 ∧ Grows a (a.ForceStop env os).1 ∧
      Grows a (a.GracefullyStop env os).1 ∧ Grows a (a.Restart env os).1 ∧
      Grows a a.NotifyStopped ∧ (BelowMaxInt a → Grows a a.AddRestart) ∧
      ∀ status, Grows a (a.SetStatus status)) ∧
    (∀ prep daemon1 os1 err, daemon.RunPreparable env os prep = .ok (daemon1, os1, err) →
      RestartsKept daemon.Applications daemon1.Applications) ∧
    (∀ name, RestartsKept daemon.Applications
      (daemon.StartApplications env os name).1.Applications) ∧
    (∀ name daemon1 os1 err, daemon.StopApplications env os name = .ok (daemon1, os1, err) →
      RestartsKept daemon.Applications daemon1.Applications) ∧
    (∀ name daemon1 os1 err, daemon.RestartApplications env os name = .ok (daemon1, os1, err) →
      RestartsKept daemon.Applications daemon1.Applications) ∧
    (∀ name daemon1 os1 err, daemon.DeleteApplications env os name = .ok (daemon1, os1, err) →
      RestartsKept daemon.Applications daemon1.Applications) ∧
    RestartsKept daemon.Applications (daemon.Revive env os).1.Applications ∧
    (∀ key daemon1 os1 err, (∀ a, lookup daemon.Applications key = some a → BelowMaxInt a) →
      daemon.WatchApplicationsStep env os key = .ok (daemon1, os1, err) →
      RestartsKept daemon.Applications daemon1.Applications) ∧
    RestartsKept daemon.Applications (daemon.UpdateStatus env os).1.Applications ∧
    (∀ daemon1 os1 err, daemon.Stop env os = .ok (daemon1, os1, err) →
      RestartsKept daemon.Applications daemon1.Applications) := by
  refine ⟨?_, ?_, ?_, ?_, ?_, ?_, ?_, ?_, ?_, ?_, ?_, ?_⟩
  · intro key a daemon1 os1 err hreg hkeep hb h
    obtain ⟨a1, h1, h2⟩ := (Daemon.WatchApplicationsStep_spec h).2 a hreg hkeep
    exact ⟨a1, h1, h2.trans (wrapInt_succ _ hb.1 hb.2)⟩
  · intro hw key
    exact Daemon.WatchApplicationsStep_returns env daemon os key hw
  · intro a
    refine ⟨Grows_of_eq (Application.Start_spec env os a).2.1,
      Grows_of_eq (Application.ForceStop_restarts env os a),
      Grows_of_eq (Application.GracefullyStop_spec env os a).2.1,
      Grows_of_eq (Application.Restart_restarts env os a), Grows_refl a, ?_, ?_⟩
    · intro hb
      show a.Status.Restarts ≤ wrapInt (a.Status.Restarts + 1)
      rw [wrapInt_succ _ hb.1 hb.2]
      omega
    · intro status
      exact Grows_refl a
  · intro prep daemon1 os1 err h
    exact Daemon.RunPreparable_restartsKept h
  · intro name
    exact Touched_restartsKept (Daemon.StartApplications_touched env daemon os name)
  · intro name daemon1 os1 err h
    exact Touched_restartsKept (Daemon.StopApplications_touched h)
  · intro name daemon1 os1 err h
    exact Touched_restartsKept (Daemon.RestartApplications_touched h)
  · intro name daemon1 os1 err h
    exact Daemon.DeleteApplications_restartsKept h
  · apply Touched_restartsKept
    have ht := Daemon.ReviveLoop_touched env daemon.Applications daemon os
    unfold Daemon.Revive
    exact List.Forall₂.imp (fun _ _ h => ⟨h.1, Grows_of_eq h.2.2.1⟩) ht
  · intro key daemon1 os1 err hb h
    apply Touched_restartsKept
    refine List.Forall₂.imp (fun x y hxy => ⟨hxy.1, ?_⟩) (Daemon.WatchApplicationsStep_spec h).1
    rcases hxy.2 with heq | ⟨hl, -, hw⟩
    · exact Grows_of_eq heq
    · have hbx := hb _ hl
      show x.2.Status.Restarts ≤ y.2.Status.Restarts
      rw [hw, wrapInt_succ _ hbx.1 hbx.2]
      omega
  · apply Touched_restartsKept
    unfold Daemon.UpdateStatus
    exact Daemon.UpdateStatusLoop_touched env daemon.Applications os
  · intro daemon1 os1 err h
    apply Touched_restartsKept
    unfold Daemon.Stop at h
    cases hl : Daemon.StopLoop env daemon os daemon.Applications with
    | error f => simp [hl] at h
    | ok r =>
      obtain ⟨d2, apps, os2⟩ := r
      simp [hl] at h
      obtain ⟨rfl, -⟩ := h
      exact Daemon.StopLoop_touched env daemon.Applications _ _ _ _ _ hl

/-- Scenario S2 for C9: the keep-alive `svc` was killed; one step of the restart loop
starts it again and counts one restart. -/
theorem restarts_count_delivered_exits_witness :
    lookup (liveDaemon true).Applications "svc" = some (liveSvc true) ∧
      (liveSvc true).KeepAlive = true ∧ BelowMaxInt (liveSvc true) ∧
      ∃ a1, lookup { liveDaemon true with
            Applications := [("svc", (liveSvc true).AddRestart)] }.Applications "svc" =
          some a1 ∧
        a1.Status.Restarts = (liveSvc true).Status.Restarts + 1 :=
  ⟨by decide, by decide, ⟨by decide, by decide⟩,
    (restarts_count_delivered_exits quietEnv (liveDaemon true) emptyOS).1 "svc" (liveSvc true)
      { liveDaemon true with Applications := [("svc", (liveSvc true).AddRestart)] }
      { files := [("/tmp/svc/svc.out", ""), ("/tmp/svc/svc.err", ""),
          ("/tmp/svc/svc.pid", "4242")],
        trace := [.WriteFile "/tmp/svc/svc.pid" "4242", .StartProcess "/tmp/svc/svc" ["svc"],
          .GetFile "/tmp/svc/svc.err", .GetFile "/tmp/svc/svc.out", .Probe 4242, .Probe 4242,
          .Probe 4242] }
      none (by decide) (by decide) ⟨by decide, by decide⟩ (by rfl)⟩

/-! ## Paths of a preparable -/

theorem slash_suffix_iff (l : List Char) :
    ['/'].isSuffixOf l = true ↔ l.getLast? = some '/' := by
  rw [List.isSuffixOf_iff_suffix]
  constructor
  · rintro ⟨t, rfl⟩
    exact List.getLast?_concat t
  · intro h
    exact ⟨l.dropLast, List.dropLast_append_getLast? _ h⟩

theorem TrimSuffix_of_last_ne (s : String) (h : s.data.getLast? ≠ some '/') :
    TrimSuffix s "/" = s := by
  unfold TrimSuffix
  have : ("/" : String).data = ['/'] := rfl
  rw [this]
  have h2 : ¬ (['/'].isSuffixOf s.data = true) := fun hs => h ((slash_suffix_iff _).1 hs)
  simp only [h2, if_false]
  simp

theorem TrimSuffix_append_slash (x : String) : TrimSuffix (x ++ "/") "/" = x := by
  unfold TrimSuffix
  have h1 : ("/" : String).data = ['/'] := rfl
  have h2 : (x ++ "/").data = x.data ++ ['/'] := by
    rw [String.data_append, h1]
  rw [h1, h2]
  have h3 : ['/'].isSuffixOf (x.data ++ ['/']) = true :=
    (slash_suffix_iff _).2 (List.getLast?_concat _)
  simp only [h3, if_true]
  simp

theorem data_ne_nil_of_ne_empty (s : String) (h : s ≠ "") : s.data ≠ [] := by
  intro h2
  apply h
  cases s
  simp only at h2
  subst h2
  rfl

theorem Preparable.getPath_eq (p : Preparable) :
    p.getPath =
      if p.SysFolder = "" then .error .panic
      else .ok ({ p with SysFolder := TrimSuffix p.SysFolder "/" },
        TrimSuffix p.SysFolder "/" ++ "/" ++ p.Name) := by
  unfold Preparable.getPath
  by_cases he : p.SysFolder = ""
  · simp [he]
  · simp only [he, if_false]
    have hne := data_ne_nil_of_ne_empty _ he
    cases hl : p.SysFolder.data.getLast? with
    | none => exact absurd (List.getLast?_eq_none_iff.1 hl) hne
    | some c =>
      by_cases hc : c = '/'
      · simp [hc]
      · have : TrimSuffix p.SysFolder "/" = p.SysFolder := by
          apply TrimSuffix_of_last_ne
          rw [hl]
          simpa using hc
        simp [hc, this]

theorem Preparable.getBinPath_eq (p : Preparable) :
    p.getBinPath =
      if p.SysFolder = "" then .error .panic
      else .ok ({ p with SysFolder := TrimSuffix p.SysFolder "/" },
        TrimSuffix p.SysFolder "/" ++ "/" ++ p.Name ++ "/" ++ p.Name) := by
  unfold Preparable.getBinPath
  rw [Preparable.getPath_eq]
  by_cases he : p.SysFolder = "" <;> simp [he]

theorem Preparable.PrepareBin_eq (env : Env) (os : OS) (p : Preparable) :
    p.PrepareBin env os =
      if p.SourcePath = "" ∨ p.SysFolder = "" ∨ TrimSuffix p.SysFolder "/" = "" then
        .error .panic
      else
        .ok ({ p with
              SourcePath := TrimSuffix p.SourcePath "/"
              SysFolder := TrimSuffix (TrimSuffix p.SysFolder "/") "/"
              Cmd := TrimSuffix (TrimSuffix p.SysFolder "/") "/" ++ "/" ++ p.Name ++ "/" ++
                p.Name },
          os.Command env (if p.Language = "go" then "go" else "")
            (if p.Language = "go" then
              ["build", "-o", TrimSuffix p.SysFolder "/" ++ "/" ++ p.Name ++ "/" ++ p.Name,
                TrimSuffix p.SourcePath "/" ++ "/."]
            else [])) := by
  unfold Preparable.PrepareBin
  by_cases hs : p.SourcePath = ""
  · simp [hs]
  · have hne := data_ne_nil_of_ne_empty _ hs
    cases hl : p.SourcePath.data.getLast? with
    | none => exact absurd (List.getLast?_eq_none_iff.1 hl) hne
    | some c =>
      have hp : (if c = '/' then { p with SourcePath := TrimSuffix p.SourcePath "/" } else p) =
          { p with SourcePath := TrimSuffix p.SourcePath "/" } := by
        by_cases hc : c = '/'
        · simp [hc]
        · have : TrimSuffix p.SourcePath "/" = p.SourcePath := by
            apply TrimSuffix_of_last_ne
            rw [hl]
            simpa using hc
          simp [hc, this]
      simp only [hp, Preparable.getBinPath_eq]
      by_cases h1 : p.SysFolder = ""
      · simp [hs, h1]
      · by_cases h2 : TrimSuffix p.SysFolder "/" = ""
        · simp [hs, h1, h2]
        · simp [hs, h1, h2]

theorem Preparable.Start_eq (env : Env) (os : OS) (p : Preparable) :
    p.Start env os =
      if p.SysFolder = "" ∨ TrimSuffix p.SysFolder "/" = "" ∨
          TrimSuffix (TrimSuffix p.SysFolder "/") "/" = "" ∨
          TrimSuffix (TrimSuffix (TrimSuffix p.SysFolder "/") "/") "/" = "" then
        .error .panic
      else
        .ok ({ p with
              SysFolder :=
                TrimSuffix (TrimSuffix (TrimSuffix (TrimSuffix p.SysFolder "/") "/") "/") "/" },
          Application.Start env os
            { Name := p.Name, Cmd := p.Cmd, Args := p.Args,
              Path := TrimSuffix p.SysFolder "/" ++ "/" ++ p.Name,
              Pidfile := TrimSuffix (TrimSuffix p.SysFolder "/") "/" ++ "/" ++ p.Name ++ "/" ++
                p.Name ++ ".pid",
              Outfile := TrimSuffix (TrimSuffix (TrimSuffix p.SysFolder "/") "/") "/" ++ "/" ++
                p.Name ++ "/" ++ p.Name ++ ".out",
              Errfile :=
                TrimSuffix (TrimSuffix (TrimSuffix (TrimSuffix p.SysFolder "/") "/") "/") "/" ++
                  "/" ++ p.Name ++ "/" ++ p.Name ++ ".err",
              KeepAlive := p.KeepAlive, Pid := 0,
              Status := { Status := "", Restarts := 0 }, process := none }) := by
  unfold Preparable.Start Preparable.getPidPath Preparable.getOutPath Preparable.getErrPath
  simp only [Preparable.getPath_eq, Preparable.getBinPath_eq]
  by_cases h1 : p.SysFolder = ""
  · simp [h1]
  · by_cases h2 : TrimSuffix p.SysFolder "/" = ""
    · simp [h1, h2]
    · by_cases h3 : TrimSuffix (TrimSuffix p.SysFolder "/") "/" = ""
      · simp [h1, h2, h3]
      · by_cases h4 : TrimSuffix (TrimSuffix (TrimSuffix p.SysFolder "/") "/") "/" = ""
        · simp [h1, h2, h3, h4]
        · simp [h1, h2, h3, h4]

/-- C11 fails as stated: with SysFolder "/tmp///" every call of `getPath` strips one more
"/", so `PrepareBin` records Cmd "/tmp//svc/svc" while `Start` derives Path "/tmp/svc" and
Pidfile "/tmp/svc/svc.pid": Cmd is not Path + "/" + Name and Pidfile is not Cmd + ".pid". -/
theorem derived_paths_counterexample :
    (freshPreparable "/tmp///" "src/svc" "go").PrepareBin quietEnv emptyOS =
        .ok (preparedPreparable "/tmp/" "src/svc" "go" "/tmp//svc/svc",
          { files := [],
            trace := [.Command "go" ["build", "-o", "/tmp///svc/svc", "src/svc/."]] },
          "", none) ∧
      ((preparedPreparable "/tmp/" "src/svc" "go" "/tmp//svc/svc").Start quietEnv
          { files := [],
            trace := [.Command "go" ["build", "-o", "/tmp///svc/svc", "src/svc/."]] }).map
          (fun r => r.2.1) =
        .ok (startedSvc "/tmp//svc/svc" "/tmp/svc" "/tmp/svc/svc.pid" "/tmp/svc/svc.out"
          "/tmp/svc/svc.err") ∧
      (startedSvc "/tmp//svc/svc" "/tmp/svc" "/tmp/svc/svc.pid" "/tmp/svc/svc.out"
          "/tmp/svc/svc.err").Cmd ≠
        (startedSvc "/tmp//svc/svc" "/tmp/svc" "/tmp/svc/svc.pid" "/tmp/svc/svc.out"
          "/tmp/svc/svc.err").Path ++ "/" ++ "svc" ∧
      (startedSvc "/tmp//svc/svc" "/tmp/svc" "/tmp/svc/svc.pid" "/tmp/svc/svc.out"
          "/tmp/svc/svc.err").Pidfile ≠
        (startedSvc "/tmp//svc/svc" "/tmp/svc" "/tmp/svc/svc.pid" "/tmp/svc/svc.out"
          "/tmp/svc/svc.err").Cmd ++ ".pid" := by
  refine ⟨by rfl, by rfl, by decide, by decide⟩

/-- C11, amended: for every Application produced by `PrepareBin` followed by `Start` from
a SysFolder with at most two trailing "/" (two strippings leave no trailing "/"), Path is
the stripped SysFolder + "/" + Name, Cmd is Path + "/" + Name, Pidfile is Cmd + ".pid",
Outfile is Cmd + ".out" and Errfile is Cmd + ".err"; with at most one trailing "/" the
stripped SysFolder is SysFolder without its trailing separator. -/
theorem derived_paths_of_prepared (env : Env) (os os1 os2 : OS) (prep p1 p2 : Preparable)
    (application : Application) (out : String) (e1 e2 : GoError)
    (hbin : prep.PrepareBin env os = .ok (p1, os1, out, e1))
    (hstart : p1.Start env os1 = .ok (p2, application, os2, e2))
    (hslash : (TrimSuffix (TrimSuffix prep.SysFolder "/") "/").data.getLast? ≠ some '/') :
    application.Name = prep.Name ∧
    application.Path = TrimSuffix (TrimSuffix prep.SysFolder "/") "/" ++ "/" ++ prep.Name ∧
    application.Cmd = application.Path ++ "/" ++ prep.Name ∧
    application.Pidfile = application.Cmd ++ ".pid" ∧
    application.Outfile = application.Cmd ++ ".out" ∧
    application.Errfile = application.Cmd ++ ".err" ∧
    ((TrimSuffix prep.SysFolder "/").data.getLast? ≠ some '/' →
      application.Path = TrimSuffix prep.SysFolder "/" ++ "/" ++ prep.Name) := by
  rw [Preparable.PrepareBin_eq] at hbin
  split at hbin
  · cases hbin
  · simp only [Except.ok.injEq, Prod.mk.injEq] at hbin
    obtain ⟨rfl, -⟩ := hbin
    have hT := TrimSuffix_of_last_ne _ hslash
    rw [Preparable.Start_eq] at hstart
    simp only [hT] at hstart
    split at hstart
    · cases hstart
    · simp only [Except.ok.injEq, Prod.mk.injEq] at hstart
      obtain ⟨-, hs⟩ := hstart
      have hc := (Application.Start_spec_of_eq hs).1
      simp only [Application.config, Prod.mk.injEq] at hc
      obtain ⟨h1, h2, -, h4, h5, h6, h7, -⟩ := hc
      refine ⟨h1, h4, ?_, ?_, ?_, ?_, ?_⟩
      · rw [h2, h4]
      · rw [h5, h2]
      · rw [h6, h2]
      · rw [h7, h2]
      · intro h
        rw [h4, TrimSuffix_of_last_ne _ h]

/-- Scenario for C11: `svc` prepared and started from SysFolder "/tmp/". -/
theorem derived_paths_of_prepared_witness :
    (TrimSuffix (TrimSuffix (freshPreparable "/tmp/" "src/svc" "go").SysFolder "/") "/"
        ).data.getLast? ≠ some '/' ∧
      (startedSvc "/tmp/svc/svc" "/tmp/svc" "/tmp/svc/svc.pid" "/tmp/svc/svc.out"
          "/tmp/svc/svc.err").Path = "/tmp" ++ "/" ++ "svc" ∧
      (startedSvc "/tmp/svc/svc" "/tmp/svc" "/tmp/svc/svc.pid" "/tmp/svc/svc.out"
          "/tmp/svc/svc.err").Cmd =
        (startedSvc "/tmp/svc/svc" "/tmp/svc" "/tmp/svc/svc.pid" "/tmp/svc/svc.out"
          "/tmp/svc/svc.err").Path ++ "/" ++ "svc" :=
  ⟨by decide, by decide,
    (derived_paths_of_prepared quietEnv emptyOS
      { files := [], trace := [.Command "go" ["build", "-o", "/tmp/svc/svc", "src/svc/."]] }
      { files := [("/tmp/svc/svc.out", ""), ("/tmp/svc/svc.err", ""),
          ("/tmp/svc/svc.pid", "4242")],
        trace := [.WriteFile "/tmp/svc/svc.pid" "4242", .StartProcess "/tmp/svc/svc" ["svc"],
          .GetFile "/tmp/svc/svc.err", .GetFile "/tmp/svc/svc.out",
          .Command "go" ["build", "-o", "/tmp/svc/svc", "src/svc/."]] }
      (freshPreparable "/tmp/" "src/svc" "go")
      (preparedPreparable "/tmp" "src/svc" "go" "/tmp/svc/svc")
      (preparedPreparable "/tmp" "src/svc" "go" "/tmp/svc/svc")
      (startedSvc "/tmp/svc/svc" "/tmp/svc" "/tmp/svc/svc.pid" "/tmp/svc/svc.out"
        "/tmp/svc/svc.err") "" none none (by rfl) (by rfl) (by decide)).2.2.1⟩

/-! ## Building -/

theorem OS.Command_go (env : Env) (os : OS) (args : List String) :
    os.Command env "go" args = (os.log (.Command "go" args), env.Command os.trace "go" args) := by
  simp [OS.Command]

theorem OS.Command_empty (env : Env) (os : OS) (args : List String) :
    os.Command env "" args = (os, "", some "exec: no command") := by
  simp [OS.Command]

/-- C12 fails as stated: with the non-empty SourcePath "src/svc", Language "go" and
SysFolder "/", the first `getBinPath` leaves SysFolder empty and the second one indexes
it: `PrepareBin` panics before any tool is invoked. -/
theorem PrepareBin_root_folder_counterexample :
    (freshPreparable "/" "src/svc" "go").SourcePath ≠ "" ∧
      (freshPreparable "/" "src/svc" "go").Language = "go" ∧
      (freshPreparable "/" "src/svc" "go").PrepareBin quietEnv emptyOS = .error .panic := by
  refine ⟨by decide, by decide, by rfl⟩

/-- C12, amended: for every non-empty SourcePath and every SysFolder other than "" and
"/" (one stripping leaves it non-empty), `PrepareBin` returns and has stripped exactly
one trailing "/" from SourcePath (nothing if it has none); for Language "go" the one call
it makes is the tool "go" with the arguments "build", "-o", binPath, normalized
SourcePath + "/.", where binPath is SysFolder without one trailing "/", then "/" + Name +
"/" + Name, and it returns the output and error of that call. -/
theorem PrepareBin_invokes_go (env : Env) (os : OS) (prep : Preparable)
    (hsrc : prep.SourcePath ≠ "") (hsys : prep.SysFolder ≠ "")
    (hsys1 : TrimSuffix prep.SysFolder "/" ≠ "") :
    ∃ p1 os1 out err, prep.PrepareBin env os = .ok (p1, os1, out, err) ∧
      p1.SourcePath = TrimSuffix prep.SourcePath "/" ∧
      (∀ x, prep.SourcePath = x ++ "/" → p1.SourcePath = x) ∧
      (prep.SourcePath.data.getLast? ≠ some '/' → p1.SourcePath = prep.SourcePath) ∧
      (prep.Language = "go" →
        os1.trace = .Command "go" ["build", "-o",
            TrimSuffix prep.SysFolder "/" ++ "/" ++ prep.Name ++ "/" ++ prep.Name,
            p1.SourcePath ++ "/."] :: os.trace ∧
        os1.files = os.files ∧
        (out, err) = env.Command os.trace "go" ["build", "-o",
            TrimSuffix prep.SysFolder "/" ++ "/" ++ prep.Name ++ "/" ++ prep.Name,
            p1.SourcePath ++ "/."]) := by
  have hx : ∀ x, prep.SourcePath = x ++ "/" → TrimSuffix prep.SourcePath "/" = x := by
    intro x hx
    simp only [hx]
    exact TrimSuffix_append_slash x
  rw [Preparable.PrepareBin_eq]
  simp only [hsrc, hsys, hsys1, or_self, if_false]
  by_cases hgo : prep.Language = "go"
  · simp only [hgo, if_true, OS.Command_go]
    exact ⟨_, _, _, _, rfl, rfl, hx, fun h => TrimSuffix_of_last_ne _ h,
      fun _ => ⟨rfl, rfl, rfl⟩⟩
  · simp only [hgo, if_false, OS.Command_empty]
    exact ⟨_, _, _, _, rfl, rfl, hx, fun h => TrimSuffix_of_last_ne _ h,
      fun h => h.elim⟩

/-- Scenario for C12: `svc` built from "src/svc/" into SysFolder "/tmp/". -/
theorem PrepareBin_invokes_go_witness :
    (freshPreparable "/tmp/" "src/svc/" "go").SourcePath ≠ "" ∧
      (freshPreparable "/tmp/" "src/svc/" "go").SysFolder ≠ "" ∧
      TrimSuffix (freshPreparable "/tmp/" "src/svc/" "go").SysFolder "/" ≠ "" ∧
      ∃ p1 os1 out err,
        (freshPreparable "/tmp/" "src/svc/" "go").PrepareBin quietEnv emptyOS =
          .ok (p1, os1, out, err) ∧
        p1.SourcePath = TrimSuffix (freshPreparable "/tmp/" "src/svc/" "go").SourcePath "/" ∧
        (∀ x, (freshPreparable "/tmp/" "src/svc/" "go").SourcePath = x ++ "/" →
          p1.SourcePath = x) ∧
        ((freshPreparable "/tmp/" "src/svc/" "go").SourcePath.data.getLast? ≠ some '/' →
          p1.SourcePath = (freshPreparable "/tmp/" "src/svc/" "go").SourcePath) ∧
        ((freshPreparable "/tmp/" "src/svc/" "go").Language = "go" →
          os1.trace = .Command "go" ["build", "-o",
              TrimSuffix (freshPreparable "/tmp/" "src/svc/" "go").SysFolder "/" ++ "/" ++
                (freshPreparable "/tmp/" "src/svc/" "go").Name ++ "/" ++
                (freshPreparable "/tmp/" "src/svc/" "go").Name,
              p1.SourcePath ++ "/."] :: emptyOS.trace ∧
          os1.files = emptyOS.files ∧
          (out, err) = quietEnv.Command emptyOS.trace "go" ["build", "-o",
              TrimSuffix (freshPreparable "/tmp/" "src/svc/" "go").SysFolder "/" ++ "/" ++
                (freshPreparable "/tmp/" "src/svc/" "go").Name ++ "/" ++
                (freshPreparable "/tmp/" "src/svc/" "go").Name,
              p1.SourcePath ++ "/."]) :=
  ⟨by decide, by decide, by decide,
    PrepareBin_invokes_go quietEnv emptyOS (freshPreparable "/tmp/" "src/svc/" "go")
      (by decide) (by decide) (by decide)⟩

/-! ## Every way `Application.Start` can end -/

theorem readFile_written (files : List (String × String)) (path data : String) :
    OS.readFile { files := files.filter (fun f => f.1 != path) ++ [(path, data)], trace := [] }
      path = some data := by
  unfold OS.readFile
  simp only [List.find?_append]
  have : (files.filter (fun f => f.1 != path)).find? (fun f => f.1 == path) = none := by
    rw [List.find?_eq_none]
    intro f hf
    have := (List.mem_filter.1 hf).2
    simpa using this
  simp [this]

theorem Application.Start_cases (env : Env) (os : OS) (a : Application) :
    (∃ e, env.GetFile os.trace a.Outfile = some e ∧
      a.Start env os = (a, os.log (.GetFile a.Outfile), some e)) ∨
    (∃ e, env.GetFile os.trace a.Outfile = none ∧
      env.GetFile (.GetFile a.Outfile :: os.trace) a.Errfile = some e ∧
      (a.Start env os).1 = a ∧ (a.Start env os).2.2 = some e ∧
      (a.Start env os).2.1.trace = .GetFile a.Errfile :: .GetFile a.Outfile :: os.trace) ∨
    (∃ e, env.GetFile os.trace a.Outfile = none ∧
      env.GetFile (.GetFile a.Outfile :: os.trace) a.Errfile = none ∧
      env.StartProcess (.GetFile a.Errfile :: .GetFile a.Outfile :: os.trace) a.Cmd
        (a.Name :: a.Args) = .error e ∧
      (a.Start env os).1 = a ∧ (a.Start env os).2.2 = some e ∧
      (a.Start env os).2.1.trace = .StartProcess a.Cmd (a.Name :: a.Args) ::
        .GetFile a.Errfile :: .GetFile a.Outfile :: os.trace) ∨
    (∃ pid e, env.GetFile os.trace a.Outfile = none ∧
      env.GetFile (.GetFile a.Outfile :: os.trace) a.Errfile = none ∧
      env.StartProcess (.GetFile a.Errfile :: .GetFile a.Outfile :: os.trace) a.Cmd
        (a.Name :: a.Args) = .ok pid ∧
      env.WriteFile (.StartProcess a.Cmd (a.Name :: a.Args) :: .GetFile a.Errfile ::
        .GetFile a.Outfile :: os.trace) a.Pidfile (toString pid) = some e ∧
      (a.Start env os).1 = { a with process := some pid, Pid := pid } ∧
      (a.Start env os).2.2 = some e) ∨
    (∃ pid, env.GetFile os.trace a.Outfile = none ∧
      env.GetFile (.GetFile a.Outfile :: os.trace) a.Errfile = none ∧
      env.StartProcess (.GetFile a.Errfile :: .GetFile a.Outfile :: os.trace) a.Cmd
        (a.Name :: a.Args) = .ok pid ∧
      env.WriteFile (.StartProcess a.Cmd (a.Name :: a.Args) :: .GetFile a.Errfile ::
        .GetFile a.Outfile :: os.trace) a.Pidfile (toString pid) = none ∧
      (a.Start env os).1 =
        { a with process := some pid, Pid := pid,
                 Status := { Status := "started", Restarts := a.Status.Restarts } } ∧
      (a.Start env os).2.2 = none ∧
      (a.Start env os).2.1.trace = .WriteFile a.Pidfile (toString pid) ::
        .StartProcess a.Cmd (a.Name :: a.Args) :: .GetFile a.Errfile :: .GetFile a.Outfile ::
        os.trace ∧
      (a.Start env os).2.1.readFile a.Pidfile = some (toString pid)) := by
  cases h1 : env.GetFile os.trace a.Outfile with
  | some e =>
    left
    refine ⟨e, rfl, ?_⟩
    simp [Application.Start, OS.GetFile, OS.log, h1]
  | none =>
    right
    cases h2 : env.GetFile (.GetFile a.Outfile :: os.trace) a.Errfile with
    | some e =>
      left
      refine ⟨e, rfl, rfl, ?_, ?_, ?_⟩ <;>
        simp [Application.Start, OS.GetFile, OS.log, h1, h2]
    | none =>
      right
      cases h3 : env.StartProcess (.GetFile a.Errfile :: .GetFile a.Outfile :: os.trace) a.Cmd
          (a.Name :: a.Args) with
      | error e =>
        left
        refine ⟨e, rfl, rfl, rfl, ?_, ?_, ?_⟩ <;>
          simp [Application.Start, OS.GetFile, OS.log, h1, h2, h3]
      | ok pid =>
        right
        cases h4 : env.WriteFile (.StartProcess a.Cmd (a.Name :: a.Args) :: .GetFile a.Errfile ::
            .GetFile a.Outfile :: os.trace) a.Pidfile (toString pid) with
        | some e =>
          left
          refine ⟨pid, e, rfl, rfl, rfl, h4, ?_, ?_⟩ <;>
            simp [Application.Start, OS.GetFile, OS.WriteFile, OS.log, h1, h2, h3, h4]
        | none =>
          right
          refine ⟨pid, rfl, rfl, rfl, h4, ?_, ?_, ?_, ?_⟩
          · simp [Application.Start, OS.GetFile, OS.WriteFile, OS.log, h1, h2, h3, h4,
              ApplicationStatus.SetStatus]
          · simp [Application.Start, OS.GetFile, OS.WriteFile, OS.log, h1, h2, h3, h4]
          · simp [Application.Start, OS.GetFile, OS.WriteFile, OS.log, h1, h2, h3, h4]
          · simp only [Application.Start, OS.GetFile, OS.WriteFile, OS.log, h1, h2, h3, h4]
            exact readFile_written _ _ _

theorem Application.Start_spawned {env : Env} {os : OS} {a : Application}
    {r : Application × OS × GoError} (h : a.Start env os = r) (he : r.2.2 = none) :
    Event.StartProcess a.Cmd (a.Name :: a.Args) ∈ r.2.1.trace := by
  subst h
  rcases Application.Start_cases env os a with ⟨e, -, h⟩ | ⟨e, -, -, -, h, -⟩ |
    ⟨e, -, -, -, -, h, -⟩ | ⟨pid, e, -, -, -, -, -, h⟩ | ⟨pid, -, -, -, -, -, -, ht, -⟩
  · rw [h] at he
    cases he
  · rw [h] at he
    cases he
  · rw [h] at he
    cases he
  · rw [h] at he
    cases he
  · rw [ht]
    simp

theorem squeeze_double (l r : List Char) :
    squeeze (l ++ '/' :: '/' :: r) = squeeze (l ++ '/' :: r) := by
  induction l with
  | nil => simp [squeeze]
  | cons c l ih =>
    have hh : (l ++ '/' :: '/' :: r).head? = (l ++ '/' :: r).head? := by
      cases l <;> rfl
    rw [List.cons_append, List.cons_append, squeeze, squeeze, hh, ih]

theorem samePath_getBinPath (sysFolder name : String) :
    samePath (TrimSuffix sysFolder "/" ++ "/" ++ name ++ "/" ++ name)
      (TrimSuffix (TrimSuffix sysFolder "/") "/" ++ "/" ++ name ++ "/" ++ name) := by
  by_cases hl : (TrimSuffix sysFolder "/").data.getLast? = some '/'
  · have hs : TrimSuffix sysFolder "/" =
        (⟨(TrimSuffix sysFolder "/").data.dropLast⟩ : String) ++ "/" := by
      apply String.ext
      rw [String.data_append]
      exact (List.dropLast_append_getLast? _ hl).symm
    generalize (⟨(TrimSuffix sysFolder "/").data.dropLast⟩ : String) = x at hs
    rw [hs, TrimSuffix_append_slash]
    unfold samePath
    have h1 : ("/" : String).data = ['/'] := rfl
    simp only [String.data_append, h1, List.append_assoc, List.singleton_append]
    exact squeeze_double _ _
  · rw [TrimSuffix_of_last_ne _ hl]
    rfl

/-- For SysFolder "/tmp//" and Language "go" the tool is given "-o /tmp//svc/svc" (first
`getBinPath`) while the Cmd recorded, and later copied into the Application, is
"/tmp/svc/svc" (second `getBinPath`): two spellings of one path. -/
theorem PrepareBin_output_path_spellings :
    (freshPreparable "/tmp//" "src/svc" "go").PrepareBin quietEnv emptyOS =
        .ok (preparedPreparable "/tmp" "src/svc" "go" "/tmp/svc/svc",
          { files := [],
            trace := [.Command "go" ["build", "-o", "/tmp//svc/svc", "src/svc/."]] },
          "", none) ∧
      (preparedPreparable "/tmp" "src/svc" "go" "/tmp/svc/svc").Cmd ≠ "/tmp//svc/svc" := by
  refine ⟨by rfl, by decide⟩

/-- C13: whenever `PrepareBin` returns with Language "go", the tool was run with "-o" and
the path SysFolder stripped of one trailing "/", then "/" + Name + "/" + Name; the Cmd
recorded is the same path, spelled with SysFolder stripped of one more trailing "/": the
two differ at most in a repeated "/" and are the same string when SysFolder has at most
one trailing "/"; `Preparable.Start` copies the recorded Cmd into the Application, and
when it starts the application the process it spawns is that Cmd. -/
theorem PrepareBin_output_is_Cmd (env : Env) (os os1 : OS) (prep p1 : Preparable)
    (out : String) (e1 : GoError)
    (hbin : prep.PrepareBin env os = .ok (p1, os1, out, e1))
    (hgo : prep.Language = "go") :
    os1.trace = .Command "go" ["build", "-o",
        TrimSuffix prep.SysFolder "/" ++ "/" ++ prep.Name ++ "/" ++ prep.Name,
        TrimSuffix prep.SourcePath "/" ++ "/."] :: os.trace ∧
    p1.Cmd = TrimSuffix (TrimSuffix prep.SysFolder "/") "/" ++ "/" ++ prep.Name ++ "/" ++
      prep.Name ∧
    samePath (TrimSuffix prep.SysFolder "/" ++ "/" ++ prep.Name ++ "/" ++ prep.Name) p1.Cmd ∧
    ((TrimSuffix prep.SysFolder "/").data.getLast? ≠ some '/' →
      p1.Cmd = TrimSuffix prep.SysFolder "/" ++ "/" ++ prep.Name ++ "/" ++ prep.Name) ∧
    (∀ p2 application os2 e2, p1.Start env os1 = .ok (p2, application, os2, e2) →
      application.Cmd = p1.Cmd ∧
      (e2 = none →
        Event.StartProcess p1.Cmd (application.Name :: application.Args) ∈ os2.trace)) := by
  rw [Preparable.PrepareBin_eq] at hbin
  split at hbin
  · cases hbin
  · simp only [Except.ok.injEq, Prod.mk.injEq] at hbin
    obtain ⟨rfl, hos⟩ := hbin
    simp only [hgo, if_true, OS.Command_go, Prod.mk.injEq] at hos
    obtain ⟨rfl, -⟩ := hos
    refine ⟨rfl, rfl, samePath_getBinPath _ _, ?_, ?_⟩
    · intro h
      simp only [TrimSuffix_of_last_ne _ h]
    · intro p2 application os2 e2 hstart
      rw [Preparable.Start_eq] at hstart
      split at hstart
      · cases hstart
      · simp only [Except.ok.injEq, Prod.mk.injEq] at hstart
        obtain ⟨-, hs⟩ := hstart
        have hc := (Application.Start_spec_of_eq hs).1
        simp only [Application.config, Prod.mk.injEq] at hc
        refine ⟨hc.2.1, ?_⟩
        intro he
        subst he
        have hsp := Application.Start_spawned hs rfl
        rw [hc.1, hc.2.2.1]
        exact hsp

/-- Scenario for C13: `svc` built into SysFolder "/tmp//"; "-o" gets "/tmp//svc/svc" and
Cmd is "/tmp/svc/svc", the same path; and into SysFolder "/tmp/", where the two are the
same string. -/
theorem PrepareBin_output_is_Cmd_witness :
    samePath "/tmp//svc/svc" "/tmp/svc/svc" ∧
      (preparedPreparable "/tmp" "src/svc" "go" "/tmp/svc/svc").Cmd =
        TrimSuffix (freshPreparable "/tmp/" "src/svc" "go").SysFolder "/" ++ "/" ++
          (freshPreparable "/tmp/" "src/svc" "go").Name ++ "/" ++
          (freshPreparable "/tmp/" "src/svc" "go").Name :=
  ⟨(PrepareBin_output_is_Cmd quietEnv emptyOS
      { files := [], trace := [.Command "go" ["build", "-o", "/tmp//svc/svc", "src/svc/."]] }
      (freshPreparable "/tmp//" "src/svc" "go")
      (preparedPreparable "/tmp" "src/svc" "go" "/tmp/svc/svc") "" none
      (by rfl) (by decide)).2.2.1,
    (PrepareBin_output_is_Cmd quietEnv emptyOS
      { files := [], trace := [.Command "go" ["build", "-o", "/tmp/svc/svc", "src/svc/."]] }
      (freshPreparable "/tmp/" "src/svc" "go")
      (preparedPreparable "/tmp" "src/svc" "go" "/tmp/svc/svc") "" none
      (by rfl) (by decide)).2.2.2.1 (by decide)⟩

/-- C14 fails as stated: with Language "python" and an empty SourcePath, `PrepareBin`
indexes the empty string and panics: it returns no error. -/
theorem PrepareBin_other_language_counterexample :
    (freshPreparable "/tmp/" "" "python").Language ≠ "go" ∧
      (freshPreparable "/tmp/" "" "python").PrepareBin quietEnv emptyOS = .error .panic := by
  refine ⟨by decide, by rfl⟩

/-- C14, amended: for every language tag other than exactly "go", every non-empty
SourcePath and every SysFolder other than "" and "/", `PrepareBin` returns a non-nil
error (that of running the empty command name with no arguments) and runs no tool: the
operating system is as before the call. -/
theorem PrepareBin_other_language (env : Env) (os : OS) (prep : Preparable)
    (hlang : prep.Language ≠ "go") (hsrc : prep.SourcePath ≠ "") (hsys : prep.SysFolder ≠ "")
    (hsys1 : TrimSuffix prep.SysFolder "/" ≠ "") :
    ∃ p1 out err, prep.PrepareBin env os = .ok (p1, os, out, some err) := by
  rw [Preparable.PrepareBin_eq]
  simp only [hsrc, hsys, hsys1, or_self, if_false, hlang, OS.Command_empty]
  exact ⟨_, _, _, rfl⟩

/-- Scenario for C14: `svc` prepared with Language "python". -/
theorem PrepareBin_other_language_witness :
    (freshPreparable "/tmp/" "src/svc" "python").Language ≠ "go" ∧
      (freshPreparable "/tmp/" "src/svc" "python").SourcePath ≠ "" ∧
      (freshPreparable "/tmp/" "src/svc" "python").SysFolder ≠ "" ∧
      TrimSuffix (freshPreparable "/tmp/" "src/svc" "python").SysFolder "/" ≠ "" ∧
      ∃ p1 out err, (freshPreparable "/tmp/" "src/svc" "python").PrepareBin quietEnv emptyOS =
        .ok (p1, emptyOS, out, some err) :=
  ⟨by decide, by decide, by decide, by decide,
    PrepareBin_other_language quietEnv emptyOS (freshPreparable "/tmp/" "src/svc" "python")
      (by decide) (by decide) (by decide) (by decide)⟩

/-! ## Errors of the application on their way out -/

theorem Daemon.ReviveLoop_error (env : Env) (es : List (String × Application)) :
    ∀ (daemon : Daemon) (os : OS) (msg : String),
      (Daemon.ReviveLoop env daemon os es).2.2.2 = some msg →
      ∃ (a : Application) (os0 : OS) (e : String), a ∈ es.map Prod.snd ∧
        (a.Start env os0).2.2 = some e ∧
        msg = "Failed to revive application " ++ a.Name ++ " due to " ++ e := by
  induction es with
  | nil =>
    intro daemon os msg h
    simp [Daemon.ReviveLoop] at h
  | cons entry rest ih =>
    intro daemon os msg h
    obtain ⟨k, a⟩ := entry
    cases hk : a.KeepAlive with
    | false =>
      rw [Daemon.ReviveLoop_skip env daemon os k a rest hk] at h
      obtain ⟨a1, os0, e, hm, hs, hmsg⟩ := ih daemon os msg h
      exact ⟨a1, os0, e, by simp only [List.map_cons]; exact List.mem_cons_of_mem _ hm, hs, hmsg⟩
    | true =>
      cases he : (daemon.start env os a).2.2.2 with
      | none =>
        rw [Daemon.ReviveLoop_ok env daemon os k a rest hk he] at h
        obtain ⟨a1, os0, e, hm, hs, hmsg⟩ := ih _ _ msg h
        exact ⟨a1, os0, e, by simp only [List.map_cons]; exact List.mem_cons_of_mem _ hm, hs,
          hmsg⟩
      | some err =>
        rw [Daemon.ReviveLoop_fail env daemon os k a rest err hk he] at h
        simp only [Option.some.injEq] at h
        have hname : (daemon.start env os a).2.1.Identifier = a.Name :=
          (Application.config_name (Daemon.start_spec env daemon os a).1).1
        rw [hname] at h
        refine ⟨a, (a.IsAlive env os).2, err, by simp, ?_, h.symm⟩
        unfold Daemon.start at he
        rcases hal : a.IsAlive env os with ⟨alive, os1⟩
        simp only [hal] at he
        cases alive with
        | true => simp at he
        | false =>
          simp only at he
          rcases hst : a.Start env os1 with ⟨a1, os2, e2⟩
          simp only [hst] at he
          cases e2 with
          | none => simp at he
          | some e3 =>
            simp only [Option.some.injEq] at he
            subst he
            rfl

/-- C15 fails as stated: `svc` has keep-alive and is stopped, and no process can be
started; `Application.Start` reports "exec format error" and `Revive` returns another
text, "Failed to revive application svc due to exec format error". -/
theorem Revive_wraps_error_counterexample :
    ((svcApplication true (-1) "stopped").Start noExecEnv emptyOS).2.2 =
        some "exec format error" ∧
      ((svcDaemon true (-1) "stopped").Revive noExecEnv emptyOS).2.2 =
        some "Failed to revive application svc due to exec format error" ∧
      "Failed to revive application svc due to exec format error" ≠ "exec format error" := by
  refine ⟨by rfl, by rfl, by decide⟩

/-- C15, amended: `RunPreparable`, `StartApplications`, `StopApplications`,
`RestartApplications` and `DeleteApplications` return the error of the application
operation they reached (`Start` through the preparable, `Start`, `GracefullyStop`,
`Delete`) with the same text; `Revive` instead returns "Failed to revive application "
+ name + " due to " + the text of the error of `Start`. -/
theorem application_errors_surface (env : Env) (daemon : Daemon) (os : OS) :
    (∀ prep p a os1 e, lookup daemon.Applications prep.Name = none →
      prep.Start env os = .ok (p, a, os1, some e) →
      daemon.RunPreparable env os prep = .ok (daemon, os1, some e)) ∧
    (∀ name a e, lookup daemon.Applications name = some a → (a.IsAlive env os).1 = false →
      (a.Start env (a.IsAlive env os).2).2.2 = some e →
      (daemon.StartApplications env os name).2.2 = some e) ∧
    (∀ name a e, lookup daemon.Applications name = some a → (a.IsAlive env os).1 = true →
      (a.GracefullyStop env (a.IsAlive env os).2).2.2 = some e →
      ∃ daemon1 os1, daemon.StopApplications env os name = .ok (daemon1, os1, some e)) ∧
    (∀ name daemon1 os1 e, daemon.StopApplications env os name = .ok (daemon1, os1, some e) →
      daemon.RestartApplications env os name = .ok (daemon1, os1, some e)) ∧
    (∀ name daemon1 os1, daemon.StopApplications env os name = .ok (daemon1, os1, none) →
      daemon.RestartApplications env os name = .ok (daemon1.StartApplications env os1 name)) ∧
    (∀ name a e, lookup daemon.Applications name = some a → (a.IsAlive env os).1 = true →
      (a.GracefullyStop env (a.IsAlive env os).2).2.2 = some e →
      ∃ daemon1 os1, daemon.DeleteApplications env os name = .ok (daemon1, os1, some e)) ∧
    (∀ name a daemon1 a1 os1 e, lookup daemon.Applications name = some a →
      daemon.stop env os a = .ok (daemon1, a1, os1, none) →
      (a1.Delete env os1).2 = some e →
      ∃ daemon2 os2, daemon.DeleteApplications env os name = .ok (daemon2, os2, some e)) ∧
    (∀ msg, (daemon.Revive env os).2.2 = some msg →
      ∃ (a : Application) (os0 : OS) (e : String), a ∈ daemon.ListApplications ∧
        (a.Start env os0).2.2 = some e ∧
        msg = "Failed to revive application " ++ a.Name ++ " due to " ++ e) := by
  have hstop : ∀ name a e, lookup daemon.Applications name = some a →
      (a.IsAlive env os).1 = true →
      (a.GracefullyStop env (a.IsAlive env os).2).2.2 = some e →
      ∃ daemon1 a1 os1, daemon.stop env os a = .ok (daemon1, a1, os1, some e) := by
    intro name a e _ halive hg
    unfold Daemon.stop
    rcases hal : a.IsAlive env os with ⟨alive, os1⟩
    rw [hal] at halive hg
    simp only at halive hg
    subst halive
    rcases hw : daemon.Watcher.StopWatcher a.Identifier with ⟨waitStop, w1⟩
    rcases hgs : a.GracefullyStop env os1 with ⟨a1, os2, e2⟩
    rw [hgs] at hg
    simp only at hg
    subst hg
    simp only [hw, hgs]
    exact ⟨_, _, _, rfl⟩
  refine ⟨?_, ?_, ?_, ?_, ?_, ?_, ?_, ?_⟩
  · intro prep p a os1 e hnew hs
    have hl : lookup daemon.Applications prep.Identifier = none := hnew
    unfold Daemon.RunPreparable
    simp only [hl, hs]
  · intro name a e hreg hdead hs
    unfold Daemon.StartApplications Daemon.start
    simp only [hreg]
    rcases hal : a.IsAlive env os with ⟨alive, os1⟩
    rw [hal] at hdead hs
    simp only at hdead hs
    subst hdead
    rcases hst : a.Start env os1 with ⟨a1, os2, e2⟩
    rw [hst] at hs
    simp only at hs
    subst hs
    simp only [hst]
  · intro name a e hreg halive hg
    obtain ⟨d1, a1, os1, h⟩ := hstop name a e hreg halive hg
    unfold Daemon.StopApplications
    simp only [hreg, h]
    exact ⟨_, _, rfl⟩
  · intro name daemon1 os1 e h
    unfold Daemon.RestartApplications
    simp only [h]
  · intro name daemon1 os1 h
    unfold Daemon.RestartApplications
    simp only [h]
  · intro name a e hreg halive hg
    obtain ⟨d1, a1, os1, h⟩ := hstop name a e hreg halive hg
    unfold Daemon.DeleteApplications
    simp only [hreg, h]
    exact ⟨_, _, rfl⟩
  · intro name a daemon1 a1 os1 e hreg hs hd
    unfold Daemon.DeleteApplications Daemon.delete
    simp only [hreg, hs]
    rcases hdel : a1.Delete env os1 with ⟨os2, e2⟩
    rw [hdel] at hd
    simp only at hd
    subst hd
    exact ⟨_, _, rfl⟩
  · intro msg h
    unfold Daemon.Revive at h
    exact Daemon.ReviveLoop_error env daemon.Applications daemon os msg h

/-- Scenario for C15: `svc` is stopped and cannot be started; `StartApplications("svc")`
returns the error of `Application.Start`. -/
theorem application_errors_surface_witness :
    lookup (svcDaemon false (-1) "stopped").Applications "svc" =
        some (svcApplication false (-1) "stopped") ∧
      ((svcApplication false (-1) "stopped").IsAlive noExecEnv emptyOS).1 = false ∧
      ((svcApplication false (-1) "stopped").Start noExecEnv
        ((svcApplication false (-1) "stopped").IsAlive noExecEnv emptyOS).2).2.2 =
        some "exec format error" ∧
      ((svcDaemon false (-1) "stopped").StartApplications noExecEnv emptyOS "svc").2.2 =
        some "exec format error" :=
  ⟨by decide, by decide, by rfl,
    (application_errors_surface noExecEnv (svcDaemon false (-1) "stopped") emptyOS).2.1 "svc"
      (svcApplication false (-1) "stopped") "exec format error" (by decide) (by decide)
      (by rfl)⟩

/-! ## The handlers of RemoteDaemon -/

theorem formatted_error_begins (e output : String) :
    "ERROR:".data.isPrefixOf ("ERROR: " ++ e ++ " OUTPUT: " ++ output).data = true := by
  rw [List.isPrefixOf_iff_prefix]
  simp only [String.data_append]
  exact ⟨[' '] ++ e.data ++ (" OUTPUT: " : String).data ++ output.data, by simp⟩

/-- C16 fails as stated: the handler StopApplications, asked for the unknown name
"ghost", returns the supervisor's error "Unknown application.", which does not begin with
"ERROR:". -/
theorem handler_error_counterexample :
    RemoteDaemon.StopApplications quietEnv { daemon := svcDaemon false 4242 "running" }
        emptyOS "ghost" false =
      .ok ({ daemon := svcDaemon false 4242 "running" }, emptyOS, true,
        some "Unknown application.") ∧
      "ERROR:".data.isPrefixOf "Unknown application.".data = false := by
  refine ⟨by rfl, by decide⟩

/-- C16, amended: the error StartGoApplication returns when `Prepare` fails begins with
"ERROR:"; every other error a handler returns is the error of the supervisor method it
calls, with the same text and no such beginning added: Save, Resurrect,
RestartApplications, StartApplications, StopApplications, DeleteApplications, and
StartGoApplication once `Prepare` has succeeded (the error of `RunPreparable`). -/
theorem handler_errors (env : Env) (rd : RemoteDaemon) (os : OS) (ack : Bool) :
    (∀ goApplication p os1 output e,
      rd.daemon.Prepare env os goApplication.SourcePath goApplication.Name "go"
        goApplication.KeepAlive goApplication.Args = .ok (p, os1, output, some e) →
      ∃ text, rd.StartGoApplication env os goApplication ack = .ok (rd, os1, true, some text) ∧
        "ERROR:".data.isPrefixOf text.data = true) ∧
    (∀ goApplication p os1 output daemon2 os2 err,
      rd.daemon.Prepare env os goApplication.SourcePath goApplication.Name "go"
        goApplication.KeepAlive goApplication.Args = .ok (p, os1, output, none) →
      rd.daemon.RunPreparable env os1 p = .ok (daemon2, os2, err) →
      rd.StartGoApplication env os goApplication ack =
        .ok ({ daemon := daemon2 }, os2, true, err)) ∧
    (∀ req, (rd.Save env os req ack).2.2.2 = (rd.daemon.SaveApplications env os).2) ∧
    (∀ req, (rd.Resurrect env os req ack).2.2.2 = (rd.daemon.Revive env os).2.2) ∧
    (∀ name, (rd.StartApplications env os name ack).2.2.2 =
      (rd.daemon.StartApplications env os name).2.2) ∧
    (∀ name daemon1 os1 err,
      rd.daemon.RestartApplications env os name = .ok (daemon1, os1, err) →
      rd.RestartApplications env os name ack = .ok ({ daemon := daemon1 }, os1, true, err)) ∧
    (∀ name daemon1 os1 err,
      rd.daemon.StopApplications env os name = .ok (daemon1, os1, err) →
      rd.StopApplications env os name ack = .ok ({ daemon := daemon1 }, os1, true, err)) ∧
    (∀ name daemon1 os1 err,
      rd.daemon.DeleteApplications env os name = .ok (daemon1, os1, err) →
      rd.DeleteApplications env os name ack = .ok ({ daemon := daemon1 }, os1, true, err)) := by
  refine ⟨?_, ?_, ?_, ?_, ?_, ?_, ?_, ?_⟩
  · intro goApplication p os1 output e h
    unfold RemoteDaemon.StartGoApplication
    simp only [h]
    exact ⟨_, rfl, formatted_error_begins e output⟩
  · intro goApplication p os1 output daemon2 os2 err h hrun
    unfold RemoteDaemon.StartGoApplication
    simp only [h, hrun]
  · intro req
    rfl
  · intro req
    rfl
  · intro name
    rfl
  · intro name daemon1 os1 err h
    unfold RemoteDaemon.RestartApplications
    simp only [h]
  · intro name daemon1 os1 err h
    unfold RemoteDaemon.StopApplications
    simp only [h]
  · intro name daemon1 os1 err h
    unfold RemoteDaemon.DeleteApplications
    simp only [h]

/-- Scenario for C16: the build of `svc` fails; the handler's error begins with "ERROR:". -/
theorem handler_errors_witness :
    emptyDaemon.Prepare brokenBuildEnv emptyOS svcRequest.SourcePath svcRequest.Name "go"
        svcRequest.KeepAlive svcRequest.Args =
      .ok (preparedPreparable "/tmp" "src/svc" "go" "/tmp/svc/svc",
        { files := [], trace := [.Command "go" ["build", "-o", "/tmp/svc/svc", "src/svc/."]] },
        "cannot find package", some "exit status 1") ∧
      ∃ text, RemoteDaemon.StartGoApplication brokenBuildEnv { daemon := emptyDaemon } emptyOS
          svcRequest false =
        .ok ({ daemon := emptyDaemon },
          { files := [],
            trace := [.Command "go" ["build", "-o", "/tmp/svc/svc", "src/svc/."]] },
          true, some text) ∧
        "ERROR:".data.isPrefixOf text.data = true :=
  ⟨by rfl,
    (handler_errors brokenBuildEnv { daemon := emptyDaemon } emptyOS false).1 svcRequest
      (preparedPreparable "/tmp" "src/svc" "go" "/tmp/svc/svc")
      { files := [], trace := [.Command "go" ["build", "-o", "/tmp/svc/svc", "src/svc/."]] }
      "cannot find package" "exit status 1" (by rfl)⟩

/-- C17: when `Prepare` fails with error e and build output o, StartGoApplication returns
the error "ERROR: " + e + " OUTPUT: " + o, sets ack to true whatever it was, and leaves
the daemon (the registry with it) as it was and the operating system as `Prepare` left it:
`RunPreparable` was not called. -/
theorem StartGoApplication_build_failure (env : Env) (rd : RemoteDaemon) (os os1 : OS)
    (goApplication : GoApplication) (ack : Bool) (p : Preparable) (o e : String)
    (h : rd.daemon.Prepare env os goApplication.SourcePath goApplication.Name "go"
      goApplication.KeepAlive goApplication.Args = .ok (p, os1, o, some e)) :
    rd.StartGoApplication env os goApplication ack =
      .ok (rd, os1, true, some ("ERROR: " ++ e ++ " OUTPUT: " ++ o)) := by
  unfold RemoteDaemon.StartGoApplication
  simp only [h]

/-- Scenario for C17: the build of `svc` fails with "exit status 1" and the output "cannot
find package". -/
theorem StartGoApplication_build_failure_witness :
    emptyDaemon.Prepare brokenBuildEnv emptyOS svcRequest.SourcePath svcRequest.Name "go"
        svcRequest.KeepAlive svcRequest.Args =
      .ok (preparedPreparable "/tmp" "src/svc" "go" "/tmp/svc/svc",
        { files := [], trace := [.Command "go" ["build", "-o", "/tmp/svc/svc", "src/svc/."]] },
        "cannot find package", some "exit status 1") ∧
      RemoteDaemon.StartGoApplication brokenBuildEnv { daemon := emptyDaemon } emptyOS
          svcRequest false =
        .ok ({ daemon := emptyDaemon },
          { files := [],
            trace := [.Command "go" ["build", "-o", "/tmp/svc/svc", "src/svc/."]] },
          true, some ("ERROR: " ++ "exit status 1" ++ " OUTPUT: " ++ "cannot find package")) :=
  ⟨by rfl,
    StartGoApplication_build_failure brokenBuildEnv { daemon := emptyDaemon } emptyOS
      { files := [], trace := [.Command "go" ["build", "-o", "/tmp/svc/svc", "src/svc/."]] }
      svcRequest false (preparedPreparable "/tmp" "src/svc" "go" "/tmp/svc/svc")
      "cannot find package" "exit status 1" (by rfl)⟩

/-- C18: each of the handlers Save, Resurrect, RestartApplications, StartApplications,
StopApplications and DeleteApplications, for every request and every value of ack,
returns the result of the supervisor method SaveApplications, Revive,
RestartApplications, StartApplications, StopApplications or DeleteApplications: the
same error, the same final daemon (registry) and operating system as the direct call,
with ack set to true; and it does not return exactly when the direct call does not. -/
theorem handlers_refine_supervisor (env : Env) (rd : RemoteDaemon) (os : OS)
    (req name : String) (ack : Bool) :
    rd.Save env os req ack =
      (rd, (rd.daemon.SaveApplications env os).1, true, (rd.daemon.SaveApplications env os).2) ∧
    rd.Resurrect env os req ack = replied (rd.daemon.Revive env os) ∧
    rd.RestartApplications env os name ack =
      (rd.daemon.RestartApplications env os name).map replied ∧
    rd.StartApplications env os name ack = replied (rd.daemon.StartApplications env os name) ∧
    rd.StopApplications env os name ack =
      (rd.daemon.StopApplications env os name).map replied ∧
    rd.DeleteApplications env os name ack =
      (rd.daemon.DeleteApplications env os name).map replied := by
  refine ⟨rfl, rfl, ?_, rfl, ?_, ?_⟩
  · unfold RemoteDaemon.RestartApplications
    cases rd.daemon.RestartApplications env os name <;> rfl
  · unfold RemoteDaemon.StopApplications
    cases rd.daemon.StopApplications env os name <;> rfl
  · unfold RemoteDaemon.DeleteApplications
    cases rd.daemon.DeleteApplications env os name <;> rfl

/-! ## Starting -/

theorem store_lookup_self (m : List (String × Application)) (k : String) (a : Application)
    (h : lookup m k = some a) : store m k a = m := by
  induction m with
  | nil => simp [lookup] at h
  | cons entry rest ih =>
    obtain ⟨k1, a0⟩ := entry
    by_cases hk : k1 = k
    · simp only [lookup, hk, if_true, Option.some.injEq] at h
      simp [store, hk, h]
    · simp only [lookup, hk, if_false] at h
      simp [store, hk, ih h]

theorem Watcher.mem_AddApplicationWatcher (watcher : Watcher) (a : Application) :
    a.Identifier ∈ (watcher.AddApplicationWatcher a).watchApplications := by
  unfold Watcher.AddApplicationWatcher
  split
  · assumption
  · simp

theorem Application.Start_status (env : Env) (os : OS) (a : Application) :
    (∀ e, (a.Start env os).2.2 = some e → (a.Start env os).1.Status = a.Status) ∧
    ((a.Start env os).2.2 = none →
      (a.Start env os).1.Status = { Status := "started", Restarts := a.Status.Restarts }) := by
  rcases Application.Start_cases env os a with h | h | h | h | h
  · obtain ⟨e, -, hs⟩ := h
    simp [hs]
  · obtain ⟨e, -, -, h1, h2, -⟩ := h
    simp [h1, h2]
  · obtain ⟨e, -, -, -, h1, h2, -⟩ := h
    simp [h1, h2]
  · obtain ⟨pid, e, -, -, -, -, h1, h2⟩ := h
    simp [h1, h2]
  · obtain ⟨pid, -, -, -, -, h1, h2, -⟩ := h
    simp [h1, h2]

/-- C19: for a registered name, when the application is alive `StartApplications(name)`
returns nil and leaves the daemon as it was (same registry, same watcher table), the only
call made being the liveness check; when it is not alive and `Application.Start`
succeeds, it returns nil, the watcher table has an entry for the application and its
label is "running"; when `Application.Start` fails, its error is returned, the watcher
table is as before and the status (label and restarts) is the one it had. -/
theorem StartApplications_of_registered (env : Env) (daemon : Daemon) (os : OS)
    (name : String) (a : Application)
    (hreg : lookup daemon.Applications name = some a) :
    ((a.IsAlive env os).1 = true →
      daemon.StartApplications env os name = (daemon, (a.IsAlive env os).2, none) ∧
      (a.IsAlive env os).2.files = os.files ∧
      (a.IsAlive env os).2.trace = .Probe a.Pid :: os.trace) ∧
    ((a.IsAlive env os).1 = false → (a.Start env (a.IsAlive env os).2).2.2 = none →
      (daemon.StartApplications env os name).2.2 = none ∧
      a.Identifier ∈ (daemon.StartApplications env os name).1.Watcher.watchApplications ∧
      ∃ a1, lookup (daemon.StartApplications env os name).1.Applications name = some a1 ∧
        a1.Status.Status = "running") ∧
    (∀ e, (a.IsAlive env os).1 = false → (a.Start env (a.IsAlive env os).2).2.2 = some e →
      (daemon.StartApplications env os name).2.2 = some e ∧
      (daemon.StartApplications env os name).1.Watcher = daemon.Watcher ∧
      ∃ a1, lookup (daemon.StartApplications env os name).1.Applications name = some a1 ∧
        a1.Status = a.Status) := by
  refine ⟨?_, ?_, ?_⟩
  · intro halive
    have hs := (Daemon.start_spec env daemon os a).2.2.2.2 halive
    have hp := Application.IsAlive_true env os a halive
    refine ⟨?_, (Application.IsAlive_os env os a).1, ?_⟩
    · unfold Daemon.StartApplications
      simp only [hreg, hs, store_lookup_self _ _ _ hreg]
    · unfold Application.IsAlive
      simp [hp.2.1, hp.2.2, OS.log]
  · intro hdead hok
    unfold Daemon.StartApplications Daemon.start
    simp only [hreg]
    rcases hal : a.IsAlive env os with ⟨alive, os1⟩
    rw [hal] at hdead hok
    simp only at hdead hok
    subst hdead
    have hc := (Application.Start_spec env os1 a).1
    rcases hst : a.Start env os1 with ⟨a1, os2, e2⟩
    rw [hst] at hok hc
    simp only at hok hc
    subst hok
    simp only [hst]
    refine ⟨trivial, ?_, _, lookup_store_self _ _ _, rfl⟩
    have hn : a.Identifier = a1.Identifier := (Application.config_name hc).1.symm
    rw [hn]
    exact Watcher.mem_AddApplicationWatcher _ _
  · intro e hdead herr
    have hstat := (Application.Start_status env (a.IsAlive env os).2 a).1 e herr
    unfold Daemon.StartApplications Daemon.start
    simp only [hreg]
    rcases hal : a.IsAlive env os with ⟨alive, os1⟩
    rw [hal] at hdead herr hstat
    simp only at hdead herr hstat
    subst hdead
    rcases hst : a.Start env os1 with ⟨a1, os2, e2⟩
    rw [hst] at herr hstat
    simp only at herr hstat
    subst herr
    simp only [hst]
    exact ⟨trivial, trivial, _, lookup_store_self _ _ _, hstat⟩

/-- Scenario for C19: the stopped `svc` is started by name. -/
theorem StartApplications_of_registered_witness :
    lookup (svcDaemon false (-1) "stopped").Applications "svc" =
        some (svcApplication false (-1) "stopped") ∧
      ((svcApplication false (-1) "stopped").IsAlive quietEnv emptyOS).1 = false ∧
      ((svcApplication false (-1) "stopped").Start quietEnv
        ((svcApplication false (-1) "stopped").IsAlive quietEnv emptyOS).2).2.2 = none ∧
      ((svcDaemon false (-1) "stopped").StartApplications quietEnv emptyOS "svc").2.2 = none ∧
      (svcApplication false (-1) "stopped").Identifier ∈
        ((svcDaemon false (-1) "stopped").StartApplications quietEnv emptyOS
          "svc").1.Watcher.watchApplications ∧
      ∃ a1, lookup ((svcDaemon false (-1) "stopped").StartApplications quietEnv emptyOS
          "svc").1.Applications "svc" = some a1 ∧ a1.Status.Status = "running" :=
  ⟨by decide, by decide, by rfl,
    (StartApplications_of_registered quietEnv (svcDaemon false (-1) "stopped") emptyOS "svc"
      (svcApplication false (-1) "stopped") (by decide)).2.1 (by decide) (by rfl)⟩

/-- C20: whenever `Application.Start` returns nil, the child was spawned from Cmd with the
argument vector Name followed by Args (that call is in the trace and answered with the
pid), Pid and the process handle are that pid, the Pidfile holds the pid as decimal text,
the label is "started" and Restarts is as before; when opening Outfile fails, or opening
Errfile fails, or the spawn fails, that error is returned and the application (Pid and
status with it) is as before.  `Start` returns nil exactly when the four calls succeed. -/
theorem Application_Start_outcomes (env : Env) (os : OS) (a : Application) :
    ((a.Start env os).2.2 = none →
      ∃ pid, env.StartProcess (.GetFile a.Errfile :: .GetFile a.Outfile :: os.trace) a.Cmd
          (a.Name :: a.Args) = .ok pid ∧
        Event.StartProcess a.Cmd (a.Name :: a.Args) ∈ (a.Start env os).2.1.trace ∧
        (a.Start env os).1.Pid = pid ∧ (a.Start env os).1.process = some pid ∧
        (a.Start env os).2.1.readFile a.Pidfile = some (toString pid) ∧
        (a.Start env os).1.Status = { Status := "started", Restarts := a.Status.Restarts }) ∧
    (∀ e, env.GetFile os.trace a.Outfile = some e →
      (a.Start env os).1 = a ∧ (a.Start env os).2.2 = some e) ∧
    (∀ e, env.GetFile os.trace a.Outfile = none →
      env.GetFile (.GetFile a.Outfile :: os.trace) a.Errfile = some e →
      (a.Start env os).1 = a ∧ (a.Start env os).2.2 = some e) ∧
    (∀ e, env.GetFile os.trace a.Outfile = none →
      env.GetFile (.GetFile a.Outfile :: os.trace) a.Errfile = none →
      env.StartProcess (.GetFile a.Errfile :: .GetFile a.Outfile :: os.trace) a.Cmd
        (a.Name :: a.Args) = .error e →
      (a.Start env os).1 = a ∧ (a.Start env os).2.2 = some e) ∧
    (∀ pid, env.GetFile os.trace a.Outfile = none →
      env.GetFile (.GetFile a.Outfile :: os.trace) a.Errfile = none →
      env.StartProcess (.GetFile a.Errfile :: .GetFile a.Outfile :: os.trace) a.Cmd
        (a.Name :: a.Args) = .ok pid →
      env.WriteFile (.StartProcess a.Cmd (a.Name :: a.Args) :: .GetFile a.Errfile ::
        .GetFile a.Outfile :: os.trace) a.Pidfile (toString pid) = none →
      (a.Start env os).2.2 = none) := by
  rcases Application.Start_cases env os a with h | h | h | h | h
  · obtain ⟨e, h1, hs⟩ := h
    refine ⟨?_, ?_, ?_, ?_, ?_⟩
    · intro h0; simp [hs] at h0
    · intro e1 g1
      rw [h1] at g1; cases g1
      simp [hs]
    all_goals (intros; simp_all)
  · obtain ⟨e, h1, h2, hs1, hs2, -⟩ := h
    refine ⟨?_, ?_, ?_, ?_, ?_⟩
    · intro h0; simp [hs2] at h0
    · intro e1 g1; simp_all
    · intro e1 _ g2
      rw [h2] at g2; cases g2
      exact ⟨hs1, hs2⟩
    all_goals (intros; simp_all)
  · obtain ⟨e, h1, h2, h3, hs1, hs2, -⟩ := h
    refine ⟨?_, ?_, ?_, ?_, ?_⟩
    · intro h0; simp [hs2] at h0
    · intro e1 g1; simp_all
    · intro e1 _ g2; simp_all
    · intro e1 _ _ g3
      rw [h3] at g3; cases g3
      exact ⟨hs1, hs2⟩
    · intro pid _ _ g3; simp_all
  · obtain ⟨pid, e, h1, h2, h3, h4, hs1, hs2⟩ := h
    refine ⟨?_, ?_, ?_, ?_, ?_⟩
    · intro h0; simp [hs2] at h0
    · intro e1 g1; simp_all
    · intro e1 _ g2; simp_all
    · intro e1 _ _ g3; simp_all
    · intro pid1 _ _ g3 g4
      rw [h3] at g3; cases g3
      rw [h4] at g4; cases g4
  · obtain ⟨pid, h1, h2, h3, h4, hs1, hs2, ht, hf⟩ := h
    refine ⟨?_, ?_, ?_, ?_, ?_⟩
    · intro _
      refine ⟨pid, h3, ?_, ?_, ?_, hf, ?_⟩
      · rw [ht]; simp
      · rw [hs1]
      · rw [hs1]
      · rw [hs1]
    · intro e1 g1; simp_all
    · intro e1 _ g2; simp_all
    · intro e1 _ _ g3; simp_all
    · intros; exact hs2

/-- Scenario for C20: the stopped `svc` is started on an operating system where every
call succeeds and the child gets pid 4242, written to the Pidfile as "4242". -/
theorem Application_Start_outcomes_witness :
    ((svcApplication false (-1) "stopped").Start quietEnv emptyOS).2.2 = none ∧
      toString (4242 : Int) = "4242" ∧
      ∃ pid, quietEnv.StartProcess
          (.GetFile (svcApplication false (-1) "stopped").Errfile ::
            .GetFile (svcApplication false (-1) "stopped").Outfile :: emptyOS.trace)
          (svcApplication false (-1) "stopped").Cmd
          ((svcApplication false (-1) "stopped").Name ::
            (svcApplication false (-1) "stopped").Args) = .ok pid ∧
        Event.StartProcess (svcApplication false (-1) "stopped").Cmd
            ((svcApplication false (-1) "stopped").Name ::
              (svcApplication false (-1) "stopped").Args) ∈
          ((svcApplication false (-1) "stopped").Start quietEnv emptyOS).2.1.trace ∧
        ((svcApplication false (-1) "stopped").Start quietEnv emptyOS).1.Pid = pid ∧
        ((svcApplication false (-1) "stopped").Start quietEnv emptyOS).1.process = some pid ∧
        ((svcApplication false (-1) "stopped").Start quietEnv emptyOS).2.1.readFile
            (svcApplication false (-1) "stopped").Pidfile = some (toString pid) ∧
        ((svcApplication false (-1) "stopped").Start quietEnv emptyOS).1.Status =
          { Status := "started",
            Restarts := (svcApplication false (-1) "stopped").Status.Restarts } :=
  ⟨by rfl, by decide,
    (Application_Start_outcomes quietEnv emptyOS (svcApplication false (-1) "stopped")).1
      (by rfl)⟩

/-! ## GracefullyStop -/

/-- C21: GracefullyStop on an application without a process handle returns the error
"Process does not exist." and changes neither the application nor the operating system;
with a handle it sets the label to "asked to stop" whatever the outcome of the signal,
keeps Pid and Restarts, sends SIGTERM through the handle and returns the outcome of that
signal. -/
theorem GracefullyStop_by_handle (env : Env) (os : OS) (application : Application) :
    (application.process = none →
      application.GracefullyStop env os = (application, os, some "Process does not exist.")) ∧
    (∀ pid, application.process = some pid →
      (application.GracefullyStop env os).1.Status.Status = "asked to stop" ∧
      (application.GracefullyStop env os).1.Pid = application.Pid ∧
      (application.GracefullyStop env os).1.Status.Restarts = application.Status.Restarts ∧
      (application.GracefullyStop env os).2.1 = os.log (.Signal pid .SIGTERM) ∧
      (application.GracefullyStop env os).2.2 = env.Signal os.trace pid .SIGTERM) := by
  constructor
  · intro h
    simp [Application.GracefullyStop, h]
  · intro pid h
    simp [Application.GracefullyStop, h, ApplicationStatus.SetStatus]

theorem GracefullyStop_by_handle_witness :
    (svcApplication true 4242 "running").GracefullyStop deafEnv emptyOS =
        (svcApplication true 4242 "running", emptyOS, some "Process does not exist.") ∧
      ((liveSvc true).GracefullyStop deafEnv emptyOS).1.Status.Status = "asked to stop" ∧
      ((liveSvc true).GracefullyStop deafEnv emptyOS).1.Pid = 4242 ∧
      ((liveSvc true).GracefullyStop deafEnv emptyOS).2.2 =
        some "os: process already finished" :=
  ⟨(GracefullyStop_by_handle deafEnv emptyOS (svcApplication true 4242 "running")).1 rfl,
    ((GracefullyStop_by_handle deafEnv emptyOS (liveSvc true)).2 4242 rfl).1,
    ((GracefullyStop_by_handle deafEnv emptyOS (liveSvc true)).2 4242 rfl).2.1,
    ((GracefullyStop_by_handle deafEnv emptyOS (liveSvc true)).2 4242 rfl).2.2.2.2⟩

/-! ## DeleteApplications on error -/

/-- C28: DeleteApplications on a registered name is not atomic on error.  If stopping the
application returns an error, that error is returned, the registry still holds the name
(with the same keys as before) and `Application.Delete` is not called: the operating
system is as `stop` left it.  If stopping returns nil and `Application.Delete` returns an
error, that error is returned and the name is already gone from the registry. -/
theorem DeleteApplications_not_atomic (env : Env) (daemon : Daemon) (os : OS) (name : String)
    (application : Application) (hreg : lookup daemon.Applications name = some application) :
    (∀ (daemon1 : Daemon) (application1 : Application) (os1 : OS) (err : String),
      daemon.stop env os application = .ok (daemon1, application1, os1, some err) →
      ∃ daemon2 : Daemon, daemon.DeleteApplications env os name = .ok (daemon2, os1, some err) ∧
        lookup daemon2.Applications name = some application1 ∧
        keys daemon2.Applications = keys daemon.Applications) ∧
    (∀ (daemon1 : Daemon) (application1 : Application) (os1 os2 : OS) (err : String),
      daemon.stop env os application = .ok (daemon1, application1, os1, none) →
      application1.Delete env os1 = (os2, some err) →
      ∃ daemon2 : Daemon, daemon.DeleteApplications env os name = .ok (daemon2, os2, some err) ∧
        lookup daemon2.Applications name = none ∧ name ∉ keys daemon2.Applications) := by
  constructor
  · intro daemon1 application1 os1 err hstop
    have hs := Daemon.stop_spec hstop
    refine ⟨{ daemon1 with Applications := store daemon1.Applications name application1 },
      ?_, ?_, ?_⟩
    · simp [Daemon.DeleteApplications, hreg, hstop]
    · exact lookup_store_self _ _ _
    · show keys (store daemon1.Applications name application1) = keys daemon.Applications
      rw [hs.2.2.1]
      exact keys_store_of_lookup _ _ _ _ hreg
  · intro daemon1 application1 os1 os2 err hstop hdel
    refine ⟨{ daemon1 with Applications := remove daemon1.Applications name }, ?_, ?_, ?_⟩
    · simp [Daemon.DeleteApplications, hreg, hstop, Daemon.delete, hdel]
    · exact lookup_remove_self _ _
    · show name ∉ keys (remove daemon1.Applications name)
      simp [keys, remove]

theorem DeleteApplications_not_atomic_witness :
    (∃ daemon2 : Daemon,
      (svcDaemon false 4242 "running").DeleteApplications busyEnv emptyOS "svc" =
          .ok (daemon2, emptyOS.log (.Probe 4242), some "Process does not exist.") ∧
        lookup daemon2.Applications "svc" = some (svcApplication false 4242 "running") ∧
        keys daemon2.Applications = keys (svcDaemon false 4242 "running").Applications) ∧
    (∃ daemon2 : Daemon,
      (svcDaemon false (-1) "stopped").DeleteApplications stuckDirEnv emptyOS "svc" =
          .ok (daemon2,
            { files := [],
              trace := [.RemoveAll "/tmp/svc", .DeleteFile "/tmp/svc/svc.err",
                .DeleteFile "/tmp/svc/svc.out", .DeleteFile "/tmp/svc/svc.pid"] },
            some "permission denied") ∧
        lookup daemon2.Applications "svc" = none ∧ "svc" ∉ keys daemon2.Applications) :=
  ⟨(DeleteApplications_not_atomic busyEnv (svcDaemon false 4242 "running") emptyOS "svc"
      (svcApplication false 4242 "running") (by decide)).1
      (svcDaemon false 4242 "running") (svcApplication false 4242 "running")
      (emptyOS.log (.Probe 4242)) "Process does not exist." (by rfl),
    (DeleteApplications_not_atomic stuckDirEnv (svcDaemon false (-1) "stopped") emptyOS "svc"
      (svcApplication false (-1) "stopped") (by decide)).2
      (svcDaemon false (-1) "stopped") (svcApplication false (-1) "stopped") emptyOS
      { files := [],
        trace := [.RemoveAll "/tmp/svc", .DeleteFile "/tmp/svc/svc.err",
          .DeleteFile "/tmp/svc/svc.out", .DeleteFile "/tmp/svc/svc.pid"] }
      "permission denied" (by rfl) (by rfl)⟩

/-! ## Revive stops at the first failure -/

theorem Daemon.ReviveLoop_append (env : Env) (pre rest : List (String × Application)) :
    ∀ (daemon : Daemon) (os : OS), (Daemon.ReviveLoop env daemon os pre).2.2.2 = none →
      Daemon.ReviveLoop env daemon os (pre ++ rest) =
        ((Daemon.ReviveLoop env (Daemon.ReviveLoop env daemon os pre).1
            (Daemon.ReviveLoop env daemon os pre).2.2.1 rest).1,
          (Daemon.ReviveLoop env daemon os pre).2.1 ++
            (Daemon.ReviveLoop env (Daemon.ReviveLoop env daemon os pre).1
              (Daemon.ReviveLoop env daemon os pre).2.2.1 rest).2.1,
          (Daemon.ReviveLoop env (Daemon.ReviveLoop env daemon os pre).1
            (Daemon.ReviveLoop env daemon os pre).2.2.1 rest).2.2) := by
  induction pre with
  | nil =>
    intro daemon os _
    simp [Daemon.ReviveLoop]
  | cons e pre ih =>
    intro daemon os h
    obtain ⟨k, a⟩ := e
    cases hk : a.KeepAlive with
    | false =>
      rw [Daemon.ReviveLoop_skip env daemon os k a pre hk] at h ⊢
      rw [List.cons_append, Daemon.ReviveLoop_skip env daemon os k a (pre ++ rest) hk]
      rw [ih daemon os h]
      rfl
    | true =>
      cases he : (daemon.start env os a).2.2.2 with
      | some err =>
        rw [Daemon.ReviveLoop_fail env daemon os k a pre err hk he] at h
        simp at h
      | none =>
        rw [Daemon.ReviveLoop_ok env daemon os k a pre hk he] at h ⊢
        rw [List.cons_append, Daemon.ReviveLoop_ok env daemon os k a (pre ++ rest) hk he]
        rw [ih _ _ h]
        rfl

/-- C27: Revive stops at the first keep-alive application whose start fails.  Let the
registry list `pre`, then `a` under key `k`, then `post`, let the loop over `pre` end
without error, and let the start of the keep-alive application `a` fail with `err`.  Then
Revive returns the error "Failed to revive application <a.Name> due to <err>"; the
applications of `post` are in the registry exactly as they were and the operating system
and the watcher are as the failed start of `a` left them, so nothing is started after `a`;
and every keep-alive application of `pre` has the label "running", unless a liveness check
found it alive and it was left as it was. -/
theorem Revive_stops_at_first_failure (env : Env) (daemon : Daemon) (os : OS)
    (pre : List (String × Application)) (k : String) (a : Application)
    (post : List (String × Application)) (err : String)
    (hreg : daemon.Applications = pre ++ (k, a) :: post)
    (hpre : (Daemon.ReviveLoop env daemon os pre).2.2.2 = none)
    (hk : a.KeepAlive = true)
    (hfail : ((Daemon.ReviveLoop env daemon os pre).1.start env
      (Daemon.ReviveLoop env daemon os pre).2.2.1 a).2.2.2 = some err) :
    (daemon.Revive env os).2.2 =
        some ("Failed to revive application " ++ a.Name ++ " due to " ++ err) ∧
      (daemon.Revive env os).1.Applications =
        (Daemon.ReviveLoop env daemon os pre).2.1 ++
          (k, ((Daemon.ReviveLoop env daemon os pre).1.start env
            (Daemon.ReviveLoop env daemon os pre).2.2.1 a).2.1) :: post ∧
      (daemon.Revive env os).2.1 =
        ((Daemon.ReviveLoop env daemon os pre).1.start env
          (Daemon.ReviveLoop env daemon os pre).2.2.1 a).2.2.1 ∧
      (daemon.Revive env os).1.Watcher =
        ((Daemon.ReviveLoop env daemon os pre).1.start env
          (Daemon.ReviveLoop env daemon os pre).2.2.1 a).1.Watcher ∧
      Touched (Revived env True) pre (Daemon.ReviveLoop env daemon os pre).2.1 := by
  have hname := (Daemon.start_spec env (Daemon.ReviveLoop env daemon os pre).1
    (Daemon.ReviveLoop env daemon os pre).2.2.1 a).1
  have hname2 : ((Daemon.ReviveLoop env daemon os pre).1.start env
      (Daemon.ReviveLoop env daemon os pre).2.2.1 a).2.1.Identifier = a.Name := by
    have := congrArg Prod.fst hname
    simpa [Application.config, Application.Identifier] using this
  have ht := Daemon.ReviveLoop_touched env pre daemon os
  have hloop := Daemon.ReviveLoop_append env pre ((k, a) :: post) daemon os hpre
  rw [Daemon.ReviveLoop_fail env _ _ k a post err hk hfail, hname2] at hloop
  unfold Daemon.Revive
  rw [hreg, hloop]
  refine ⟨rfl, rfl, rfl, rfl, ?_⟩
  have hw : Touched (Revived env ((Daemon.ReviveLoop env daemon os pre).2.2.2 = none)) pre
      (Daemon.ReviveLoop env daemon os pre).2.1 := ht
  exact List.Forall₂.imp (fun _ _ h => ⟨h.1, Revived_weaken env (fun _ => hpre) h.2⟩) hw

theorem Revive_stops_at_first_failure_witness :
    (threeDaemon.Revive pickyEnv emptyOS).2.2 =
        some "Failed to revive application bad due to exec format error" ∧
      lookup (threeDaemon.Revive pickyEnv emptyOS).1.Applications "late" =
        some lateApplication ∧
      (lookup (threeDaemon.Revive pickyEnv emptyOS).1.Applications "svc").map
        (fun x => x.Status.Status) = some "running" :=
  ⟨(Revive_stops_at_first_failure pickyEnv threeDaemon emptyOS
      [("svc", svcApplication true (-1) "stopped")] "bad" badApplication
      [("late", lateApplication)] "exec format error" rfl (by rfl) rfl (by rfl)).1,
    by rfl, by rfl⟩

/-! ## The six calls of getPath -/

theorem TrimSuffix_slashes (n : Nat) :
    TrimSuffix ⟨List.replicate n '/'⟩ "/" = ⟨List.replicate (n - 1) '/'⟩ := by
  cases n with
  | zero => rfl
  | succ n =>
    have h : (⟨List.replicate (n + 1) '/'⟩ : String) = ⟨List.replicate n '/'⟩ ++ "/" := by
      rw [List.replicate_succ']
      rfl
    rw [h, TrimSuffix_append_slash]
    rfl

theorem slashes_eq_empty_iff (n : Nat) : (⟨List.replicate n '/'⟩ : String) = "" ↔ n = 0 := by
  constructor
  · intro h
    have h1 := congrArg String.data h
    have h2 : List.replicate n '/' = [] := h1
    simpa using h2
  · intro h
    subst h
    rfl

theorem TrimSuffix_keeps_other (s : String) (h : ∃ c ∈ s.data, c ≠ '/') :
    (∃ c ∈ (TrimSuffix s "/").data, c ≠ '/') ∧ s ≠ "" := by
  obtain ⟨c, hc, hne⟩ := h
  constructor
  · by_cases hl : s.data.getLast? = some '/'
    · have hs : s = (⟨s.data.dropLast⟩ : String) ++ "/" := by
        apply String.ext
        rw [String.data_append]
        exact (List.dropLast_append_getLast? _ hl).symm
      have hmem : c ∈ s.data.dropLast := by
        rw [← List.dropLast_append_getLast? _ hl] at hc
        rcases List.mem_append.1 hc with h1 | h1
        · exact h1
        · simp at h1
          exact absurd h1 hne
      rw [hs, TrimSuffix_append_slash]
      exact ⟨c, hmem, hne⟩
    · rw [TrimSuffix_of_last_ne s hl]
      exact ⟨c, hc, hne⟩
  · intro h
    subst h
    simp at hc

/-- C26: PrepareBin followed by Start on the same preparable indexes no empty string, that
is both return, exactly when SourcePath is non-empty and SysFolder either contains a
character other than '/' or consists of at least six '/' characters; with
`SysFolder = "/"` PrepareBin itself panics. -/
theorem prepare_then_start_is_index_safe (env : Env) (os : OS) (p : Preparable) :
    ((∃ (p1 : Preparable) (os1 : OS) (output : String) (err : GoError),
        p.PrepareBin env os = .ok (p1, os1, output, err) ∧
        ∃ r, p1.Start env os1 = .ok r) ↔
      (p.SourcePath ≠ "" ∧
        ((∃ c ∈ p.SysFolder.data, c ≠ '/') ∨
          ((∀ c ∈ p.SysFolder.data, c = '/') ∧ 6 ≤ p.SysFolder.data.length)))) ∧
    (p.SysFolder = "/" → p.PrepareBin env os = .error .panic) := by
  have hcomp : (∃ (p1 : Preparable) (os1 : OS) (output : String) (err : GoError),
        p.PrepareBin env os = .ok (p1, os1, output, err) ∧
        ∃ r, p1.Start env os1 = .ok r) ↔
      ¬ (p.SourcePath = "" ∨ p.SysFolder = "" ∨ TrimSuffix p.SysFolder "/" = "" ∨
        TrimSuffix (TrimSuffix p.SysFolder "/") "/" = "" ∨
        TrimSuffix (TrimSuffix (TrimSuffix p.SysFolder "/") "/") "/" = "" ∨
        TrimSuffix (TrimSuffix (TrimSuffix (TrimSuffix p.SysFolder "/") "/") "/") "/" = "" ∨
        TrimSuffix (TrimSuffix (TrimSuffix (TrimSuffix (TrimSuffix p.SysFolder "/") "/") "/")
          "/") "/" = "") := by
    rw [Preparable.PrepareBin_eq]
    by_cases h0 : p.SourcePath = "" ∨ p.SysFolder = "" ∨ TrimSuffix p.SysFolder "/" = ""
    · rw [if_pos h0]
      constructor
      · rintro ⟨_, _, _, _, h, _⟩
        cases h
      · intro h
        exfalso
        apply h
        rcases h0 with h0 | h0 | h0
        · exact Or.inl h0
        · exact Or.inr (Or.inl h0)
        · exact Or.inr (Or.inr (Or.inl h0))
    · rw [if_neg h0]
      simp only [not_or] at h0
      constructor
      · rintro ⟨p1, os1, output, err, h, r, hr⟩
        simp only [Except.ok.injEq, Prod.mk.injEq] at h
        obtain ⟨rfl, -⟩ := h
        rw [Preparable.Start_eq] at hr
        split at hr
        · cases hr
        · rename_i hn
          simp only [not_or] at hn ⊢
          exact ⟨h0.1, h0.2.1, h0.2.2, hn.1, hn.2.1, hn.2.2.1, hn.2.2.2⟩
      · intro h
        simp only [not_or] at h
        refine ⟨_, _, _, _, rfl, ?_⟩
        rw [Preparable.Start_eq]
        rw [if_neg]
        · exact ⟨_, rfl⟩
        · simp only [not_or]
          exact ⟨h.2.2.2.1, h.2.2.2.2.1, h.2.2.2.2.2.1, h.2.2.2.2.2.2⟩
  constructor
  · rw [hcomp]
    by_cases hP : ∃ c ∈ p.SysFolder.data, c ≠ '/'
    · have h1 := TrimSuffix_keeps_other _ hP
      have h2 := TrimSuffix_keeps_other _ h1.1
      have h3 := TrimSuffix_keeps_other _ h2.1
      have h4 := TrimSuffix_keeps_other _ h3.1
      have h5 := TrimSuffix_keeps_other _ h4.1
      have h6 := TrimSuffix_keeps_other _ h5.1
      simp only [not_or]
      constructor
      · intro h
        exact ⟨h.1, Or.inl hP⟩
      · intro h
        exact ⟨h.1, h1.2, h2.2, h3.2, h4.2, h5.2, h6.2⟩
    · have hall : ∀ c ∈ p.SysFolder.data, c = '/' := by
        intro c hc
        by_contra hne
        exact hP ⟨c, hc, hne⟩
      have hs : p.SysFolder = ⟨List.replicate p.SysFolder.data.length '/'⟩ := by
        apply String.ext
        exact List.eq_replicate_iff.2 ⟨rfl, hall⟩
      generalize p.SysFolder.data.length = n at hs
      rw [hs]
      have hlen : (⟨List.replicate n '/'⟩ : String).data.length = n :=
        List.length_replicate n '/'
      simp only [TrimSuffix_slashes, slashes_eq_empty_iff, not_or, hlen]
      constructor
      · intro h
        refine ⟨h.1, Or.inr ⟨fun c hc => List.eq_of_mem_replicate hc, ?_⟩⟩
        omega
      · intro h
        rcases h.2 with ⟨c, hc, hne⟩ | h2
        · exact absurd (List.eq_of_mem_replicate hc) hne
        · refine ⟨h.1, ?_⟩
          omega
  · intro h
    rw [Preparable.PrepareBin_eq, if_pos]
    right
    right
    rw [h]
    rfl

theorem prepare_then_start_is_index_safe_witness :
    (∃ (p1 : Preparable) (os1 : OS) (output : String) (err : GoError),
        (freshPreparable "//////" "src/svc" "go").PrepareBin quietEnv emptyOS =
          .ok (p1, os1, output, err) ∧
        ∃ r, p1.Start quietEnv os1 = .ok r) ∧
      (freshPreparable "/" "src/svc" "go").PrepareBin quietEnv emptyOS = .error .panic :=
  ⟨(prepare_then_start_is_index_safe quietEnv emptyOS
      (freshPreparable "//////" "src/svc" "go")).1.2
      ⟨by decide, Or.inr ⟨by decide, by decide⟩⟩,
    (prepare_then_start_is_index_safe quietEnv emptyOS
      (freshPreparable "/" "src/svc" "go")).2 rfl⟩

/-! ## PadString -/

theorem utf8ByteSize_append (s t : String) :
    (s ++ t).utf8ByteSize = s.utf8ByteSize + t.utf8ByteSize := by
  cases s
  cases t
  show String.utf8ByteSize ⟨_ ++ _⟩ = _
  simp [String.utf8ByteSize_mk, String.utf8Len_append]

theorem spaces_succ_right (n : Nat) : spaces (n + 1) = spaces n ++ " " := by
  apply String.ext
  rw [String.data_append]
  exact List.replicate_succ' n ' '

theorem spaces_succ_left (n : Nat) : spaces (n + 1) = " " ++ spaces n := by
  apply String.ext
  rw [String.data_append]
  exact List.replicate_succ ' ' n

theorem spaces_utf8ByteSize (n : Nat) : (spaces n).utf8ByteSize = n := by
  induction n with
  | zero => rfl
  | succ n ih =>
    rw [spaces_succ_right, utf8ByteSize_append, ih]
    rfl

theorem PadStringLoop_done (totalSize : Int) (turn : Nat) (str : String)
    (h : totalSize ≤ (str.utf8ByteSize : Int)) : PadStringLoop totalSize turn str = str := by
  rw [PadStringLoop]
  simp [h]

theorem PadStringLoop_left (totalSize : Int) (str : String)
    (h : (str.utf8ByteSize : Int) < totalSize) :
    PadStringLoop totalSize 0 str = PadStringLoop totalSize 1 (" " ++ str) := by
  rw [PadStringLoop]
  have h1 : ¬ ((str.utf8ByteSize : Int) ≥ totalSize) := by omega
  simp only [h1, if_false, if_true]
  rfl

theorem PadStringLoop_right (totalSize : Int) (str : String)
    (h : (str.utf8ByteSize : Int) < totalSize) :
    PadStringLoop totalSize 1 str = PadStringLoop totalSize 0 (str ++ " ") := by
  rw [PadStringLoop]
  have h1 : ¬ ((str.utf8ByteSize : Int) ≥ totalSize) := by omega
  simp only [h1, if_false]
  rfl

theorem PadStringLoop_eq (totalSize : Int) (k : Nat) :
    ∀ str : String, (totalSize - str.utf8ByteSize).toNat = k →
      PadStringLoop totalSize 0 str = spaces ((k + 1) / 2) ++ str ++ spaces (k / 2) ∧
      PadStringLoop totalSize 1 str = spaces (k / 2) ++ str ++ spaces ((k + 1) / 2) := by
  induction k with
  | zero =>
    intro str h
    have hle : totalSize ≤ (str.utf8ByteSize : Int) := by omega
    rw [PadStringLoop_done _ _ _ hle, PadStringLoop_done _ _ _ hle]
    have h0 : spaces 0 = "" := rfl
    simp [h0]
  | succ k ih =>
    intro str h
    have hlt : (str.utf8ByteSize : Int) < totalSize := by omega
    have hone : (" " : String).utf8ByteSize = 1 := by decide
    have hl : (totalSize - ((" " ++ str).utf8ByteSize : Nat)).toNat = k := by
      rw [utf8ByteSize_append, hone]
      omega
    have hr : (totalSize - ((str ++ " ").utf8ByteSize : Nat)).toNat = k := by
      rw [utf8ByteSize_append, hone]
      omega
    have e1 : (k + 1 + 1) / 2 = k / 2 + 1 := by omega
    constructor
    · rw [PadStringLoop_left _ _ hlt, (ih _ hl).2, e1, spaces_succ_right]
      simp only [String.append_assoc]
    · rw [PadStringLoop_right _ _ hlt, (ih _ hr).1, e1, spaces_succ_left]
      simp only [String.append_assoc]

/-- C25: PadString is total.  With `k = max(0, totalSize - len(str))`, `len` counting
bytes, its result is ceil(k/2) spaces, then `str`, then floor(k/2) spaces; the length of
the result is `max(len(str), totalSize)`; and `str` is returned unchanged when
`len(str) >= totalSize`. -/
theorem PadString_pads_evenly (str : String) (totalSize : Int) :
    PadString str totalSize =
        spaces (((totalSize - str.utf8ByteSize).toNat + 1) / 2) ++ str ++
          spaces ((totalSize - str.utf8ByteSize).toNat / 2) ∧
      ((PadString str totalSize).utf8ByteSize : Int) = max (str.utf8ByteSize : Int) totalSize ∧
      (totalSize ≤ (str.utf8ByteSize : Int) → PadString str totalSize = str) := by
  have h := (PadStringLoop_eq totalSize _ str rfl).1
  refine ⟨h, ?_, fun hle => PadStringLoop_done _ _ _ hle⟩
  unfold PadString
  rw [h, utf8ByteSize_append, utf8ByteSize_append, spaces_utf8ByteSize, spaces_utf8ByteSize]
  omega

theorem PadString_pads_evenly_witness :
    PadString "ab" 5 = "  ab " ∧ PadString "abc" 2 = "abc" ∧ PadString "abc" (-4) = "abc" :=
  ⟨(PadString_pads_evenly "ab" 5).1.trans (by decide),
    (PadString_pads_evenly "abc" 2).2.2 (by decide),
    (PadString_pads_evenly "abc" (-4)).2.2 (by decide)⟩

/-! ## InitMaster -/

theorem store_of_not_mem (m : List (String × Application)) (k : String) (v : Application)
    (h : k ∉ keys m) : store m k v = m ++ [(k, v)] := by
  induction m with
  | nil => rfl
  | cons e rest ih =>
    obtain ⟨k1, v1⟩ := e
    simp only [keys, List.map_cons, List.mem_cons, not_or] at h
    have h1 : ¬ k1 = k := fun h2 => h.1 h2.symm
    have h3 : k ∉ keys rest := h.2
    simp [store, h1, ih h3]

theorem copyApplications_eq (es : List (String × Application)) :
    ∀ m : List (String × Application), (keys (m ++ es)).Nodup →
      copyApplications m es = m ++ es := by
  induction es with
  | nil =>
    intro m _
    simp [copyApplications]
  | cons e rest ih =>
    intro m h
    obtain ⟨k, v⟩ := e
    have hk : k ∉ keys m := by
      simp only [keys, List.map_append, List.map_cons] at h
      have h1 := (List.nodup_append.1 h).2.2
      intro hm
      exact h1 hm (List.mem_cons_self _ _) 
    rw [copyApplications, store_of_not_mem m k v hk]
    have h2 : (keys ((m ++ [(k, v)]) ++ rest)).Nodup := by
      simpa using h
    rw [ih _ h2]
    simp

theorem Daemon.start_sysFolder (env : Env) (daemon : Daemon) (os : OS) (a : Application) :
    (daemon.start env os a).1.SysFolder = daemon.SysFolder := by
  unfold Daemon.start
  rcases h1 : a.IsAlive env os with ⟨alive, os1⟩
  cases alive with
  | true => rfl
  | false =>
    rcases h2 : a.Start env os1 with ⟨a1, os2, e⟩
    cases e <;> simp [h2]

theorem Daemon.ReviveLoop_sysFolder (env : Env) (es : List (String × Application)) :
    ∀ (daemon : Daemon) (os : OS),
      (Daemon.ReviveLoop env daemon os es).1.SysFolder = daemon.SysFolder := by
  induction es with
  | nil =>
    intro daemon os
    rfl
  | cons e rest ih =>
    intro daemon os
    obtain ⟨k, a⟩ := e
    cases hk : a.KeepAlive with
    | false =>
      rw [Daemon.ReviveLoop_skip env daemon os k a rest hk]
      exact ih daemon os
    | true =>
      cases he : (daemon.start env os a).2.2.2 with
      | some err =>
        rw [Daemon.ReviveLoop_fail env daemon os k a rest err hk he]
        exact Daemon.start_sysFolder env daemon os a
      | none =>
        rw [Daemon.ReviveLoop_ok env daemon os k a rest hk he]
        exact (ih _ _).trans (Daemon.start_sysFolder env daemon os a)

theorem Daemon.Revive_spec (env : Env) (daemon : Daemon) (os : OS) :
    (daemon.Revive env os).1.SysFolder = daemon.SysFolder ∧
    Touched (Revived env False) daemon.Applications (daemon.Revive env os).1.Applications := by
  have h1 := Daemon.ReviveLoop_sysFolder env daemon.Applications daemon os
  have h2 := Daemon.ReviveLoop_touched env daemon.Applications daemon os
  unfold Daemon.Revive
  refine ⟨h1, ?_⟩
  exact List.Forall₂.imp (fun _ _ h => ⟨h.1, Revived_weaken env (fun hf => hf.elim) h.2⟩) h2

theorem InitMaster_eq (env : Env) (ienv : InitEnv) (os : OS) (configFile : String)
    (decoded : DecodableDaemon)
    (hread : ienv.SafeReadTomlFile os.trace configFile = .ok decoded)
    (hkeys : (keys decoded.Applications).Nodup) :
    ∃ (daemon0 : Daemon) (os0 : OS),
      InitMaster env ienv os configFile =
        .ok ((daemon0.Revive env os0).1, (daemon0.Revive env os0).2.1) ∧
      daemon0.Applications = decoded.Applications ∧
      daemon0.SysFolder =
        (if decoded.SysFolder = "" then ienv.Dir configFile ++ "/" else decoded.SysFolder) ∧
      daemon0.Watcher = InitWatcher := by
  have hcopy : copyApplications [] decoded.Applications = decoded.Applications := by
    have := copyApplications_eq decoded.Applications [] (by simpa using hkeys)
    simpa using this
  unfold InitMaster
  simp only [hread, hcopy]
  by_cases hs : decoded.SysFolder = ""
  · simp only [hs, if_true]
    exact ⟨_, _, rfl, rfl, rfl, rfl⟩
  · simp only [hs, if_false]
    exact ⟨_, _, rfl, rfl, rfl, rfl⟩

/-- C22: when the read of `configFile` decodes a snapshot (whose map has distinct keys),
InitMaster returns; the registry it builds before reviving is the map of the snapshot,
every application under its key, and the registry it returns has the same keys, each
application with the fixed fields of the snapshot (and unchanged when it is not
keep-alive); the SysFolder is `path.Dir(configFile) + "/"` when the snapshot's is empty
and the snapshot's SysFolder verbatim otherwise. -/
theorem InitMaster_copies_snapshot (env : Env) (ienv : InitEnv) (os : OS) (configFile : String)
    (decoded : DecodableDaemon)
    (hread : ienv.SafeReadTomlFile os.trace configFile = .ok decoded)
    (hkeys : (keys decoded.Applications).Nodup) :
    ∃ (daemon0 daemon1 : Daemon) (os0 os1 : OS),
      InitMaster env ienv os configFile = .ok (daemon1, os1) ∧
      daemon1 = (daemon0.Revive env os0).1 ∧
      daemon0.Applications = decoded.Applications ∧
      keys daemon1.Applications = keys decoded.Applications ∧
      Touched (Revived env False) decoded.Applications daemon1.Applications ∧
      daemon1.SysFolder =
        (if decoded.SysFolder = "" then ienv.Dir configFile ++ "/" else decoded.SysFolder) := by
  obtain ⟨daemon0, os0, h, happ, hsys, -⟩ := InitMaster_eq env ienv os configFile decoded hread hkeys
  have hr := Daemon.Revive_spec env daemon0 os0
  rw [happ] at hr
  exact ⟨daemon0, _, os0, _, h, rfl, happ, Touched_keys hr.2, hr.2, hr.1.trans hsys⟩

theorem InitMaster_copies_snapshot_witness :
    ∃ (daemon0 daemon1 : Daemon) (os0 os1 : OS),
      InitMaster quietEnv snapshotEnv emptyOS "/var/apm/config.toml" = .ok (daemon1, os1) ∧
      daemon1 = (daemon0.Revive quietEnv os0).1 ∧
      daemon0.Applications = [("svc", svcApplication false (-1) "stopped")] ∧
      keys daemon1.Applications = ["svc"] ∧
      Touched (Revived quietEnv False) [("svc", svcApplication false (-1) "stopped")]
        daemon1.Applications ∧
      daemon1.SysFolder = "/var/apm/" :=
  InitMaster_copies_snapshot quietEnv snapshotEnv emptyOS "/var/apm/config.toml" svcSnapshot
    (by rfl) (by decide)

/-! ## The snapshot read back -/

theorem keys_persistedApplications (m : List (String × Application)) :
    keys (persistedApplications m) = keys m := by
  simp [keys, persistedApplications, Function.comp_def]

theorem lookup_persistedApplications (m : List (String × Application)) (k : String) :
    lookup (persistedApplications m) k =
      (lookup m k).map (fun a => { a with process := none }) := by
  induction m with
  | nil => rfl
  | cons e rest ih =>
    obtain ⟨k1, v1⟩ := e
    by_cases h : k1 = k
    · simp [persistedApplications, lookup, h]
    · have ih1 : lookup (List.map (fun e => (e.1, { e.2 with process := none })) rest) k =
          (lookup rest k).map (fun a => { a with process := none }) := ih
      simp [persistedApplications, lookup, h, ih1]

theorem storedApplications_saved (env : Env) (daemon : Daemon) (os : OS)
    (h : (daemon.SaveApplications env os).2 = none) :
    storedApplications env (daemon.SaveApplications env os).1.trace (daemon.getConfigPath env) =
      persistedApplications daemon.Applications := by
  have h1 : env.SafeWriteTomlFile os.trace (daemon.getConfigPath env) = none := h
  show storedApplications env
    (.SafeWriteTomlFile (daemon.getConfigPath env) daemon.Applications :: os.trace)
    (daemon.getConfigPath env) = _
  simp [storedApplications, h1]

/-- C23: let SaveApplications return nil on a registry with distinct keys.  The file it
wrote is `path.Join(SysFolder, "config.toml")` and what it wrote there is the registry.
Let that file be read back by InitMaster, reads being the inverse of writes.  Then
InitMaster returns, and the registry it holds before the revive step has the same keys
and, under each key, an application with the same Name, Cmd, Args, Path, Pidfile,
Outfile, Errfile, KeepAlive, Pid and Status as the one saved, and without a process
handle. -/
theorem snapshot_round_trip (env : Env) (ienv : InitEnv) (header : DecodableDaemon)
    (daemon : Daemon) (os : OS)
    (hkeys : (keys daemon.Applications).Nodup)
    (hsave : (daemon.SaveApplications env os).2 = none) :
    (daemon.SaveApplications env os).1.trace =
        .SafeWriteTomlFile (env.Join daemon.SysFolder "config.toml") daemon.Applications ::
          os.trace ∧
    ∃ (daemon0 daemon1 : Daemon) (os0 os1 : OS),
      InitMaster env (persistentEnv env ienv header) (daemon.SaveApplications env os).1
          (env.Join daemon.SysFolder "config.toml") = .ok (daemon1, os1) ∧
      (daemon1, os1) = ((daemon0.Revive env os0).1, (daemon0.Revive env os0).2.1) ∧
      keys daemon0.Applications = keys daemon.Applications ∧
      (∀ k a, lookup daemon.Applications k = some a →
        ∃ a0, lookup daemon0.Applications k = some a0 ∧ a0.config = a.config ∧
          a0.Pid = a.Pid ∧ a0.Status = a.Status ∧ a0.process = none) ∧
      (∀ k, lookup daemon.Applications k = none → lookup daemon0.Applications k = none) := by
  refine ⟨rfl, ?_⟩
  have hstored := storedApplications_saved env daemon os hsave
  have hread : (persistentEnv env ienv header).SafeReadTomlFile
      (daemon.SaveApplications env os).1.trace (env.Join daemon.SysFolder "config.toml") =
      .ok { header with Applications := persistedApplications daemon.Applications } := by
    have hpath : storedApplications env (daemon.SaveApplications env os).1.trace
        (env.Join daemon.SysFolder "config.toml") =
        persistedApplications daemon.Applications := hstored
    simp only [persistentEnv, hpath]
  have hk : (keys ({ header with
      Applications := persistedApplications daemon.Applications } :
        DecodableDaemon).Applications).Nodup := by
    show (keys (persistedApplications daemon.Applications)).Nodup
    rw [keys_persistedApplications]
    exact hkeys
  obtain ⟨daemon0, os0, h, happ, -, -⟩ := InitMaster_eq env _ _ _ _ hread hk
  have happ1 : daemon0.Applications = persistedApplications daemon.Applications := happ
  refine ⟨daemon0, _, os0, _, h, rfl, ?_, ?_, ?_⟩
  · rw [happ1, keys_persistedApplications]
  · intro k a hl
    refine ⟨{ a with process := none }, ?_, rfl, rfl, rfl, rfl⟩
    rw [happ1, lookup_persistedApplications, hl]
    rfl
  · intro k hl
    rw [happ1, lookup_persistedApplications, hl]
    rfl

/-- Scenario S6 for C23: the daemon of "/tmp" saves its registry, which holds the running
`svc`, to "/tmp/config.toml", and a new daemon is started from that file. -/
theorem snapshot_round_trip_witness :
    ((liveDaemon true).SaveApplications quietEnv emptyOS).1.trace =
        [.SafeWriteTomlFile "/tmp/config.toml" [("svc", liveSvc true)]] ∧
    ∃ (daemon0 daemon1 : Daemon) (os0 os1 : OS),
      InitMaster quietEnv (persistentEnv quietEnv snapshotEnv svcSnapshot)
          ((liveDaemon true).SaveApplications quietEnv emptyOS).1
          "/tmp/config.toml" = .ok (daemon1, os1) ∧
      (daemon1, os1) = ((daemon0.Revive quietEnv os0).1, (daemon0.Revive quietEnv os0).2.1) ∧
      keys daemon0.Applications = ["svc"] ∧
      (∀ k a, lookup (liveDaemon true).Applications k = some a →
        ∃ a0, lookup daemon0.Applications k = some a0 ∧ a0.config = a.config ∧
          a0.Pid = a.Pid ∧ a0.Status = a.Status ∧ a0.process = none) ∧
      (∀ k, lookup (liveDaemon true).Applications k = none →
        lookup daemon0.Applications k = none) :=
  snapshot_round_trip quietEnv snapshotEnv svcSnapshot (liveDaemon true) emptyOS
    (by decide) (by rfl)

/-! ## Which operations hold the mutex -/

theorem guarded_registry (l rest : List Sync) (h : ∀ x ∈ l, ∃ call, x = .Registry call) :
    guarded true (l ++ rest) = guarded true rest := by
  induction l with
  | nil => rfl
  | cons x l ih =>
    obtain ⟨call, rfl⟩ := h x (List.mem_cons_self _ _)
    rw [List.cons_append, guarded, ih (fun y hy => h y (List.mem_cons_of_mem _ hy))]
    rfl

/-- C24 does not hold of the code: RunPreparable, StartApplications, StopApplications,
DeleteApplications, Revive and SaveApplications make every registry access between
`daemon.Lock()` and the deferred `daemon.Unlock()`, but Stop and the handler MonitStatus
never take the mutex, so on every daemon their registry accesses (the ListApplications
snapshot, the calls of `stop`, `saveApplicationsWrapper`) are made without it. -/
theorem Stop_and_MonitStatus_hold_no_mutex (daemon : Daemon) :
    guarded false Daemon.RunPreparableSync = true ∧
      guarded false Daemon.StartApplicationsSync = true ∧
      guarded false Daemon.StopApplicationsSync = true ∧
      guarded false Daemon.DeleteApplicationsSync = true ∧
      guarded false daemon.ReviveSync = true ∧
      guarded false Daemon.SaveApplicationsSync = true ∧
      guarded false daemon.StopSync = false ∧
      guarded false (RemoteDaemon.MonitStatusSync { daemon := daemon }) = false := by
  refine ⟨by decide, by decide, by decide, by decide, ?_, by decide, ?_, ?_⟩
  · unfold Daemon.ReviveSync
    rw [List.append_assoc]
    show guarded true (_ ++ [Sync.Unlock]) = true
    rw [guarded_registry]
    · rfl
    · intro x hx
      obtain ⟨a, -, rfl⟩ := List.mem_map.1 hx
      exact ⟨_, rfl⟩
  · simp [Daemon.StopSync, guarded]
  · simp [RemoteDaemon.MonitStatusSync, guarded]

/-! ## The layout of an application -/

theorem Preparable.Start_layout {env : Env} {os os2 : OS} {p p2 : Preparable}
    {a : Application} {e : GoError}
    (h : p.Start env os = .ok (p2, a, os2, e))
    (hl : (TrimSuffix p.SysFolder "/").data.getLast? ≠ some '/') :
    a.Path ≠ "" ∧ isUnder a.Path a.Pidfile = true := by
  rw [Preparable.Start_eq] at h
  split at h
  · cases h
  · simp only [Except.ok.injEq, Prod.mk.injEq] at h
    obtain ⟨-, hs⟩ := h
    have hc := Application.config_name (Application.Start_spec_of_eq hs).1
    have hpath : a.Path = TrimSuffix p.SysFolder "/" ++ "/" ++ p.Name := hc.2.2.1
    have hpid : a.Pidfile = a.Path ++ "/" ++ p.Name ++ ".pid" := by
      rw [hpath, hc.2.2.2.1]
      simp only [TrimSuffix_of_last_ne _ hl]
    have h1 : ("/" : String).data = ['/'] := rfl
    constructor
    · intro h0
      have hd := congrArg String.data h0
      rw [hpath] at hd
      simp [String.data_append, h1] at hd
    · unfold isUnder
      rw [hpid]
      simp only [String.data_append, h1, List.append_assoc, Bool.or_eq_true]
      right
      rw [List.isPrefixOf_iff_prefix, ← List.append_assoc]
      exact List.prefix_append _ _

end Opengacm
